import Mathlib

/-!
# DVK: a shallow embedding of the command flows

The development follows the three command classes of the repository
(`ProjectCreator`, `AutoInstaller`, `ProjectCloner`) and the dispatcher in
`dvk.cpp`.  C++ `std::string` values are Lean strings, `std::filesystem`
paths are strings in generic POSIX format, and everything the program does
to its surroundings is a function on an explicit `World`.
-/

namespace DVK

/-! ## Console input (`include/input.hpp`) and project names -/

/-- `std::isalnum` in the default "C" locale (the program never calls
`setlocale`): the ASCII digits and the ASCII letters. -/
def isalnum (c : Char) : Bool :=
  let n := c.toNat
  (48 ≤ n && n ≤ 57) || (65 ≤ n && n ≤ 90) || (97 ≤ n && n ≤ 122)

/-- `ProjectCreator::isValidProjectName` (ProjectCreator.cpp:143-148). -/
def isValidProjectName (name : String) : Bool :=
  if name.data.isEmpty then false
  else name.data.all (fun c => isalnum c || c == '_' || c == '-')

/-- The characters stripped by `input::getInput`: `" \t\n\r"`. -/
def isTrimChar (c : Char) : Bool := c == ' ' || c == '\t' || c == '\n' || c == '\r'

/-- The "basic trim" of `input::getInput`: `substr(first, last - first + 1)`
between the first and the last character outside `" \t\n\r"`, the empty
string when there is none. -/
def trim (s : String) : String :=
  ⟨((s.data.dropWhile isTrimChar).reverse.dropWhile isTrimChar).reverse⟩

/-- `input::getInput` (input.hpp:5-16).  Standard input is the list of the
newline-terminated lines still to be read; once they are used up `getline`
hits end of file and the function throws `"Input stream closed."`. -/
def getInput : List String → Except String (String × List String)
  | [] => .error "Input stream closed."
  | line :: rest => .ok (trim line, rest)

/-- Severity of a console message (`print::info`, `print::warn`,
`print::error`, `print::success`) or plain `std::cout` text. -/
inductive Level
  | info | warn | error | success | cout
  deriving DecidableEq, Repr

/-- One message written to the console. -/
abbrev Message := Level × String

/-- The name loop of `ProjectCreator::getProjectInfo` (ProjectCreator.cpp:152-157):
prompt, read a line with `getInput`, leave the loop when the name is valid,
otherwise print the error and prompt again.  Returns the accepted name, the
unread input and the messages printed; end of input surfaces as the
exception thrown by `getInput`. -/
def promptProjectName : List String → List Message → Except String (String × List String × List Message)
  | [], _ => .error "Input stream closed."
  | line :: rest, out =>
    if isValidProjectName (trim line) then
      .ok (trim line, rest, out ++ [(Level.info, "Project name: ")])
    else
      promptProjectName rest
        (out ++ [(Level.info, "Project name: "),
          (Level.error, "Invalid name. Use letters, numbers, hyphens, and underscores only.")])

/-- The wording of the requirement on a project name: non-empty, and every
character an ASCII letter, an ASCII digit, `_` or `-`. -/
def NameOK (name : String) : Prop :=
  name ≠ "" ∧ ∀ c ∈ name.data, c.isAlpha = true ∨ c.isDigit = true ∨ c = '_' ∨ c = '-'

/-! ## Template generation (`ProjectCreator`) -/

/-- `ProjectCreator::ProjectType`. -/
inductive ProjectType
  | C | CPP | Mixed | ASM | Unknown
  deriving DecidableEq, Repr

/-- `ProjectCreator::BuildSystem`. -/
inductive BuildSystem
  | Make | CMake | Autocc | Manual | Unknown
  deriving DecidableEq, Repr

/-- Scan of `findAndReplaceAll`: `skip` counts the characters of a match
that are still to be passed over. -/
def findAndReplaceAllAux (toSearch replaceStr : List Char) : Nat → List Char → List Char
  | _, [] => []
  | skip + 1, _ :: cs => findAndReplaceAllAux toSearch replaceStr skip cs
  | 0, c :: cs =>
    if toSearch.isPrefixOf (c :: cs) then
      replaceStr ++ findAndReplaceAllAux toSearch replaceStr (toSearch.length - 1) cs
    else c :: findAndReplaceAllAux toSearch replaceStr 0 cs

/-- Modelled from the spec: `findAndReplaceAll` of `findNreplace.hpp`, which is
not among the sources.  The spec describes it as "literal substring
replacement" that puts the project name in place of "every placeholder
occurrence": occurrences of `toSearch` are found from left to right, each is
replaced by `replaceStr`, and the search goes on behind the inserted text (the
inserted text is never searched again). -/
def findAndReplaceAll (data toSearch replaceStr : String) : String :=
  if toSearch.data.isEmpty then data
  else ⟨findAndReplaceAllAux toSearch.data replaceStr.data 0 data.data⟩

/-- Raw string assigned to `content` for `ProjectType::C` in `getMakefileContent`. -/
def makefileTemplateC : String :=
  "CC = gcc\n" ++
  "CFLAGS = -Wall -Wextra -std=c99 -g\n" ++
  "TARGET = _PROJECT_NAME_\n" ++
  "SRCDIR = src\n" ++
  "OBJDIR = build\n" ++
  "SOURCES = $(wildcard $(SRCDIR)/*.c)\n" ++
  "OBJECTS = $(SOURCES:$(SRCDIR)/%.c=$(OBJDIR)/%.o)\n" ++
  "\n" ++
  ".PHONY: all clean run debug install\n" ++
  "\n" ++
  "all: $(OBJDIR) $(TARGET)\n" ++
  "\n" ++
  "$(TARGET): $(OBJECTS)\n" ++
  "\t$(CC) $(OBJECTS) -o $@\n" ++
  "\n" ++
  "$(OBJDIR)/%.o: $(SRCDIR)/%.c\n" ++
  "\t$(CC) $(CFLAGS) -c $< -o $@\n" ++
  "\n" ++
  "$(OBJDIR):\n" ++
  "\tmkdir -p $(OBJDIR)\n" ++
  "\n" ++
  "clean:\n" ++
  "\trm -rf $(OBJDIR) $(TARGET)\n" ++
  "\n" ++
  "run: all\n" ++
  "\t./$(TARGET)\n" ++
  "\n" ++
  "debug: CFLAGS += -DDEBUG\n" ++
  "debug: all\n" ++
  "\n" ++
  "install: all\n" ++
  "\tcp $(TARGET) /usr/local/bin/\n"

/-- Raw string assigned to `content` for `ProjectType::CPP` in `getMakefileContent`. -/
def makefileTemplateCPP : String :=
  "CXX = g++\n" ++
  "CXXFLAGS = -Wall -Wextra -std=c++17 -g\n" ++
  "TARGET = _PROJECT_NAME_\n" ++
  "SRCDIR = src\n" ++
  "OBJDIR = build\n" ++
  "SOURCES = $(wildcard $(SRCDIR)/*.cpp)\n" ++
  "OBJECTS = $(SOURCES:$(SRCDIR)/%.cpp=$(OBJDIR)/%.o)\n" ++
  "\n" ++
  ".PHONY: all clean run debug install\n" ++
  "\n" ++
  "all: $(OBJDIR) $(TARGET)\n" ++
  "\n" ++
  "$(TARGET): $(OBJECTS)\n" ++
  "\t$(CXX) $(OBJECTS) -o $@\n" ++
  "\n" ++
  "$(OBJDIR)/%.o: $(SRCDIR)/%.cpp\n" ++
  "\t$(CXX) $(CXXFLAGS) -c $< -o $@\n" ++
  "\n" ++
  "$(OBJDIR):\n" ++
  "\tmkdir -p $(OBJDIR)\n" ++
  "\n" ++
  "clean:\n" ++
  "\trm -rf $(OBJDIR) $(TARGET)\n" ++
  "\n" ++
  "run: all\n" ++
  "\t./$(TARGET)\n" ++
  "\n" ++
  "debug: CXXFLAGS += -DDEBUG\n" ++
  "debug: all\n" ++
  "\n" ++
  "install: all\n" ++
  "\tcp $(TARGET) /usr/local/bin/\n"

/-- Raw string assigned to `content` for `ProjectType::Mixed` in `getMakefileContent`. -/
def makefileTemplateMixed : String :=
  "CC = gcc\n" ++
  "CXX = g++\n" ++
  "CFLAGS = -Wall -Wextra -std=c99 -g\n" ++
  "CXXFLAGS = -Wall -Wextra -std=c++17 -g\n" ++
  "TARGET = _PROJECT_NAME_\n" ++
  "SRCDIR = src\n" ++
  "OBJDIR = build\n" ++
  "\n" ++
  "C_SOURCES = $(wildcard $(SRCDIR)/*.c)\n" ++
  "CXX_SOURCES = $(wildcard $(SRCDIR)/*.cpp)\n" ++
  "OBJECTS = $(C_SOURCES:$(SRCDIR)/%.c=$(OBJDIR)/%.o) $(CXX_SOURCES:$(SRCDIR)/%.cpp=$(OBJDIR)/%.o)\n" ++
  "\n" ++
  ".PHONY: all clean run debug install\n" ++
  "\n" ++
  "all: $(OBJDIR) $(TARGET)\n" ++
  "\n" ++
  "$(TARGET): $(OBJECTS)\n" ++
  "\t$(CXX) $(OBJECTS) -o $@\n" ++
  "\n" ++
  "$(OBJDIR)/%.o: $(SRCDIR)/%.c\n" ++
  "\t$(CC) $(CFLAGS) -c $< -o $@\n" ++
  "\n" ++
  "$(OBJDIR)/%.o: $(SRCDIR)/%.cpp\n" ++
  "\t$(CXX) $(CXXFLAGS) -c $< -o $@\n" ++
  "\n" ++
  "$(OBJDIR):\n" ++
  "\tmkdir -p $(OBJDIR)\n" ++
  "\n" ++
  "clean:\n" ++
  "\trm -rf $(OBJDIR) $(TARGET)\n" ++
  "\n" ++
  "run: all\n" ++
  "\t./$(TARGET)\n" ++
  "\n" ++
  "debug: CFLAGS += -DDEBUG\n" ++
  "debug: CXXFLAGS += -DDEBUG\n" ++
  "debug: all\n" ++
  "\n" ++
  "install: all\n" ++
  "\tcp $(TARGET) /usr/local/bin/\n"

/-- Raw string assigned to `content` for `ProjectType::ASM` in `getMakefileContent`. -/
def makefileTemplateASM : String :=
  "AS = as\n" ++
  "LD = ld\n" ++
  "TARGET = _PROJECT_NAME_\n" ++
  "SRCDIR = src\n" ++
  "OBJDIR = build\n" ++
  "SOURCES = $(wildcard $(SRCDIR)/*.s)\n" ++
  "OBJECTS = $(SOURCES:$(SRCDIR)/%.s=$(OBJDIR)/%.o)\n" ++
  "\n" ++
  ".PHONY: all clean run install\n" ++
  "\n" ++
  "all: $(OBJDIR) $(TARGET)\n" ++
  "\n" ++
  "$(TARGET): $(OBJECTS)\n" ++
  "\t$(LD) $(OBJECTS) -o $@\n" ++
  "\n" ++
  "$(OBJDIR)/%.o: $(SRCDIR)/%.s\n" ++
  "\t$(AS) $< -o $@\n" ++
  "\n" ++
  "$(OBJDIR):\n" ++
  "\tmkdir -p $(OBJDIR)\n" ++
  "\n" ++
  "clean:\n" ++
  "\trm -rf $(OBJDIR) $(TARGET)\n" ++
  "\n" ++
  "run: all\n" ++
  "\t./$(TARGET)\n" ++
  "\n" ++
  "install: all\n" ++
  "\tcp $(TARGET) /usr/local/bin/\n"

/-- `ProjectCreator::getMakefileContent` (ProjectCreator.cpp:323-475): the
template of the project type (none for `Unknown`, where `content` stays
empty), with `_PROJECT_NAME_` replaced by the project name. -/
def getMakefileContent (m_projectType : ProjectType) (m_projectName : String) : String :=
  let content :=
    match m_projectType with
    | .C => makefileTemplateC
    | .CPP => makefileTemplateCPP
    | .Mixed => makefileTemplateMixed
    | .ASM => makefileTemplateASM
    | .Unknown => ""
  findAndReplaceAll content "_PROJECT_NAME_" m_projectName

/-! ## The world: paths, file system, environment -/

/-- A `std::filesystem::path` in generic POSIX format. -/
abbrev Path := String

/-- `path::is_absolute` on POSIX: the path starts with the root directory. -/
def is_absolute (p : Path) : Bool := p.data.head? == some '/'

/-- `operator/` of `std::filesystem::path`: an absolute right operand replaces
the left one; otherwise a separator is inserted when the left operand ends
in a file name. -/
def pathAppend (a b : Path) : Path :=
  if is_absolute b then b
  else if a.data.isEmpty || a.data.getLast? == some '/' then a ++ b
  else a ++ "/" ++ b

/-- `path::filename`: what follows the last separator. -/
def filename (p : Path) : Path :=
  ⟨(p.data.reverse.takeWhile (fun c => c != '/')).reverse⟩

/-- `path::parent_path`: the path without its last component; the root
directory is its own parent and a bare file name has the empty parent. -/
def parent_path (p : Path) : Path :=
  let afterName := p.data.reverse.dropWhile (fun c => c != '/')
  let stripped := afterName.dropWhile (fun c => c == '/')
  if stripped.isEmpty then (if afterName.isEmpty then "" else "/")
  else ⟨stripped.reverse⟩

/-- `path::root_path` on POSIX. -/
def root_path (p : Path) : Path := if is_absolute p then "/" else ""

/-- What a name of the file system stands for.  `mode` holds the permission
bits of `st_mode`. -/
inductive Node
  | file (mode : Nat) (content : String)
  | dir (mode : Nat)
  | symlink (target : Path)
  deriving DecidableEq, Repr

/-- The file system: absolute path names and what they denote.  Names are
taken as the program writes them (no normalisation of `.` or `..`). -/
abbrev FileSystem := Path → Option Node

/-- A call that acts on the surroundings of the process. -/
inductive Event
  | exec (cmd : String)
  | chmod (path : Path) (mode : Nat)
  | remove (path : Path)
  | remove_all (path : Path)
  | copy_file (src dst : Path)
  | create_symlink (target link : Path)
  | ofstream (path : Path)
  | create_directory (path : Path)
  deriving DecidableEq, Repr

/-- `CommandResult` of the command-execution facility: exit code and
captured standard output. -/
structure CommandResult where
  exit_code : Int
  stdout_output : String
  deriving DecidableEq, Repr

/-- Everything the process reads from its surroundings without changing it. -/
structure Env where
  /-- The working directory, `none` when it cannot be determined (it was
  removed): `fs::current_path()` throws and `fs::absolute(p, ec)` sets `ec`. -/
  cwd : Option Path
  /-- The value of `getuid()`. -/
  uid : Nat
  /-- Whether `access(path, W_OK) == 0`. -/
  access_w : Path → Bool
  /-- The command-execution facility `execute` (exit code, standard output). -/
  execute : String → CommandResult
  /-- Whether the operating system refuses this call for a reason the
  file-system map does not show (EPERM, ENOSPC, EXDEV, ENOTEMPTY, ...). -/
  fault : Event → Bool
  /-- The local time of the run formatted with `"%Y%m%d_%H%M%S"`. -/
  timestamp : String
  /-- The characters waiting on standard input for `std::cin >> response`. -/
  stdin : List Char
  /-- The indeterminate value of an uninitialised `char`. -/
  uninit : Char
  /-- Whether a path exists once the external backup command has run. -/
  existsAfterBackup : Path → Bool
  /-- The result of `file_size` on the archive (`none`: error code set). -/
  fileSizeAfterBackup : Path → Option Nat
  /-- The permission bits a newly created file gets (0666 masked by the umask). -/
  createMode : Nat
  /-- The permission bits a newly created directory gets (0777 masked by the umask). -/
  createDirMode : Nat
  /-- The value of `getenv("HOME")`, `none` for a null pointer. -/
  home : Option String
  /-- The compiler's `__DATE__` and `__TIME__`. -/
  buildDate : String
  buildTime : String

/-- The mutable surroundings: the file system, the calls made on it in
order, and the console output. -/
structure World where
  fs : FileSystem
  trace : List Event
  out : List Message

/-- Append a console message. -/
def World.print (w : World) (l : Level) (msg : String) : World :=
  { w with out := w.out ++ [(l, msg)] }

/-- Record a call. -/
def World.record (w : World) (e : Event) : World :=
  { w with trace := w.trace ++ [e] }

/-- The absolute name the operating system looks a path up under: an absolute
path as it is spelled, a relative one behind the working directory.  The
spelling is not normalised (`.`, `..`, doubled and trailing separators are
kept), so a file system map is keyed by the spelling the program uses. -/
def absKey (env : Env) (p : Path) : Option Path :=
  if p.data.isEmpty then none
  else if is_absolute p then some p
  else env.cwd.map (fun c => pathAppend c p)

/-- Follow symbolic links at the end of an absolute name, at most `fuel`
of them (the kernel gives up with ELOOP after 40). -/
def follow (fs : FileSystem) : Nat → Path → Option (Path × Node)
  | 0, _ => none
  | fuel + 1, k =>
    match fs k with
    | none => none
    | some (Node.symlink t) =>
      if t.data.isEmpty then none else follow fs fuel (pathAppend (parent_path k) t)
    | some n => some (k, n)

/-- `lstat`: the node a path names, links not followed. -/
def lstat (env : Env) (fs : FileSystem) (p : Path) : Option (Path × Node) :=
  (absKey env p).bind (fun k => (fs k).map (fun n => (k, n)))

/-- `stat`: the node a path leads to, links followed. -/
def stat (env : Env) (fs : FileSystem) (p : Path) : Option (Path × Node) :=
  (absKey env p).bind (follow fs 40)

/-- `fs::exists`. -/
def fs_exists (env : Env) (fs : FileSystem) (p : Path) : Bool :=
  (stat env fs p).isSome

/-- `fs::is_regular_file`. -/
def is_regular_file (env : Env) (fs : FileSystem) (p : Path) : Bool :=
  match stat env fs p with
  | some (_, Node.file _ _) => true
  | _ => false

/-- `fs::is_directory`. -/
def is_directory (env : Env) (fs : FileSystem) (p : Path) : Bool :=
  match stat env fs p with
  | some (_, Node.dir _) => true
  | _ => false

/-- `fs::is_symlink`. -/
def is_symlink (env : Env) (fs : FileSystem) (p : Path) : Bool :=
  match lstat env fs p with
  | some (_, Node.symlink _) => true
  | _ => false

/-- The `st_mode` permission bits of a node that `stat` can return. -/
def Node.mode : Node → Nat
  | .file m _ => m
  | .dir m => m
  | .symlink _ => 0

/-- The node with its permission bits replaced. -/
def Node.setMode : Node → Nat → Node
  | .file _ c, m => .file m c
  | .dir _, m => .dir m
  | .symlink t, _ => .symlink t

/-- `chmod(2)`: follows links; `true` when it succeeded (returned 0). -/
def chmod (env : Env) (p : Path) (mode : Nat) (w : World) : Bool × World :=
  let w1 := w.record (.chmod p mode)
  match stat env w.fs p with
  | none => (false, w1)
  | some (k, n) =>
    if env.fault (.chmod p mode) then (false, w1)
    else (true, { w1 with fs := Function.update w.fs k (some (n.setMode mode)) })

/-- `fs::remove(path, ec)`: removes the name itself (links not followed); a
missing name is no error.  Returns whether `ec` is set. -/
def fs_remove (env : Env) (p : Path) (w : World) : Bool × World :=
  let w1 := w.record (.remove p)
  match lstat env w.fs p with
  | none => (false, w1)
  | some (k, _) =>
    if env.fault (.remove p) then (true, w1)
    else (false, { w1 with fs := Function.update w.fs k none })

/-- `fs::remove_all(path, ec)`: removes the name and everything below it.
Returns whether `ec` is set.  A removal that fails is taken to leave the
whole tree in place; the real call may have removed part of it by then. -/
def fs_remove_all (env : Env) (p : Path) (w : World) : Bool × World :=
  let w1 := w.record (.remove_all p)
  match lstat env w.fs p with
  | none => (false, w1)
  | some (k, _) =>
    if env.fault (.remove_all p) then (true, w1)
    else (false, { w1 with fs := fun q =>
      if q = k ∨ (k ++ "/").data.isPrefixOf q.data then none else w.fs q })

/-- `fs::copy_file(from, to, ec)` with the default options: `from` must lead
to a regular file, `to` must not exist and its directory must; the new
file gets the content and the permission bits of the source.  Returns
whether `ec` is set. -/
def fs_copy_file (env : Env) (src dst : Path) (w : World) : Bool × World :=
  let w1 := w.record (.copy_file src dst)
  match stat env w.fs src, absKey env dst with
  | some (_, Node.file mode content), some k =>
    if (w.fs k).isSome || !(is_directory env w.fs (parent_path k))
        || env.fault (.copy_file src dst) then (true, w1)
    else (false, { w1 with fs := Function.update w.fs k (some (Node.file mode content)) })
  | _, _ => (true, w1)

/-- `fs::create_symlink(target, link, ec)`: `link` must not exist and its
directory must; the target is stored as given, whether it exists or not.
Returns whether `ec` is set. -/
def fs_create_symlink (env : Env) (target link : Path) (w : World) : Bool × World :=
  let w1 := w.record (.create_symlink target link)
  match absKey env link with
  | some k =>
    if (w.fs k).isSome || !(is_directory env w.fs (parent_path k))
        || env.fault (.create_symlink target link) then (true, w1)
    else (false, { w1 with fs := Function.update w.fs k (some (Node.symlink target)) })
  | none => (true, w1)

/-- Opening a `std::ofstream` on a path: the file is created, or truncated
when it is there already.  Returns `is_open()`. -/
def fs_ofstream (env : Env) (p : Path) (w : World) : Bool × World :=
  let w1 := w.record (.ofstream p)
  match absKey env p with
  | none => (false, w1)
  | some k =>
    if env.fault (.ofstream p) then (false, w1)
    else
      match w.fs k with
      | none =>
        if is_directory env w.fs (parent_path k) then
          (true, { w1 with fs := Function.update w.fs k (some (Node.file env.createMode "")) })
        else (false, w1)
      | some _ =>
        match follow w.fs 40 k with
        | some (k1, Node.file mode _) =>
          (true, { w1 with fs := Function.update w.fs k1 (some (Node.file mode "")) })
        | _ => (false, w1)

/-- The command-execution facility at work: the command is recorded and its
result comes from the environment.  What an external tool does to files is
not part of `fs`. -/
def execute (env : Env) (cmd : String) (w : World) : CommandResult × World :=
  (env.execute cmd, w.record (.exec cmd))

/-! ## The installer (`AutoInstaller`) -/

/-- `enum class InstallMode`. -/
inductive InstallMode
  | Copy | Link | Auto
  deriving DecidableEq, Repr

/-- The configuration members of `AutoInstaller` with their in-class
initialisers. -/
structure AutoInstaller where
  m_sourceFile : String := ""
  m_mode : InstallMode := InstallMode.Copy
  m_targetDir : String := "/usr/local/bin"
  deriving DecidableEq, Repr

/-- `S_IXUSR`. -/
def S_IXUSR : Nat := 0o100
/-- `S_IXGRP`. -/
def S_IXGRP : Nat := 0o010
/-- `S_IXOTH`. -/
def S_IXOTH : Nat := 0o001

/-- `AutoInstaller::hasWritePermission` (AutoInstaller.cpp:229-236). -/
def hasWritePermission (env : Env) (directory : Path) : Bool := env.access_w directory

/-- `AutoInstaller::isRoot` (AutoInstaller.cpp:238-245). -/
def isRoot (env : Env) : Bool := env.uid == 0

/-- `AutoInstaller::getAbsolutePath` (AutoInstaller.cpp:247-254):
`fs::absolute(path, ec)`, and the path itself when `ec` is set (empty
path, or no working directory for a relative one). -/
def getAbsolutePath (env : Env) (path : String) : Path :=
  match absKey env path with
  | some k => k
  | none => path

/-- `AutoInstaller::getFilename` (AutoInstaller.cpp:256-258). -/
def getFilename (path : String) : String := filename path

/-- `AutoInstaller::fileExists` (AutoInstaller.cpp:260-262). -/
def fileExists (env : Env) (fs : FileSystem) (path : Path) : Bool :=
  fs_exists env fs path && is_regular_file env fs path

/-- `AutoInstaller::removeExisting` (AutoInstaller.cpp:264-275). -/
def removeExisting (env : Env) (path : Path) (w : World) : Bool × World :=
  if fs_exists env w.fs path || is_symlink env w.fs path then
    let w1 := w.print .info ("Removing existing '" ++ path ++ "'...")
    let (ec, w2) := fs_remove env path w1
    if ec then (false, w2.print .error "Failed to remove existing file: <ec.message()>")
    else (true, w2)
  else (true, w)

/-- `AutoInstaller::makeExecutable` (AutoInstaller.cpp:132-151), POSIX branch. -/
def makeExecutable (env : Env) (filePath : Path) (w : World) : Bool × World :=
  match stat env w.fs filePath with
  | none => (false, w)
  | some (_, st) =>
    if st.mode &&& S_IXUSR = 0 then
      let w1 := w.print .info ("Making '" ++ filePath ++ "' executable...")
      let (ok, w2) := chmod env filePath (st.mode ||| S_IXUSR ||| S_IXGRP ||| S_IXOTH) w1
      if !ok then (false, w2.print .error "Failed to make file executable")
      else (true, w2)
    else (true, w)

/-- One round of the first loop of `autoDetectPath`: run `which cmd` and give
the containing directory of the command when it qualifies. -/
def probeCommand (env : Env) (cmd : String) (w : World) : Option String × World :=
  let (result, w1) := execute env ("which " ++ cmd) w
  if result.exit_code = 0 ∧ ¬ result.stdout_output.data.isEmpty then
    let cmdPath : Path := ⟨result.stdout_output.data.filter (fun c => c != '\n')⟩
    if fs_exists env w1.fs cmdPath && is_regular_file env w1.fs cmdPath then
      let binDir := parent_path cmdPath
      if hasWritePermission env binDir || isRoot env then (some binDir, w1) else (none, w1)
    else (none, w1)
  else (none, w1)

/-- The first loop of `autoDetectPath` over the remaining test commands. -/
def probeCommands (env : Env) : List String → World → Option String × World
  | [], w => (none, w)
  | cmd :: rest, w =>
    match probeCommand env cmd w with
    | (some binDir, w1) => (some binDir, w1)
    | (none, w1) => probeCommands env rest w1

/-- The second loop of `autoDetectPath` over the remaining fallback paths. -/
def probeFallbacks (env : Env) (fs : FileSystem) : List String → Option String
  | [] => none
  | path :: rest =>
    if is_directory env fs path && (hasWritePermission env path || isRoot env) then some path
    else probeFallbacks env fs rest

/-- `testCommands` of `autoDetectPath`. -/
def testCommands : List String := ["ls", "cat", "echo", "sh", "which"]

/-- `fallbackPaths` of `autoDetectPath`. -/
def fallbackPaths : List String := ["/usr/local/bin", "/usr/bin", "/bin"]

/-- `AutoInstaller::autoDetectPath` (AutoInstaller.cpp:97-121). -/
def autoDetectPath (env : Env) (w : World) : String × World :=
  match probeCommands env testCommands w with
  | (some binDir, w1) => (binDir, w1)
  | (none, w1) =>
    match probeFallbacks env w1.fs fallbackPaths with
    | some path => (path, w1)
    | none => ("", w1.print .error "Could not find a suitable bin directory")

/-- `AutoInstaller::showUsage` (AutoInstaller.cpp:58-70). -/
def AutoInstaller.showUsage (programName : String) (w : World) : World :=
  { w with out := w.out ++ [
    (Level.info, "Usage: " ++ programName ++ " <file> [--link|--auto]"),
    (Level.info, ""),
    (Level.info, "Options:"),
    (Level.info, "  (default)  Copy file to /usr/local/bin"),
    (Level.info, "  --link     Create symbolic link instead of copying"),
    (Level.info, "  --auto     Auto-detect bin path using existing commands"),
    (Level.info, ""),
    (Level.info, "Examples:"),
    (Level.info, "  " ++ programName ++ " myscript              # Copy to /usr/local/bin/myscript"),
    (Level.info, "  " ++ programName ++ " myscript --link       # Link to /usr/local/bin/myscript"),
    (Level.info, "  " ++ programName ++ " myscript --auto       # Auto-detect path and copy")] }

/-- `AutoInstaller::parseArguments` (AutoInstaller.cpp:72-95); a null pointer
is `none`.  The result is the exception message or the updated object,
together with the world. -/
def AutoInstaller.parseArguments (env : Env) (self : AutoInstaller)
    (target flags : Option String) (w : World) : Except String AutoInstaller × World :=
  let self1 : AutoInstaller :=
    match target with
    | some t => { self with m_sourceFile := t }
    | none => self
  if !(fs_exists env w.fs self1.m_sourceFile) then
    (.error "Source not found", w.print .error ("Source " ++ self1.m_sourceFile ++ " not found"))
  else
    match flags with
    | none => (.ok self1, w)
    | some f =>
      if f = "--link" then (.ok { self1 with m_mode := .Link }, w)
      else if f = "--auto" then
        let (dir, w1) := autoDetectPath env w
        if dir.data.isEmpty then
          (.error "Could not auto-detect suitable bin directory", w1)
        else (.ok { self1 with m_mode := .Auto, m_targetDir := dir }, w1)
      else
        (.error "Invalid option",
          AutoInstaller.showUsage "autoinstall" (w.print .error ("Unknown option '" ++ f ++ "'")))

/-- `AutoInstaller::validateSourceFile` (AutoInstaller.cpp:123-130). -/
def AutoInstaller.validateSourceFile (env : Env) (self : AutoInstaller) (w : World) : Bool × World :=
  if !(fileExists env w.fs self.m_sourceFile) then
    (false, w.print .error ("Source file '" ++ self.m_sourceFile ++ "' does not exist"))
  else (true, w)

/-- `AutoInstaller::checkTargetDirectory` (AutoInstaller.cpp:153-165). -/
def AutoInstaller.checkTargetDirectory (env : Env) (self : AutoInstaller) (w : World) : Bool × World :=
  if !(is_directory env w.fs self.m_targetDir) then
    (false, w.print .error ("Target directory '" ++ self.m_targetDir ++ "' does not exist"))
  else if !(hasWritePermission env self.m_targetDir) && !(isRoot env) then
    (false, w.print .error
      ("No write permission to '" ++ self.m_targetDir ++ "'. Try running with sudo."))
  else (true, w)

/-- `AutoInstaller::performInstallation` (AutoInstaller.cpp:167-209). -/
def AutoInstaller.performInstallation (env : Env) (self : AutoInstaller) (w : World) : Bool × World :=
  let sourcePath := getAbsolutePath env self.m_sourceFile
  let targetPath := pathAppend self.m_targetDir (getFilename self.m_sourceFile)
  match makeExecutable env sourcePath w with
  | (false, w1) => (false, w1)
  | (true, w1) =>
    match removeExisting env targetPath w1 with
    | (false, w2) => (false, w2)
    | (true, w2) =>
      let finish (w5 : World) : Bool × World :=
        (true, w5.print .success ("Successfully installed '" ++ getFilename self.m_sourceFile
          ++ "' to '" ++ self.m_targetDir ++ "'"))
      match self.m_mode with
      | .Link =>
        let w3 := w2.print .info
          ("Creating symbolic link '" ++ targetPath ++ "' -> '" ++ sourcePath ++ "'...")
        match fs_create_symlink env sourcePath targetPath w3 with
        | (true, w4) => (false, w4.print .error "Failed to create symbolic link: <ec.message()>")
        | (false, w4) => finish w4
      | _ =>
        let w3 := w2.print .info ("Copying '" ++ sourcePath ++ "' to '" ++ targetPath ++ "'...")
        match fs_copy_file env sourcePath targetPath w3 with
        | (true, w4) => (false, w4.print .error "Failed to copy file: <ec.message()>")
        | (false, w4) =>
          match makeExecutable env targetPath w4 with
          | (false, w5) => (false, w5)
          | (true, w5) => finish w5

/-- Modelled from the spec: `isCommandExecutable`, declared outside the
sources at hand.  The spec has the installer "re-verify the target is present
and executable": the path leads to a regular file with an execute
permission bit. -/
def isCommandExecutable (env : Env) (fs : FileSystem) (p : Path) : Bool :=
  match stat env fs p with
  | some (_, Node.file mode _) => mode &&& (S_IXUSR ||| S_IXGRP ||| S_IXOTH) != 0
  | _ => false

/-- `AutoInstaller::verifyInstallation` (AutoInstaller.cpp:211-227). -/
def AutoInstaller.verifyInstallation (env : Env) (self : AutoInstaller) (targetPath : Path)
    (w : World) : Bool × World :=
  if !(fs_exists env w.fs targetPath) then
    (false, w.print .error "Installation failed - target does not exist")
  else if !(isCommandExecutable env w.fs targetPath) then
    (false, w.print .error "Installation failed - target is not executable")
  else
    (true, w.print .success
      ("Installation verified: '" ++ getFilename self.m_sourceFile ++ "' is executable"))

/-- How far `AutoInstaller::run` got. -/
inductive RunResult
  | caught (what : String)
  | sourceRejected
  | targetRejected
  | installFailed
  | verifyFailed
  | verified
  deriving DecidableEq, Repr

/-- `AutoInstaller::run` (AutoInstaller.cpp:15-37).  The function returns
`void`; the result says which of its exits was taken. -/
def AutoInstaller.run (env : Env) (self : AutoInstaller) (target flags : Option String)
    (w : World) : RunResult × World :=
  match AutoInstaller.parseArguments env self target flags w with
  | (.error what, w1) => (.caught what, w1.print .error ("An error occurred: " ++ what))
  | (.ok self1, w1) =>
    match self1.validateSourceFile env w1 with
    | (false, w2) => (.sourceRejected, w2)
    | (true, w2) =>
      match self1.checkTargetDirectory env w2 with
      | (false, w3) => (.targetRejected, w3)
      | (true, w3) =>
        match self1.performInstallation env w3 with
        | (false, w4) => (.installFailed, w4)
        | (true, w4) =>
          match self1.verifyInstallation env
              (pathAppend self1.m_targetDir (getFilename self1.m_sourceFile)) w4 with
          | (false, w5) => (.verifyFailed, w5.print .error "Installation validation failed.")
          | (true, w5) => (.verified, w5)

/-- `AutoInstaller::install` (AutoInstaller.cpp:39-56). -/
def AutoInstaller.install (env : Env) (self : AutoInstaller) (sourceFile : String)
    (mode : InstallMode) (customTargetDir : String) (w : World) : Bool × World :=
  let self1 : AutoInstaller := { self with m_sourceFile := sourceFile, m_mode := mode }
  let continue_ (self2 : AutoInstaller) (w1 : World) : Bool × World :=
    match self2.validateSourceFile env w1 with
    | (false, w2) => (false, w2)
    | (true, w2) =>
      match self2.checkTargetDirectory env w2 with
      | (false, w3) => (false, w3)
      | (true, w3) =>
        match self2.performInstallation env w3 with
        | (false, w4) => (false, w4)
        | (true, w4) =>
          self2.verifyInstallation env
            (pathAppend self2.m_targetDir (getFilename self2.m_sourceFile)) w4
  if !customTargetDir.data.isEmpty then
    continue_ { self1 with m_targetDir := customTargetDir } w
  else if mode = .Auto then
    let (dir, w1) := autoDetectPath env w
    if dir.data.isEmpty then (false, w1)
    else continue_ { self1 with m_targetDir := dir } w1
  else continue_ self1 w

/-! ## The directory cloner (`ProjectCloner`) -/

/-- `m_excludePatterns` (ProjectCloner.cpp:12-18). -/
def m_excludePatterns : List String := [
  "build", "Build", "cmake-build-*", "out", "bin", "obj", "node_modules",
  "__pycache__", ".pytest_cache", "target", "dist", ".git", ".svn", ".hg",
  ".vscode", ".idea", "*.swp", "*.swo", "*~", "*.o", "*.obj", "*.exe",
  "*.dll", "*.so", "*.dylib", "*.class", "*.pyc", "*.pyo", ".tmp", "*.tmp",
  "*.temp", ".DS_Store", "Thumbs.db", "*.log", "logs"]

/-- The members of `ProjectCloner`; `m_argv` holds `argv[0] .. argv[argc-1]`. -/
structure ProjectCloner where
  m_argv : List String
  m_commandName : String
  m_suffix : String := ""
  m_compress : Bool := false
  m_currentPath : Path := ""
  m_parentPath : Path := ""
  m_backupPath : Path := ""
  m_sourceDirName : String := ""
  deriving DecidableEq, Repr

/-- The constructor `ProjectCloner(argc, argv, command_name)`. -/
def ProjectCloner.mk0 (argv : List String) (command_name : String) : ProjectCloner :=
  { m_argv := argv, m_commandName := command_name }

/-- `ProjectCloner::showUsage` (ProjectCloner.cpp:187-201). -/
def ProjectCloner.showUsage (self : ProjectCloner) (w : World) : World :=
  let n := self.m_commandName
  { w with out := w.out ++ [
    (Level.cout, "Usage: dvk " ++ n ++ " [-c] [suffix]"),
    (Level.cout, ""),
    (Level.cout, "Backs up current directory excluding build/temp files."),
    (Level.cout, ""),
    (Level.cout, "Options:"),
    (Level.cout, "  -c, --compress    Create a compressed .tar.gz archive instead of a directory copy."),
    (Level.cout, "  -h, --help        Show this help message."),
    (Level.cout, ""),
    (Level.cout, "Examples:"),
    (Level.cout, "  dvk " ++ n ++ "                    # Creates clean backup with timestamp"),
    (Level.cout, "  dvk " ++ n ++ " -c                # Creates compressed backup with timestamp"),
    (Level.cout, "  dvk " ++ n ++ " my-version      # Creates clean backup with custom suffix"),
    (Level.cout, "  dvk " ++ n ++ " -c my-version   # Creates compressed backup with custom suffix")] }

/-- The `for` loop of `parseArguments` over the remaining arguments, with the
local `suffix_arg`.  `none` in the first component is a `return false` from
inside the loop. -/
def ProjectCloner.parseLoop (self : ProjectCloner) (suffix_arg : String) :
    List String → World → Option String × ProjectCloner × World
  | [], w => (some suffix_arg, self, w)
  | arg :: rest, w =>
    if arg = "-h" ∨ arg = "--help" then (none, self, self.showUsage w)
    else if arg = "-c" ∨ arg = "--compress" then
      ProjectCloner.parseLoop { self with m_compress := true } suffix_arg rest w
    else if arg.data.head? = some '-' then
      (none, self, self.showUsage (w.print .error ("Unknown option: " ++ arg)))
    else if ¬ suffix_arg.data.isEmpty then
      (none, self,
        self.showUsage (w.print .error "Too many arguments. Only one suffix is allowed."))
    else ProjectCloner.parseLoop self arg rest w

/-- `ProjectCloner::parseArguments` (ProjectCloner.cpp:40-76): the arguments
looked at are `m_argv + 1 .. m_argv + m_argc`. -/
def ProjectCloner.parseArguments (env : Env) (self : ProjectCloner) (w : World) :
    Bool × ProjectCloner × World :=
  let args := self.m_argv.drop 1
  match ProjectCloner.parseLoop self "" args w with
  | (none, self1, w1) => (false, self1, w1)
  | (some suffix_arg, self1, w1) =>
    if suffix_arg.data.isEmpty then
      (true, { self1 with m_suffix := "clean_" ++ env.timestamp }, w1)
    else (true, { self1 with m_suffix := suffix_arg }, w1)

/-- `ProjectCloner::validateEnvironment` (ProjectCloner.cpp:78-93).  The final
`std::filesystem::remove` is the throwing overload. -/
def ProjectCloner.validateEnvironment (env : Env) (self : ProjectCloner) (w : World) :
    Except String Unit × World :=
  let w1 :=
    if self.m_currentPath = root_path self.m_currentPath then
      w.print .error "Cannot backup root directory."
    else w
  let temp_file_path := pathAppend self.m_parentPath ".projclone_writetest"
  let (is_open, w2) := fs_ofstream env temp_file_path w1
  let w3 :=
    if !is_open then
      w2.print .error ("Cannot write to parent directory '" ++ self.m_parentPath ++ "'")
    else w2
  match fs_remove env temp_file_path w3 with
  | (true, w4) => (.error "filesystem error: cannot remove", w4)
  | (false, w4) => (.ok (), w4)

/-- `std::isspace` in the "C" locale. -/
def isspace (c : Char) : Bool :=
  c == ' ' || c == '\t' || c == '\n' || c == '\x0b' || c == '\x0c' || c == '\r'

/-- `std::cin >> response` for a `char`: leading white space is skipped; at
end of input the variable keeps its indeterminate value. -/
def readResponse (env : Env) : Char :=
  match env.stdin.dropWhile isspace with
  | [] => env.uninit
  | c :: _ => c

/-- `ProjectCloner::prepareBackupDestination` (ProjectCloner.cpp:95-120). -/
def ProjectCloner.prepareBackupDestination (env : Env) (self : ProjectCloner) (w : World) :
    Bool × ProjectCloner × World :=
  let backup_name := self.m_sourceDirName ++ "_" ++ self.m_suffix
  let backup_name := if self.m_compress then backup_name ++ ".tar.gz" else backup_name
  let self1 := { self with m_backupPath := pathAppend self.m_parentPath backup_name }
  if fs_exists env w.fs self1.m_backupPath then
    let w1 := w.print .warn ("Backup '" ++ filename self1.m_backupPath ++ "'")
    let w2 := w1.print .cout "Overwrite? (y/N): "
    let response := readResponse env
    if response ≠ 'y' ∧ response ≠ 'Y' then
      (false, self1, w2.print .info "Backup cancelled.")
    else
      let w3 := w2.print .info "Removing existing backup..."
      match fs_remove_all env self1.m_backupPath w3 with
      | (true, w4) =>
        (false, self1, w4.print .error "Failed to remove existing backup: <ec.message()>")
      | (false, w4) => (true, self1, w4)
  else (true, self1, w)

/-- The `--exclude='pattern' ` arguments both backends put in their command. -/
def excludeArgs : List String → String
  | [] => ""
  | pattern :: rest => "--exclude='" ++ pattern ++ "' " ++ excludeArgs rest

/-- `ProjectCloner::performRsyncBackup` (ProjectCloner.cpp:133-145). -/
def ProjectCloner.performRsyncBackup (env : Env) (self : ProjectCloner) (w : World) : World :=
  let w1 := w.print .info "Using rsync for clean copy..."
  let cmd := "rsync -av " ++ excludeArgs m_excludePatterns
    ++ "'" ++ self.m_currentPath ++ "/' '" ++ self.m_backupPath ++ "/'"
  let (result, w2) := execute env cmd w1
  if result.exit_code ≠ 0 then w2.print .error "Failed to execute command" else w2

/-- `ProjectCloner::performTarBackup` (ProjectCloner.cpp:147-162). -/
def ProjectCloner.performTarBackup (env : Env) (self : ProjectCloner) (w : World) : World :=
  let w1 := w.print .info "Using tar for compressed archive..."
  let cmd := "tar -czvf " ++ "'" ++ self.m_backupPath ++ "' " ++ excludeArgs m_excludePatterns
    ++ "-C '" ++ self.m_parentPath ++ "' '" ++ self.m_sourceDirName ++ "'"
  let (result, w2) := execute env cmd w1
  if result.exit_code ≠ 0 then w2.print .error "Failed to execute command" else w2

/-- `ProjectCloner::performBackup` (ProjectCloner.cpp:122-131). -/
def ProjectCloner.performBackup (env : Env) (self : ProjectCloner) (w : World) : World :=
  let w1 := w.print .info ("Creating clean backup: " ++ filename self.m_backupPath)
  let w2 := w1.print .info ("Source: " ++ self.m_currentPath)
  let w3 := w2.print .info ("Target: " ++ self.m_backupPath)
  if self.m_compress then self.performTarBackup env w3 else self.performRsyncBackup env w3

/-- `ProjectCloner::printFinalSummary` (ProjectCloner.cpp:164-185).  It runs
after the external command, so existence and size of the backup are what
the environment reports for that moment.  The location printed is the
backup relative to the current directory, its sibling. -/
def ProjectCloner.printFinalSummary (env : Env) (self : ProjectCloner) (w : World) : World :=
  if !(env.existsAfterBackup self.m_backupPath) then
    w.print .error "Verification failed: Backup file/directory not found."
  else
    let size : Option Nat :=
      if self.m_compress then env.fileSizeAfterBackup self.m_backupPath else some 0
    let size_str :=
      match size with
      | some size_bytes =>
        if size_bytes > 0 then " (" ++ toString (size_bytes / 1024) ++ " KB)" else ""
      | none => ""
    let w1 := w.print .success ("Clean backup created successfully " ++ size_str)
    let w2 := w1.print .info "  Excluded: build dirs, compiled files, IDE configs, etc."
    let rel_path :=
      if self.m_currentPath = self.m_parentPath then filename self.m_backupPath
      else "../" ++ filename self.m_backupPath
    w2.print .info ("  Location: " ++ rel_path)

/-- `ProjectCloner::run` (ProjectCloner.cpp:24-38).  The results of
`parseArguments` and `prepareBackupDestination` are not looked at.  An error
is an exception that leaves `run`: `current_path()` without a working
directory, or the failed removal of the probe file. -/
def ProjectCloner.run (env : Env) (self : ProjectCloner) (w : World) :
    Except String Unit × ProjectCloner × World :=
  match self.parseArguments env w with
  | (_, self1, w1) =>
    match env.cwd with
    | none => (.error "filesystem error: cannot get current path", self1, w1)
    | some cwd =>
      let self2 := { self1 with
        m_currentPath := cwd, m_parentPath := parent_path cwd, m_sourceDirName := filename cwd }
      match self2.validateEnvironment env w1 with
      | (.error what, w2) => (.error what, self2, w2)
      | (.ok _, w2) =>
        match self2.prepareBackupDestination env w2 with
        | (_, self3, w3) =>
          let w4 := self3.performBackup env w3
          (.ok (), self3, self3.printFinalSummary env w4)

/-! ## The dispatcher (`dvk.cpp`) -/

/-- `PROJCLONE_PATH`. -/
def PROJCLONE_PATH : String := "./scripts/projclone"

/-- `DVK::help` (dvk.cpp:69-74). -/
def help (env : Env) (w : World) : World :=
  { w with out := w.out ++ [
    (Level.info, "DVK v0.0.1 compile on " ++ env.buildDate ++ " at " ++ env.buildTime ++ "."),
    (Level.info, "Commands:"),
    (Level.info, "\t install"),
    (Level.info, "\t create")] }

/-- The pointer `argv[i]`: the argument for `i < argc`, the terminating null
pointer at `argc`; further slots are read as null as well (`start` passes
`argv[3]` on without looking at `argc`, and `parseArguments` has already
thrown on the null `argv[2]` whenever that slot lies behind the array). -/
def argvAt (argv : List String) (i : Nat) : Option String := argv.get? i

/-- `DVK::start` (dvk.cpp:14-68) for `argc ≥ 2`.  `wizard` is the effect of
`ProjectCreator::run`, which catches every `std::exception` itself and so
returns normally.  The result is the returned `int`. -/
def start (env : Env) (wizard : World → World) (argv : List String) (w : World) : Int × World :=
  let cmd := (argvAt argv 1).getD ""
  let critical (w1 : World) : Int × World :=
    (1, w1.print .error "A critical error has occurred.")
  if cmd = "create" then (0, wizard w)
  else if cmd = "install" then
    let (_, w1) := AutoInstaller.run env {} (argvAt argv 2) (argvAt argv 3) w
    (0, w1)
  else if cmd = "clone" then
    match ProjectCloner.run env (ProjectCloner.mk0 argv "clone") w with
    | (.error _, _, w1) => critical w1
    | (.ok _, _, w1) => (0, w1)
  else if cmd = "help" then (0, help env w)
  else if cmd = "bootstrap" then
    let w1 := w.print .warn "You might need to use sudo."
    let path := PROJCLONE_PATH
    if !(fs_exists env w1.fs path) then
      (1, w1.print .error "Script path not found, are you in DVK project root?")
    else
      let (_, w2) := AutoInstaller.install env {} path .Copy "/usr/local/bin" w1
      (0, w2)
  else (0, w)

/-- `main` (dvk.cpp:77-87): `ec` is initialised with the truth value of
`DVK::start(argc, argv) != 0`.  The result is the exit code of the process. -/
def main (env : Env) (wizard : World → World) (argv : List String) (w : World) : Int × World :=
  if argv.length < 2 then (0, help env w)
  else
    let (r, w1) := start env wizard argv w
    let ec : Int := if r ≠ 0 then 1 else 0
    if ec ≠ 0 then (ec, w1.print .error ("dvk.start() failed with exitcode " ++ toString ec))
    else (0, w1)


/-! ## Wording of the properties and sample surroundings -/

/-- Console output of `n` rejected project names: each one is prompted for
and answered with the error message. -/
def rejectionMessages : Nat → List Message
  | 0 => []
  | n + 1 =>
    [(Level.info, "Project name: "),
      (Level.error, "Invalid name. Use letters, numbers, hyphens, and underscores only.")]
      ++ rejectionMessages n

/-- The C Makefile template up to the `TARGET` line. -/
def makefileCBeforeTarget : String :=
  "CC = gcc\n" ++
  "CFLAGS = -Wall -Wextra -std=c99 -g\n"

/-- The C Makefile template behind the `TARGET` line. -/
def makefileCAfterTarget : String :=
  "SRCDIR = src\n" ++
  "OBJDIR = build\n" ++
  "SOURCES = $(wildcard $(SRCDIR)/*.c)\n" ++
  "OBJECTS = $(SOURCES:$(SRCDIR)/%.c=$(OBJDIR)/%.o)\n" ++
  "\n" ++
  ".PHONY: all clean run debug install\n" ++
  "\n" ++
  "all: $(OBJDIR) $(TARGET)\n" ++
  "\n" ++
  "$(TARGET): $(OBJECTS)\n" ++
  "\t$(CC) $(OBJECTS) -o $@\n" ++
  "\n" ++
  "$(OBJDIR)/%.o: $(SRCDIR)/%.c\n" ++
  "\t$(CC) $(CFLAGS) -c $< -o $@\n" ++
  "\n" ++
  "$(OBJDIR):\n" ++
  "\tmkdir -p $(OBJDIR)\n" ++
  "\n" ++
  "clean:\n" ++
  "\trm -rf $(OBJDIR) $(TARGET)\n" ++
  "\n" ++
  "run: all\n" ++
  "\t./$(TARGET)\n" ++
  "\n" ++
  "debug: CFLAGS += -DDEBUG\n" ++
  "debug: all\n" ++
  "\n" ++
  "install: all\n" ++
  "\tcp $(TARGET) /usr/local/bin/\n"


/-- A small file system: a project directory with a script that is not yet
executable, and the usual system directories. -/
def sampleFs : FileSystem := fun p =>
  if p = "/" ∨ p = "/bin" ∨ p = "/usr/bin" ∨ p = "/usr/local/bin" ∨ p = "/home/dev"
      ∨ p = "/home/dev/proj" then
    some (Node.dir 0o755)
  else if p = "/bin/ls" then some (Node.file 0o755 "ELF")
  else if p = "/home/dev/proj/tool.sh" then some (Node.file 0o644 "echo tool")
  else none

/-- The same file system after an earlier `dvk clone`: the backup
`/home/dev/proj_clone` is there. -/
def backedUpFs : FileSystem := fun p =>
  if p = "/home/dev/proj_clone" then some (Node.dir 0o755)
  else if p = "/home/dev/proj_clone/notes.txt" then some (Node.file 0o644 "kept")
  else sampleFs p

/-- A run as an ordinary user in `/home/dev/proj` who may write below the home
directory and to `/usr/local/bin`; the overwrite question is answered `n`. -/
def sampleEnv : Env where
  cwd := some "/home/dev/proj"
  uid := 1000
  access_w := fun p => p == "/usr/local/bin" || "/home/dev".data.isPrefixOf p.data
  execute := fun cmd =>
    if cmd = "which ls" then { exit_code := 0, stdout_output := "/bin/ls\n" }
    else if "which ".data.isPrefixOf cmd.data then { exit_code := 1, stdout_output := "" }
    else { exit_code := 0, stdout_output := "" }
  fault := fun _ => false
  timestamp := "20240131_101500"
  stdin := ['n', '\n']
  uninit := 'x'
  existsAfterBackup := fun _ => true
  fileSizeAfterBackup := fun _ => some 4096
  createMode := 0o644
  createDirMode := 0o755
  home := some "/home/dev"
  buildDate := "Jan 31 2024"
  buildTime := "10:15:00"

/-- The same run by a user who may write nowhere. -/
def lockedEnv : Env := { sampleEnv with access_w := fun _ => false }

/-- The world at the start of a run. -/
def sampleWorld : World := { fs := sampleFs, trace := [], out := [] }

/-- The world at the start of a run when the earlier backup is there. -/
def backedUpWorld : World := { fs := backedUpFs, trace := [], out := [] }

/-- The shell command of the `rsync` backend for a source and a destination. -/
def rsyncCommand (src dst : Path) : String :=
  "rsync -av " ++ excludeArgs m_excludePatterns ++ "'" ++ src ++ "/' '" ++ dst ++ "/'"

/-- The shell command of the `tar` backend. -/
def tarCommand (archive parent dirName : String) : String :=
  "tar -czvf " ++ "'" ++ archive ++ "' " ++ excludeArgs m_excludePatterns
    ++ "-C '" ++ parent ++ "' '" ++ dirName ++ "'"

/-- The resolved path of a command: what `which cmd` printed, line breaks
removed, provided `which` succeeded and printed something. -/
def resolvedPath (env : Env) (cmd : String) : Option Path :=
  let r := env.execute ("which " ++ cmd)
  if r.exit_code = 0 ∧ r.stdout_output ≠ "" then
    some ⟨r.stdout_output.data.filter (fun c => c != '\n')⟩
  else none

/-- A command qualifies when its resolved path exists as a regular file and
its containing directory is writable or the process is root. -/
def commandQualifies (env : Env) (fs : FileSystem) (cmd : String) : Bool :=
  match resolvedPath env cmd with
  | some p =>
    (fs_exists env fs p && is_regular_file env fs p)
      && (env.access_w (parent_path p) || env.uid == 0)
  | none => false

/-- The result of auto-detection in the words of its description: the
containing directory of the first qualifying command among ls, cat, echo,
sh, which; failing that the first of /usr/local/bin, /usr/bin, /bin that is
a directory and is writable or the process is root; failing that the empty
string. -/
def autoDetectPathSpec (env : Env) (fs : FileSystem) : String :=
  match ["ls", "cat", "echo", "sh", "which"].find? (commandQualifies env fs) with
  | some cmd => parent_path ((resolvedPath env cmd).getD "")
  | none =>
    match ["/usr/local/bin", "/usr/bin", "/bin"].find?
        (fun d => is_directory env fs d && (env.access_w d || env.uid == 0)) with
    | some d => d
    | none => ""

/-- The `which` probes of auto-detection as calls. -/
def probeEvents (cmds : List String) : List Event :=
  cmds.map (fun c => Event.exec ("which " ++ c))

/-- The world after an auto-detection that found nothing: every test
command was probed with `which`, and the error was printed. -/
def autoDetectFailed (w : World) : World :=
  ({ w with trace := w.trace ++ probeEvents testCommands } : World).print .error
    "Could not find a suitable bin directory"

/-- Nothing was done to the file system between `w` and `w'`: the file system
is the same and the only calls made are `which` probes of test commands (no
`chmod`, removal, copy or link). -/
def OnlyProbed (w w' : World) : Prop :=
  w'.fs = w.fs ∧
  ∃ cmds : List String, (∀ c ∈ cmds, c ∈ testCommands) ∧ w'.trace = w.trace ++ probeEvents cmds

/-- The precondition of an installation: the source exists and is a regular
file, and the target directory is a directory that is writable or the
process is root. -/
def Ready (env : Env) (fs : FileSystem) (source dir : String) : Prop :=
  (fs_exists env fs source = true ∧ is_regular_file env fs source = true) ∧
  is_directory env fs dir = true ∧ (env.access_w dir = true ∨ env.uid = 0)

/-! ## The project scaffolder (`ProjectCreator`) -/

/-- Raw string assigned to `content` for `ProjectType::C` in `getCMakeContent`. -/
def cmakeTemplateC : String :=
  "cmake_minimum_required(VERSION 3.10)\n" ++
  "project(_PROJECT_NAME_ C)\n" ++
  "\n" ++
  "set(CMAKE_C_STANDARD 99)\n" ++
  "set(CMAKE_C_STANDARD_REQUIRED ON)\n" ++
  "set(CMAKE_C_FLAGS \"$\x7bCMAKE_C_FLAGS\x7d -Wall -Wextra -g\")\n" ++
  "\n" ++
  "file(GLOB SOURCES \"src/*.c\")\n" ++
  "\n" ++
  "add_executable(_PROJECT_NAME_ $\x7bSOURCES\x7d)\n" ++
  "\n" ++
  "set(CMAKE_RUNTIME_OUTPUT_DIRECTORY $\x7bCMAKE_BINARY_DIR\x7d)\n"

/-- Raw string assigned to `content` for `ProjectType::CPP` in `getCMakeContent`. -/
def cmakeTemplateCPP : String :=
  "cmake_minimum_required(VERSION 3.10)\n" ++
  "project(_PROJECT_NAME_ CXX)\n" ++
  "\n" ++
  "set(CMAKE_CXX_STANDARD 17)\n" ++
  "set(CMAKE_CXX_STANDARD_REQUIRED ON)\n" ++
  "set(CMAKE_CXX_FLAGS \"$\x7bCMAKE_CXX_FLAGS\x7d -Wall -Wextra -g\")\n" ++
  "\n" ++
  "file(GLOB SOURCES \"src/*.cpp\")\n" ++
  "\n" ++
  "add_executable(_PROJECT_NAME_ $\x7bSOURCES\x7d)\n" ++
  "\n" ++
  "set(CMAKE_RUNTIME_OUTPUT_DIRECTORY $\x7bCMAKE_BINARY_DIR\x7d)\n"

/-- Raw string assigned to `content` for `ProjectType::Mixed` in `getCMakeContent`. -/
def cmakeTemplateMixed : String :=
  "cmake_minimum_required(VERSION 3.10)\n" ++
  "project(_PROJECT_NAME_ C CXX)\n" ++
  "\n" ++
  "set(CMAKE_C_STANDARD 99)\n" ++
  "set(CMAKE_C_STANDARD_REQUIRED ON)\n" ++
  "set(CMAKE_CXX_STANDARD 17)\n" ++
  "set(CMAKE_CXX_STANDARD_REQUIRED ON)\n" ++
  "\n" ++
  "set(CMAKE_C_FLAGS \"$\x7bCMAKE_C_FLAGS\x7d -Wall -Wextra -g\")\n" ++
  "set(CMAKE_CXX_FLAGS \"$\x7bCMAKE_CXX_FLAGS\x7d -Wall -Wextra -g\")\n" ++
  "\n" ++
  "file(GLOB SOURCES \"src/*.c\" \"src/*.cpp\")\n" ++
  "\n" ++
  "add_executable(_PROJECT_NAME_ $\x7bSOURCES\x7d)\n" ++
  "\n" ++
  "set(CMAKE_RUNTIME_OUTPUT_DIRECTORY $\x7bCMAKE_BINARY_DIR\x7d)\n"

/-- Raw string `content` of `getAutoccContent`. -/
def autoccTemplate : String :=
  "# CONFIGURATION FILE 'autocc.toml' IS WRITTEN MANUALLY BY DVK, NOT BY AUTOCC. EDIT WITH CAUTION.\n" ++
  "[compilers]\n" ++
  "as = 'as'\n" ++
  "cc = 'clang'\n" ++
  "cxx = 'clang++'\n" ++
  "\n" ++
  "[paths]\n" ++
  "exclude_patterns = []\n" ++
  "include_dirs = []\n" ++
  "\n" ++
  "[project]\n" ++
  "build_dir = \"build\"\n" ++
  "default_target = \"_PROJECT_NAME_\"\n" ++
  "\n" ++
  "[[targets]]\n" ++
  "name = \"_PROJECT_NAME_\"\n" ++
  "main_file = _MAIN_FILE_\n" ++
  "sources = _SOURCES_\n" ++
  "output_name = \"_PROJECT_NAME_\"\n" ++
  "cflags = \"-Wall -Wextra -g\"\n" ++
  "cxxflags = \"-Wall -Wextra -g\"\n"

/-- `ProjectCreator::getCMainContent`. -/
def getCMainContent : String :=
  "#include <stdio.h>\n" ++
  "#include <stdlib.h>\n" ++
  "\n" ++
  "int main(int argc, char *argv[]) \x7b\n" ++
  "    printf(\"Hello, World!\\n\");\n" ++
  "    return 0;\n" ++
  "\x7d\n"

/-- `ProjectCreator::getCPPMainContent`. -/
def getCPPMainContent : String :=
  "#include <iostream>\n" ++
  "\n" ++
  "int main(int argc, char *argv[]) \x7b\n" ++
  "    print::info( \"Hello, World!\" << std::endl;\n" ++
  "    return 0;\n" ++
  "\x7d\n"

/-- `ProjectCreator::getASMMainContent`. -/
def getASMMainContent : String :=
  ".section .data\n" ++
  "    msg: .ascii \"Hello, World!\\n\"\n" ++
  "    msg_len = . - msg\n" ++
  "\n" ++
  ".section .text\n" ++
  "    .global _start\n" ++
  "\n" ++
  "_start:\n" ++
  "    # write system call\n" ++
  "    mov $1, %rax        # sys_write\n" ++
  "    mov $1, %rdi        # stdout\n" ++
  "    mov $msg, %rsi      # message\n" ++
  "    mov $msg_len, %rdx  # length\n" ++
  "    syscall\n" ++
  "\n" ++
  "    # exit system call\n" ++
  "    mov $60, %rax       # sys_exit\n" ++
  "    mov $0, %rdi        # exit status\n" ++
  "    syscall\n"

/-- `ProjectCreator::getGitignoreContent`. -/
def getGitignoreContent : String :=
  "# Build artifacts\n" ++
  "build/\n" ++
  "*.o\n" ++
  "*.obj\n" ++
  "*.exe\n" ++
  "*.out\n" ++
  "a.out\n" ++
  "_PROJECT_NAME_\n" ++
  "\n" ++
  "# IDE files\n" ++
  ".vscode/\n" ++
  ".idea/\n" ++
  "*.swp\n" ++
  "*.swo\n" ++
  "compile_commands.json\n" ++
  "\n" ++
  "# System files\n" ++
  ".DS_Store\n" ++
  "Thumbs.db\n"

/-- `ProjectCreator::getCMakeContent` (ProjectCreator.cpp:477-533): there is
no template for `ASM` ("ASM isn't handled by this simple CMake template"),
`content` stays empty there. -/
def getCMakeContent (m_projectType : ProjectType) (m_projectName : String) : String :=
  let content :=
    match m_projectType with
    | .C => cmakeTemplateC
    | .CPP => cmakeTemplateCPP
    | .Mixed => cmakeTemplateMixed
    | _ => ""
  findAndReplaceAll content "_PROJECT_NAME_" m_projectName

/-- The values of `main_file` and `sources` in `getAutoccContent`. -/
def autoccFiles (m_projectType : ProjectType) : String × String :=
  match m_projectType with
  | .C => ("'./src/main.c'", "[ " ++ "'./src/main.c' ]")
  | .CPP => ("'./src/main.cpp'", "[ " ++ "'./src/main.cpp' ]")
  | .Mixed => ("'./src/main.cpp'", "[ " ++ "'./src/main.c', './src/main.cpp' ]")
  | .ASM => ("'./src/main.s'", "[ " ++ "'./src/main.s' ]")
  | .Unknown => ("", "[ ")

/-- `ProjectCreator::getAutoccContent` (ProjectCreator.cpp:535-580): three
replacements one after the other, the project name first. -/
def getAutoccContent (m_projectType : ProjectType) (m_projectName : String) : String :=
  let main_file := (autoccFiles m_projectType).1
  let sources := (autoccFiles m_projectType).2
  let content := findAndReplaceAll autoccTemplate "_PROJECT_NAME_" m_projectName
  let content := findAndReplaceAll content "_MAIN_FILE_" main_file
  findAndReplaceAll content "_SOURCES_" sources

/-- `ProjectCreator::getReadmeContent` (ProjectCreator.cpp:605-643). -/
def getReadmeContent (m_buildSystem : BuildSystem) (m_projectType : ProjectType)
    (m_projectName : String) : String :=
  let content := "# " ++ m_projectName ++ "\n\n"
  let content := content ++ "A new project created with the C/C++ Project Wizard.\n\n"
  let content := content ++ "## Build\n\n"
  let content :=
    match m_buildSystem with
    | .Make =>
      content ++ "```bash\nmake\n```\n" ++ "\n## Run\n\n```bash\nmake run\n```\n"
        ++ "\n## Clean\n\n```bash\nmake clean\n```\n"
    | .CMake =>
      content ++ "```bash\nmkdir -p build && cd build\ncmake ..\nmake\n```\n"
        ++ "\n## Run\n\n```bash\n./build/_PROJECT_NAME_\n```\n"
    | _ =>
      (match m_projectType with
        | .C => content ++ "```bash\ngcc src/main.c -o _PROJECT_NAME_\n```\n"
        | .CPP => content ++ "```bash\ng++ src/main.cpp -o _PROJECT_NAME_\n```\n"
        | .Mixed => content ++ "```bash\ng++ src/main.c src/main.cpp -o _PROJECT_NAME_\n```\n"
        | .ASM =>
          content ++ "```bash\nas src/main.s -o main.o\nld main.o -o _PROJECT_NAME_\n```\n"
        | .Unknown => content)
        ++ "\n## Run\n\n```bash\n./_PROJECT_NAME_\n```\n"
  findAndReplaceAll content "_PROJECT_NAME_" m_projectName

/-- What `std::stoi` does with a string. -/
inductive StoiResult
  | invalid_argument
  | out_of_range
  | ok (value : Int)
  deriving DecidableEq, Repr

/-- The value of a run of decimal digits. -/
def digitsValue (digits : List Char) : Nat :=
  digits.foldl (fun acc c => 10 * acc + (c.toNat - 48)) 0

/-- `std::stoi(str)` (base 10): white space is skipped, an optional sign and
the longest run of digits are read, whatever follows is ignored; no digit
is `std::invalid_argument`, a value that does not fit an `int` is
`std::out_of_range`. -/
def stoi (str : String) : StoiResult :=
  let cs := str.data.dropWhile isspace
  let signed : Bool × List Char :=
    match cs with
    | '-' :: r => (true, r)
    | '+' :: r => (false, r)
    | _ => (false, cs)
  let digits := signed.2.takeWhile Char.isDigit
  if digits.isEmpty then .invalid_argument
  else
    let value : Int := if signed.1 then - (digitsValue digits : Int) else (digitsValue digits : Int)
    if value < -2147483648 ∨ 2147483647 < value then .out_of_range else .ok value

/-- The members of `ProjectCreator` with their in-class initialisers. -/
structure ProjectCreator where
  m_projectName : String := ""
  m_projectType : ProjectType := ProjectType.Unknown
  m_buildSystem : BuildSystem := BuildSystem.Unknown
  m_workspacePath : Path := ""
  m_projectPath : Path := ""
  deriving DecidableEq, Repr

/-- `ProjectCreator::expandUserPath` (ProjectCreator.cpp:49-63), POSIX branch:
`home` is the value of `getenv("HOME")`. -/
def expandUserPath (home : Option String) (path_str : String) : Path :=
  if path_str.data.isEmpty ∨ path_str.data.head? ≠ some '~' then path_str
  else
    match home with
    | some h => pathAppend h ⟨path_str.data.drop 1⟩
    | none => path_str

/-- `types` of `getProjectInfo`. -/
def projectTypes : List (ProjectType × String) := [
  (ProjectType.C, "C project (.c files, gcc)"),
  (ProjectType.CPP, "C++ project (.cpp files, g++)"),
  (ProjectType.Mixed, "Mixed C/C++ project"),
  (ProjectType.ASM, "Assembly project (.s/.asm files) ")]

/-- `systems` of `getBuildSystem`. -/
def buildSystems : List (BuildSystem × String) := [
  (BuildSystem.Make, "Makefile (simple, traditional)"),
  (BuildSystem.CMake, "CMake (modern, cross-platform)"),
  (BuildSystem.Autocc, "autocc (minimal, fast and smart)"),
  (BuildSystem.Manual, "No build system (manual compilation)")]

/-- The numbered lines printed for a list of options: `" {}.{}"` with the
position counted from 1. -/
def optionLines (descriptions : List String) : List Message :=
  descriptions.enum.map (fun p => (Level.info, " " ++ toString (p.1 + 1) ++ "." ++ p.2))

/-- The selection loop of `getProjectInfo` (ProjectCreator.cpp:170-181) and of
`getBuildSystem` (ProjectCreator.cpp:196-207), the same code for `count`
options: prompt, read a line with `getInput`, prompt again on an empty
line, convert with `std::stoi`, return a choice within `1..count`, print the
error and prompt again otherwise.  Only `std::invalid_argument` is caught
here; `std::out_of_range` leaves the loop as an exception (its `what()` is
`"stoi"`), and so does the exception of `getInput`. -/
def selectChoice (count : Nat) : List String → World → Except String (Nat × List String) × World
  | [], w =>
    (.error "Input stream closed.", w.print .info ("Select type (1-" ++ toString count ++ "): "))
  | line :: rest, w =>
    let w1 := w.print .info ("Select type (1-" ++ toString count ++ "): ")
    let choice_str := trim line
    if choice_str.data.isEmpty then selectChoice count rest w1
    else
      match stoi choice_str with
      | .ok choice =>
        if 1 ≤ choice ∧ choice ≤ (count : Int) then (.ok (choice.toNat, rest), w1)
        else selectChoice count rest (w1.print .error "Invalid choice, try again.")
      | .invalid_argument => selectChoice count rest (w1.print .error "Invalid choice, try again.")
      | .out_of_range => (.error "stoi", w1)

/-- `ProjectCreator::getProjectInfo` (ProjectCreator.cpp:150-182): the name
loop (`promptProjectName`), the list of types, the selection loop. -/
def ProjectCreator.getProjectInfo (self : ProjectCreator) (stdin : List String) (w : World) :
    Except String (ProjectCreator × List String) × World :=
  let w0 := w.print .info "Project Information"
  match promptProjectName stdin w0.out with
  | .error what =>
    (.error what, { w0 with out := w0.out ++ rejectionMessages stdin.length
      ++ [(Level.info, "Project name: ")] })
  | .ok (name, rest, out) =>
    let self1 := { self with m_projectName := name }
    let w1 : World := { w0 with out := out }
    let w2 := w1.print .info "Project types: "
    let w3 : World := { w2 with out := w2.out ++ optionLines (projectTypes.map Prod.snd) }
    match selectChoice projectTypes.length rest w3 with
    | (.error what, w4) => (.error what, w4)
    | (.ok (choice, rest1), w4) =>
      (.ok ({ self1 with
          m_projectType := ((projectTypes.get? (choice - 1)).map Prod.fst).getD .Unknown },
        rest1), w4)

/-- `ProjectCreator::getBuildSystem` (ProjectCreator.cpp:184-208). -/
def ProjectCreator.getBuildSystem (self : ProjectCreator) (stdin : List String) (w : World) :
    Except String (ProjectCreator × List String) × World :=
  let w0 := w.print .info "Build System"
  let w1 : World := { w0 with out := w0.out ++ optionLines (buildSystems.map Prod.snd) }
  match selectChoice buildSystems.length stdin w1 with
  | (.error what, w2) => (.error what, w2)
  | (.ok (choice, rest), w2) =>
    (.ok ({ self with
        m_buildSystem := ((buildSystems.get? (choice - 1)).map Prod.fst).getD .Unknown },
      rest), w2)

/-- `fs::equivalent`: both paths lead to the same file. -/
def equivalent (env : Env) (fs : FileSystem) (a b : Path) : Bool :=
  match stat env fs a, stat env fs b with
  | some (ka, _), some (kb, _) => ka == kb
  | _, _ => false

/-- The loop of `getWorkspaceDir` that keeps the candidates that are
directories and drops those equivalent to one kept before
(ProjectCreator.cpp:87-100). -/
def existingWorkspaces (env : Env) (fs : FileSystem) : List Path → List Path → List Path
  | [], existing => existing
  | ws :: rest, existing =>
    if is_directory env fs ws then
      if existing.any (fun ews => equivalent env fs ws ews) then
        existingWorkspaces env fs rest existing
      else existingWorkspaces env fs rest (existing ++ [ws])
    else existingWorkspaces env fs rest existing

/-- The selection loop of `getWorkspaceDir` (ProjectCreator.cpp:109-125):
`some path` is a workspace chosen from the list, `none` the request for a
custom path. -/
def selectWorkspace (existing : List Path) :
    List String → World → Except String (Option Path × List String) × World
  | [], w =>
    (.error "Input stream closed.",
      w.print .info ("Select workspace (1-" ++ toString (existing.length + 1) ++ "): "))
  | line :: rest, w =>
    let w1 := w.print .info ("Select workspace (1-" ++ toString (existing.length + 1) ++ "): ")
    let choice_str := trim line
    if choice_str.data.isEmpty then selectWorkspace existing rest w1
    else
      match stoi choice_str with
      | .ok choice =>
        if 1 ≤ choice ∧ choice ≤ (existing.length : Int) then
          (.ok (some ((existing.get? (choice.toNat - 1)).getD ""), rest), w1)
        else if choice = (existing.length : Int) + 1 then (.ok (none, rest), w1)
        else selectWorkspace existing rest (w1.print .error "Invalid choice, try again")
      | .invalid_argument =>
        selectWorkspace existing rest (w1.print .error "Invalid choice, try again")
      | .out_of_range => (.error "stoi", w1)

/-- The custom-path loop of `getWorkspaceDir` (ProjectCreator.cpp:129-140). -/
def customWorkspace (env : Env) : List String → World → Except String (Path × List String) × World
  | [], w => (.error "Input stream closed.", w.print .info "Enter workspace path: ")
  | line :: rest, w =>
    let w1 := w.print .info "Enter workspace path: "
    let path_str := trim line
    if path_str.data.isEmpty then customWorkspace env rest w1
    else
      let custom_path := expandUserPath env.home path_str
      if is_directory env w1.fs custom_path then (.ok (custom_path, rest), w1)
      else
        customWorkspace env rest
          (w1.print .error ("Directory doesn't exist: " ++ custom_path))

/-- `ProjectCreator::getWorkspaceDir` (ProjectCreator.cpp:65-141), POSIX
branch.  `fs::current_path()` throws without a working directory. -/
def ProjectCreator.getWorkspaceDir (env : Env) (self : ProjectCreator) (stdin : List String)
    (w : World) : Except String (ProjectCreator × List String) × World :=
  let w0 := w.print .info "Workspace Selection"
  let fromHome : List Path :=
    match env.home with
    | some home =>
      [pathAppend home "workspace", pathAppend home "projects", pathAppend home "code",
        pathAppend home "dev"]
    | none => []
  match env.cwd with
  | none => (.error "filesystem error: cannot get current path", w0)
  | some cwd =>
    let common_workspaces := fromHome ++ [cwd]
    let existing_workspaces := existingWorkspaces env w0.fs common_workspaces []
    let chosen (workspace : Path) (rest : List String) (w1 : World) :
        Except String (ProjectCreator × List String) × World :=
      (.ok ({ self with m_workspacePath := workspace,
                        m_projectPath := pathAppend workspace self.m_projectName }, rest), w1)
    let custom (rest : List String) (w1 : World) :
        Except String (ProjectCreator × List String) × World :=
      match customWorkspace env rest w1 with
      | (.error what, w2) => (.error what, w2)
      | (.ok (workspace, rest1), w2) => chosen workspace rest1 w2
    if existing_workspaces.isEmpty then custom stdin w0
    else
      let w1 := w0.print .info "Found potential workspaces: "
      let listed : List Message :=
        existing_workspaces.enum.map (fun p => (Level.info, toString (p.1 + 1) ++ ". " ++ p.2 ++ " "))
      let w2 : World := { w1 with out := w1.out ++ listed
        ++ [(Level.info, toString (existing_workspaces.length + 1) ++ ". Enter custom path")] }
      match selectWorkspace existing_workspaces stdin w2 with
      | (.error what, w3) => (.error what, w3)
      | (.ok (some workspace, rest), w3) => chosen workspace rest w3
      | (.ok (none, rest), w3) => custom rest w3

/-- `ProjectCreator::confirmSettings` (ProjectCreator.cpp:210-214). -/
def confirmSettings (stdin : List String) (w : World) : Except String (Bool × List String) × World :=
  let w1 := w.print .info "Confirm (Yn)? "
  match getInput stdin with
  | .error what => (.error what, w1)
  | .ok (confirm, rest) =>
    (.ok (confirm.data.isEmpty || confirm == "y" || confirm == "Y" || confirm == "yes", rest), w1)

/-- `fs::create_directory(path)`: a directory that is there already is left
alone without error; otherwise the name must be free and its parent a
directory.  Returns whether the call failed (the overload used throws). -/
def fs_create_directory (env : Env) (p : Path) (w : World) : Bool × World :=
  let w1 := w.record (.create_directory p)
  match stat env w.fs p with
  | some (_, Node.dir _) => (false, w1)
  | some _ => (true, w1)
  | none =>
    match absKey env p with
    | none => (true, w1)
    | some k =>
      if (w.fs k).isSome || !(is_directory env w.fs (parent_path k))
          || env.fault (.create_directory p) then (true, w1)
      else (false, { w1 with fs := Function.update w.fs k (some (Node.dir env.createDirMode)) })

/-- `ProjectCreator::writeFile` (ProjectCreator.cpp:219-225): open the file for
writing, throw when that fails, write the content. -/
def writeFile (env : Env) (path : Path) (content : String) (w : World) :
    Except String Unit × World :=
  match fs_ofstream env path w with
  | (false, w1) => (.error ("Failed to open file for writing: " ++ path), w1)
  | (true, w1) =>
    match stat env w1.fs path with
    | some (k, Node.file mode _) =>
      (.ok (), { w1 with fs := Function.update w1.fs k (some (Node.file mode content)) })
    | _ => (.ok (), w1)

/-- Sequencing of two steps of which the first may throw. -/
def andThen (first : Except String Unit × World)
    (next : World → Except String Unit × World) : Except String Unit × World :=
  match first with
  | (.error what, w) => (.error what, w)
  | (.ok _, w) => next w

/-- `fs::create_directory(path)` in the overload that throws on failure. -/
def createDirectory (env : Env) (p : Path) (w : World) : Except String Unit × World :=
  match fs_create_directory env p w with
  | (true, w1) => (.error "filesystem error: cannot create directory", w1)
  | (false, w1) => (.ok (), w1)

/-- A `writeFile` call of `createProjectStructure` with the `print::success`
that follows it. -/
def writeAndReport (env : Env) (path : Path) (content : String) (created : String) (w : World) :
    Except String Unit × World :=
  match writeFile env path content w with
  | (.error what, w1) => (.error what, w1)
  | (.ok _, w1) => (.ok (), w1.print .success ("Created " ++ created))

/-- `ProjectCreator::createProjectStructure` (ProjectCreator.cpp:227-275). -/
def ProjectCreator.createProjectStructure (env : Env) (self : ProjectCreator) (w : World) :
    Except String Unit × World :=
  let w0 :=
    if fs_exists env w.fs self.m_projectPath then
      w.print .warn ("Directory " ++ self.m_projectPath ++ " exists.")
    else w
  let w1 := w0.print .info ("Creating project at: " ++ self.m_projectPath)
  let srcDir := pathAppend self.m_projectPath "src"
  andThen (createDirectory env self.m_projectPath w1) fun w2 =>
  andThen (createDirectory env srcDir w2) fun w3 =>
  andThen
    (if self.m_projectType = .C ∨ self.m_projectType = .Mixed then
      writeAndReport env (pathAppend srcDir "main.c") getCMainContent "main.c" w3
     else (.ok (), w3)) fun w4 =>
  andThen
    (if self.m_projectType = .CPP ∨ self.m_projectType = .Mixed then
      writeAndReport env (pathAppend srcDir "main.cpp") getCPPMainContent "main.cpp" w4
     else (.ok (), w4)) fun w5 =>
  andThen
    (if self.m_projectType = .ASM then
      writeAndReport env (pathAppend srcDir "main.s") getASMMainContent "main.s" w5
     else (.ok (), w5)) fun w6 =>
  andThen
    (match self.m_buildSystem with
     | .Make =>
       writeAndReport env (pathAppend self.m_projectPath "Makefile")
         (getMakefileContent self.m_projectType self.m_projectName) "Makefile" w6
     | .CMake =>
       writeAndReport env (pathAppend self.m_projectPath "CMakeLists.txt")
         (getCMakeContent self.m_projectType self.m_projectName) "CMakeLists.txt" w6
     | .Autocc =>
       writeAndReport env (pathAppend self.m_projectPath "autocc.toml")
         (getAutoccContent self.m_projectType self.m_projectName) "autocc.toml" w6
     | _ => (.ok (), w6)) fun w7 =>
  andThen
    (writeAndReport env (pathAppend self.m_projectPath ".gitignore") getGitignoreContent
      ".gitignore" w7) fun w8 =>
  writeAndReport env (pathAppend self.m_projectPath "README.md")
    (getReadmeContent self.m_buildSystem self.m_projectType self.m_projectName) "README.md" w8

/-- The three interactive steps at the start of `ProjectCreator::run`
(ProjectCreator.cpp:22-24), in order. -/
def ProjectCreator.collectSettings (env : Env) (self : ProjectCreator) (stdin : List String)
    (w : World) : Except String (ProjectCreator × List String) × World :=
  match self.getProjectInfo stdin w with
  | (.error what, w1) => (.error what, w1)
  | (.ok (self1, rest1), w1) =>
    match self1.getWorkspaceDir env rest1 w1 with
    | (.error what, w2) => (.error what, w2)
    | (.ok (self2, rest2), w2) => self2.getBuildSystem rest2 w2

/-- The two `catch` clauses of `ProjectCreator::run` (ProjectCreator.cpp:37-45). -/
def ProjectCreator.handle (what : String) (w : World) : World :=
  if what = "Cancelled" then w.print .warn "Cancelled."
  else w.print .error ("An unexpected error occurred: " ++ what)

/-- The end of the confirmed branch of `ProjectCreator::run`
(ProjectCreator.cpp:28-32), given what `createProjectStructure` did. -/
def ProjectCreator.afterCreate (self : ProjectCreator) (created : Except String Unit × World) :
    World :=
  match created with
  | (.error what, w) => ProjectCreator.handle what w
  | (.ok _, w) =>
    ((w.print .info "Success!").print .success
      ("Project '" ++ self.m_projectName ++ "' created successfully!")).print .info
      ("Location: " ++ self.m_projectPath)

/-- `ProjectCreator::run` (ProjectCreator.cpp:18-46) on the lines of standard
input. -/
def ProjectCreator.run (env : Env) (self : ProjectCreator) (stdin : List String) (w : World) :
    World :=
  let w0 := w.print .info "DVK Project Creation Wizard"
  match self.collectSettings env stdin w0 with
  | (.error what, w1) => ProjectCreator.handle what w1
  | (.ok (self1, rest), w1) =>
    match confirmSettings rest w1 with
    | (.error what, w2) => ProjectCreator.handle what w2
    | (.ok (true, _), w2) =>
      self1.afterCreate (self1.createProjectStructure env (w2.print .info "Creating Project"))
    | (.ok (false, _), w2) => w2.print .warn "Cancelled."

/-! ## Sample surroundings of the scaffolder and cloner properties -/

/-- A run in the root directory of the file system. -/
def rootEnv : Env := { sampleEnv with cwd := some "/" }

/-- A run in which the probe file in the parent directory cannot be opened. -/
def readOnlyParentEnv : Env :=
  { sampleEnv with fault := fun e => e == Event.ofstream "/home/dev/.projclone_writetest" }

/-- A run in which `rsync` and `tar` end with exit code 23 although the
destination is there afterwards. -/
def failingToolEnv : Env :=
  { sampleEnv with execute := fun _ => { exit_code := 23, stdout_output := "" } }

/-- A run in which the overwrite question is answered `y`. -/
def confirmingEnv : Env := { sampleEnv with stdin := ['y', '\n'] }

/-- A run in which the overwrite question is answered `y` and the old backup
cannot be removed. -/
def stuckBackupEnv : Env :=
  { confirmingEnv with fault := fun e => e == Event.remove_all "/home/dev/proj_clone" }

/-- The exclude arguments as a list of words: `--exclude='p' ` for every
pattern, in the order of the list. -/
def excludeWords (patterns : List String) : List String :=
  patterns.map (fun p => "--exclude='" ++ p ++ "' ")

/-- What a selection loop for `count` options prints for lines it does not
accept: the prompt for each, and the error for each that is not empty. -/
def selectionMessages (count : Nat) : List String → List Message
  | [] => []
  | l :: ls =>
    (Level.info, "Select type (1-" ++ toString count ++ "): ")
      :: (if trim l = "" then [] else [(Level.error, "Invalid choice, try again.")])
      ++ selectionMessages count ls

/-- A line a selection loop for `count` options answers with a new prompt:
empty after trimming, or without a leading integer for `std::stoi`, or with a
leading integer that fits an `int` and lies outside `1..count`.  A line whose
leading number does not fit an `int` is not among them: `std::stoi` throws
`std::out_of_range` there, which is not `std::invalid_argument`. -/
def RejectedChoice (count : Nat) (l : String) : Prop :=
  trim l = "" ∨ stoi (trim l) = StoiResult.invalid_argument ∨
    ∃ v : Int, stoi (trim l) = StoiResult.ok v ∧ ¬ (1 ≤ v ∧ v ≤ (count : Int))

/-- Between `w` and `w'` only console output was produced: the file system
is the same and no call was made. -/
def SameFiles (w w' : World) : Prop := w'.fs = w.fs ∧ w'.trace = w.trace

/-- The calls recorded in `w'` are those of `w` followed by further ones. -/
def TraceGrows (w w' : World) : Prop := ∃ more, w'.trace = w.trace ++ more

/-- The Makefile template of a project type (`getMakefileContent`). -/
def makefileTemplate : ProjectType → String
  | .C => makefileTemplateC
  | .CPP => makefileTemplateCPP
  | .Mixed => makefileTemplateMixed
  | .ASM => makefileTemplateASM
  | .Unknown => ""

/-- The CMake template of a project type (`getCMakeContent`); there is none
for assembly projects. -/
def cmakeTemplate : ProjectType → String
  | .C => cmakeTemplateC
  | .CPP => cmakeTemplateCPP
  | .Mixed => cmakeTemplateMixed
  | _ => ""

/-- The autocc template of a project type: the common text with the main
file and the sources of that type filled in. -/
def autoccTemplateFor (pt : ProjectType) : String :=
  findAndReplaceAll (findAndReplaceAll autoccTemplate "_MAIN_FILE_" (autoccFiles pt).1)
    "_SOURCES_" (autoccFiles pt).2

/-- The pieces of a text between the occurrences of a marker, found from
left to right (`skip` counts the characters of an occurrence still to be
passed over). -/
def piecesAux (marker : List Char) : Nat → List Char → List (List Char)
  | _, [] => [[]]
  | skip + 1, _ :: cs => piecesAux marker skip cs
  | 0, c :: cs =>
    if marker.isPrefixOf (c :: cs) then [] :: piecesAux marker (marker.length - 1) cs
    else
      match piecesAux marker 0 cs with
      | [] => [[c]]
      | p :: ps => (c :: p) :: ps

/-- `content` is `template` with every occurrence of `_PROJECT_NAME_` replaced
by `name`: the template consists of pieces free of the placeholder with the
placeholder between them (at least once), and the content of the same
pieces with the name between them. -/
def TemplateFilled (template content name : String) : Prop :=
  ∃ pieces : List (List Char),
    2 ≤ pieces.length ∧
    (∀ p ∈ pieces, ¬ "_PROJECT_NAME_".data <:+: p) ∧
    template.data = List.intercalate "_PROJECT_NAME_".data pieces ∧
    content.data = List.intercalate name.data pieces

/-- Whether each gap between consecutive pieces has the character `q` on
both sides: every piece but the last ends with `q` and every piece but the
first begins with it. -/
def quotedPieces (q : Char) : List (List Char) → Bool
  | [] => true
  | [_] => true
  | p :: p1 :: ps => p.getLast? == some q && p1.head? == some q && quotedPieces q (p1 :: ps)


/-- The files of a scaffolded project under the project directory `root`, in
the order they are written: `src/main.c` for C and Mixed, `src/main.cpp` for
C++ and Mixed, `src/main.s` for Assembly, the build file of the build system
(none for `Manual`), then `.gitignore` and `README.md`. -/
def scaffoldFiles (root : Path) (pt : ProjectType) (bs : BuildSystem) : List Path :=
  (if pt = .C ∨ pt = .Mixed then [pathAppend root "src/main.c"] else [])
    ++ (if pt = .CPP ∨ pt = .Mixed then [pathAppend root "src/main.cpp"] else [])
    ++ (if pt = .ASM then [pathAppend root "src/main.s"] else [])
    ++ (match bs with
        | .Make => [pathAppend root "Makefile"]
        | .CMake => [pathAppend root "CMakeLists.txt"]
        | .Autocc => [pathAppend root "autocc.toml"]
        | _ => [])
    ++ [pathAppend root ".gitignore", pathAppend root "README.md"]

/-- The calls on the file system that scaffold a project: the project
directory and its `src` are created, then each file of `scaffoldFiles` is
opened for writing. -/
def scaffoldCalls (root : Path) (pt : ProjectType) (bs : BuildSystem) : List Event :=
  Event.create_directory root :: Event.create_directory (pathAppend root "src")
    :: (scaffoldFiles root pt bs).map Event.ofstream

/-- From `fs` to `fs'` every name is as it was, or was free, or was a
regular file and is one still. -/
def Grows (fs fs' : FileSystem) : Prop :=
  ∀ k, fs' k = fs k ∨ fs k = none ∨
    ((∃ m c, fs k = some (Node.file m c)) ∧ ∃ m c, fs' k = some (Node.file m c))

/-- The step `f` makes the calls `calls` in this order and stops early only
with an exception; it removes nothing, and when it returns every file it
opened is a regular file. -/
def StepCalls (env : Env) (f : World → Except String Unit × World) (calls : List Event) : Prop :=
  ∀ w, ∃ more, (f w).2.trace = w.trace ++ more ∧ more <+: calls ∧ Grows w.fs (f w).2.fs ∧
    ((f w).1 = .ok () →
      more = calls ∧ ∀ p, Event.ofstream p ∈ calls → is_regular_file env (f w).2.fs p = true)

/-- The settings after the wizard was given the name `demo`, the Mixed type,
the current directory as workspace and CMake. -/
def demoSettings : ProjectCreator :=
  { m_projectName := "demo", m_projectType := ProjectType.Mixed,
    m_buildSystem := BuildSystem.CMake, m_workspacePath := "/home/dev/proj",
    m_projectPath := "/home/dev/proj/demo" }

/-- The test `isValidProjectName` applies to each character of a name. -/
def isNameChar (c : Char) : Bool := isalnum c || c == '_' || c == '-'

/-- Whether each gap between consecutive pieces has a character on both
sides that no project name contains: every piece but the last ends with
one and every piece but the first begins with one. -/
def delimitedPieces : List (List Char) → Bool
  | [] => true
  | [_] => true
  | p :: p1 :: ps =>
    p.getLast?.any (fun c => !isNameChar c) && p1.head?.any (fun c => !isNameChar c)
      && delimitedPieces (p1 :: ps)

/-- What `getReadmeContent` puts behind `# name` before it replaces the
placeholder. -/
def readmeBody (m_buildSystem : BuildSystem) (m_projectType : ProjectType) : String :=
  let content := "\n\n" ++ "A new project created with the C/C++ Project Wizard.\n\n"
  let content := content ++ "## Build\n\n"
  match m_buildSystem with
  | .Make =>
    content ++ "```bash\nmake\n```\n" ++ "\n## Run\n\n```bash\nmake run\n```\n"
      ++ "\n## Clean\n\n```bash\nmake clean\n```\n"
  | .CMake =>
    content ++ "```bash\nmkdir -p build && cd build\ncmake ..\nmake\n```\n"
      ++ "\n## Run\n\n```bash\n./build/_PROJECT_NAME_\n```\n"
  | _ =>
    (match m_projectType with
      | .C => content ++ "```bash\ngcc src/main.c -o _PROJECT_NAME_\n```\n"
      | .CPP => content ++ "```bash\ng++ src/main.cpp -o _PROJECT_NAME_\n```\n"
      | .Mixed => content ++ "```bash\ng++ src/main.c src/main.cpp -o _PROJECT_NAME_\n```\n"
      | .ASM =>
        content ++ "```bash\nas src/main.s -o main.o\nld main.o -o _PROJECT_NAME_\n```\n"
      | .Unknown => content)
      ++ "\n## Run\n\n```bash\n./_PROJECT_NAME_\n```\n"

/-- The sample file system with `latest.sh` beside the script, a symbolic link
to it. -/
def linkedFs : FileSystem := fun p =>
  if p = "/home/dev/proj/latest.sh" then some (Node.symlink "tool.sh") else sampleFs p

/-- The world at the start of a run when the link is there. -/
def linkedWorld : World := { fs := linkedFs, trace := [], out := [] }

/-! ## Project names -/

theorem isalnum_iff (c : Char) : isalnum c = true ↔ (c.isAlpha = true ∨ c.isDigit = true) := by
  have e1 : (UInt32.toBitVec 48).toNat = 48 := rfl
  have e2 : (UInt32.toBitVec 57).toNat = 57 := rfl
  have e3 : (UInt32.toBitVec 65).toNat = 65 := rfl
  have e4 : (UInt32.toBitVec 90).toNat = 90 := rfl
  have e5 : (UInt32.toBitVec 97).toNat = 97 := rfl
  have e6 : (UInt32.toBitVec 122).toNat = 122 := rfl
  simp only [isalnum, Char.isAlpha, Char.isUpper, Char.isLower, Char.isDigit, Char.toNat,
    Bool.or_eq_true, Bool.and_eq_true, decide_eq_true_eq, UInt32.le_def, UInt32.toNat,
    BitVec.le_def, e1, e2, e3, e4, e5, e6]
  omega

theorem isValidProjectName_iff (name : String) : isValidProjectName name = true ↔ NameOK name := by
  unfold isValidProjectName NameOK
  have hne : name ≠ "" ↔ name.data ≠ [] := by
    constructor
    · intro h hd; apply h; cases name; simp_all
    · intro h hd; apply h; rw [hd]
  rw [hne]
  cases hd : name.data with
  | nil => simp
  | cons a l =>
    simp only [List.isEmpty_cons, Bool.false_eq_true, if_false, List.all_eq_true, Bool.or_eq_true,
      beq_iff_eq, isalnum_iff, ne_eq, reduceCtorEq, not_false_eq_true, true_and]
    constructor
    · intro h c hc
      rcases h c hc with (h1 | h1) | h1
      · rcases h1 with h1 | h1
        · exact Or.inl h1
        · exact Or.inr (Or.inl h1)
      · exact Or.inr (Or.inr (Or.inl h1))
      · exact Or.inr (Or.inr (Or.inr h1))
    · intro h c hc
      rcases h c hc with h1 | h1 | h1 | h1
      · exact Or.inl (Or.inl (Or.inl h1))
      · exact Or.inl (Or.inl (Or.inr h1))
      · exact Or.inl (Or.inr h1)
      · exact Or.inr h1

theorem promptProjectName_rejected (rejected : List String) (tail : List String)
    (out : List Message) (h : ∀ l ∈ rejected, ¬ NameOK (trim l)) :
    promptProjectName (rejected ++ tail) out
      = promptProjectName tail (out ++ rejectionMessages rejected.length) := by
  induction rejected generalizing out with
  | nil => simp [rejectionMessages]
  | cons l ls ih =>
    have hl : isValidProjectName (trim l) = false := by
      rw [Bool.eq_false_iff, Ne, isValidProjectName_iff]
      exact h l (List.mem_cons_self _ _)
    have hls : ∀ x ∈ ls, ¬ NameOK (trim x) := fun x hx => h x (List.mem_cons_of_mem _ hx)
    simp only [List.cons_append, promptProjectName, hl, Bool.false_eq_true, if_false,
      List.length_cons, rejectionMessages]
    have h2 := ih (out ++ [(Level.info, "Project name: "),
      (Level.error, "Invalid name. Use letters, numbers, hyphens, and underscores only.")]) hls
    simpa using h2

/-- C1: `isValidProjectName(name)` holds exactly for the non-empty names made
of ASCII letters, ASCII digits, `_` and `-`; and the name prompt of
`getProjectInfo`, fed any lines whose names are not of that kind followed by
a line whose name is, answers each of the former with the error message and
a new prompt and returns the latter name. -/
theorem C1_name_prompt_accepts_exactly_valid_names (name : String)
    (rejected : List String) (line : String) (rest : List String) (out : List Message)
    (hrej : ∀ l ∈ rejected, ¬ NameOK (trim l)) (hok : NameOK (trim line)) :
    (isValidProjectName name = true ↔ NameOK name) ∧
    promptProjectName (rejected ++ line :: rest) out
      = .ok (trim line, rest,
          out ++ rejectionMessages rejected.length ++ [(Level.info, "Project name: ")]) ∧
    promptProjectName rejected out = .error "Input stream closed." := by
  refine ⟨isValidProjectName_iff name, ?_, ?_⟩
  · rw [promptProjectName_rejected rejected _ out hrej]
    have hv : isValidProjectName (trim line) = true := (isValidProjectName_iff _).2 hok
    simp [promptProjectName, hv]
  · have := promptProjectName_rejected rejected [] out hrej
    rw [List.append_nil] at this
    rw [this]
    rfl

theorem C1_name_prompt_witness :
    (isValidProjectName "my proj" = true ↔ NameOK "my proj") ∧
    promptProjectName (["", "my proj", "a.b"] ++ " dvk_tool-2 " :: ["1"]) []
      = .ok (trim " dvk_tool-2 ", ["1"],
          [] ++ rejectionMessages ["", "my proj", "a.b"].length
            ++ [(Level.info, "Project name: ")]) ∧
    promptProjectName ["", "my proj", "a.b"] [] = .error "Input stream closed." :=
  C1_name_prompt_accepts_exactly_valid_names "my proj" ["", "my proj", "a.b"] " dvk_tool-2 "
    ["1"] []
    (by
      intro l hl
      rw [← isValidProjectName_iff]
      simp only [List.mem_cons, List.mem_singleton, List.not_mem_nil, or_false] at hl
      rcases hl with rfl | rfl | rfl <;> decide)
    ((isValidProjectName_iff _).1 (by decide))

/-! ## Templates -/

set_option maxRecDepth 100000 in
/-- C2: for project type C and any project name `n` (the valid ones
included), `getMakefileContent` returns the C Makefile template with
`_PROJECT_NAME_` replaced by `n`: the template is the text before the
`TARGET` line, the line `TARGET = _PROJECT_NAME_` and the text behind it;
the result is the same text before, the line `TARGET = n`, and the same
text behind; and the placeholder occurs nowhere else in the template. -/
theorem C2_makefile_C_target_is_project_name (n : String) :
    getMakefileContent ProjectType.C n
      = makefileCBeforeTarget ++ "TARGET = " ++ n ++ "\n" ++ makefileCAfterTarget ∧
    makefileTemplateC
      = makefileCBeforeTarget ++ "TARGET = " ++ "_PROJECT_NAME_" ++ "\n" ++ makefileCAfterTarget ∧
    ¬ "_PROJECT_NAME_".data <:+: makefileCBeforeTarget.data ∧
    ¬ "_PROJECT_NAME_".data <:+: makefileCAfterTarget.data := by
  refine ⟨?_, by decide, by decide, by decide⟩
  apply String.ext
  simp only [getMakefileContent, findAndReplaceAll, String.data_append, List.append_assoc]
  rfl

/-! ## The installer -/

@[simp] theorem World.print_fs (w : World) (l : Level) (m : String) : (w.print l m).fs = w.fs := rfl

@[simp] theorem World.print_trace (w : World) (l : Level) (m : String) :
    (w.print l m).trace = w.trace := rfl

@[simp] theorem World.record_fs (w : World) (e : Event) : (w.record e).fs = w.fs := rfl

@[simp] theorem World.record_trace (w : World) (e : Event) :
    (w.record e).trace = w.trace ++ [e] := rfl

theorem probeCommand_world (env : Env) (cmd : String) (w : World) :
    (probeCommand env cmd w).2 = w.record (.exec ("which " ++ cmd)) := by
  unfold probeCommand execute
  simp only
  split <;> [split <;> [split; skip]; skip] <;> rfl

theorem probeCommand_result (env : Env) (cmd : String) (w : World) :
    (probeCommand env cmd w).1
      = if commandQualifies env w.fs cmd = true then
          some (parent_path ((resolvedPath env cmd).getD "")) else none := by
  have hne : ∀ s : String, s.data.isEmpty = true ↔ s = "" := by
    intro s; cases s with
    | mk d => cases d <;> simp [String.ext_iff]
  unfold probeCommand execute commandQualifies resolvedPath
  simp only [World.record_fs, hasWritePermission, isRoot, ne_eq, ← hne]
  by_cases h1 : (env.execute ("which " ++ cmd)).exit_code = 0 ∧
      ¬ (env.execute ("which " ++ cmd)).stdout_output.data.isEmpty = true
  · rw [if_pos h1, if_pos h1]
    simp only [Option.getD_some]
    by_cases hE : fs_exists env w.fs ⟨(env.execute ("which " ++ cmd)).stdout_output.data.filter
        (fun c => c != '\n')⟩ = true <;>
    by_cases hR : is_regular_file env w.fs ⟨(env.execute ("which " ++ cmd)).stdout_output.data.filter
        (fun c => c != '\n')⟩ = true <;>
    by_cases hW : env.access_w (parent_path ⟨(env.execute ("which " ++ cmd)).stdout_output.data.filter
        (fun c => c != '\n')⟩) = true <;>
    by_cases hu : env.uid = 0 <;> simp [hE, hR, hW, hu]
  · rw [if_neg h1, if_neg h1]
    simp

theorem probeCommands_spec (env : Env) (l : List String) (w : World) :
    (probeCommands env l w).1
        = (l.find? (commandQualifies env w.fs)).map
            (fun cmd => parent_path ((resolvedPath env cmd).getD "")) ∧
    (probeCommands env l w).2.fs = w.fs := by
  induction l generalizing w with
  | nil => simp [probeCommands]
  | cons c cs ih =>
    have h1 := probeCommand_result env c w
    have h2 := probeCommand_world env c w
    rcases hp : probeCommand env c w with ⟨r, w1⟩
    rw [hp] at h1 h2
    simp only at h1 h2
    unfold probeCommands
    rw [hp]
    by_cases hq : commandQualifies env w.fs c = true
    · rw [if_pos hq] at h1
      subst h1; subst h2
      simp [List.find?, hq]
    · rw [if_neg hq] at h1
      subst h1; subst h2
      have := ih (w.record (Event.exec ("which " ++ c)))
      simp only [World.record_fs] at this
      simp only [Bool.not_eq_true] at hq
      simp [List.find?, hq, this]

theorem probeFallbacks_spec (env : Env) (fs : FileSystem) (l : List String) :
    probeFallbacks env fs l
      = l.find? (fun d => is_directory env fs d && (env.access_w d || env.uid == 0)) := by
  induction l with
  | nil => rfl
  | cons d ds ih =>
    unfold probeFallbacks
    simp only [hasWritePermission, isRoot, List.find?_cons]
    by_cases h : (is_directory env fs d && (env.access_w d || env.uid == 0)) = true
    · rw [if_pos h, h]
    · rw [if_neg h]
      simp only [Bool.not_eq_true] at h
      rw [h, ih]

theorem mode_with_exec_bits (m : Nat) : (m ||| S_IXUSR ||| S_IXGRP ||| S_IXOTH) &&& S_IXUSR ≠ 0 := by
  intro h
  have h6 := congrArg (fun x => Nat.testBit x 6) h
  have e1 : Nat.testBit S_IXUSR 6 = true := by decide
  simp [Nat.testBit_and, Nat.testBit_or, e1] at h6

theorem follow_file (fs : FileSystem) (n : Nat) (k : Path) (mode : Nat) (content : String)
    (h : fs k = some (Node.file mode content)) :
    follow fs (n + 1) k = some (k, Node.file mode content) := by
  simp [follow, h]

theorem fs_copy_file_ok (env : Env) (src dst : Path) (w w1 : World)
    (h : fs_copy_file env src dst w = (false, w1)) :
    ∃ k mode content, absKey env dst = some k ∧
      w1.fs = Function.update w.fs k (some (Node.file mode content)) := by
  unfold fs_copy_file at h
  simp only at h
  split at h
  · rename_i x k1 mode content k hs hk
    split at h
    · simp at h
    · simp only [Prod.mk.injEq, Bool.false_eq_true, false_and, true_and] at h
      exact ⟨k, mode, content, hk, by rw [← h]⟩
  · simp at h

theorem fs_create_symlink_ok (env : Env) (target link : Path) (w w1 : World)
    (h : fs_create_symlink env target link w = (false, w1)) :
    ∃ k, absKey env link = some k ∧
      w1.fs = Function.update w.fs k (some (Node.symlink target)) := by
  unfold fs_create_symlink at h
  simp only at h
  split at h
  · rename_i k hk
    split at h
    · simp at h
    · simp only [Prod.mk.injEq, Bool.false_eq_true, false_and, true_and] at h
      exact ⟨k, hk, by rw [← h]⟩
  · simp at h

theorem makeExecutable_fresh_file (env : Env) (p k : Path) (mode : Nat) (content : String)
    (w w1 : World) (hk : absKey env p = some k) (hf : w.fs k = some (Node.file mode content))
    (h : makeExecutable env p w = (true, w1)) :
    ∃ mode1, w1.fs k = some (Node.file mode1 content) ∧ mode1 &&& S_IXUSR ≠ 0 := by
  have hstat : stat env w.fs p = some (k, Node.file mode content) := by
    simp [stat, hk, follow_file w.fs 39 k mode content hf]
  unfold makeExecutable at h
  rw [hstat] at h
  simp only [Node.mode] at h
  split at h
  · unfold chmod at h
    simp only [World.print_fs, hstat] at h
    split at h
    · simp at h
    · simp only [Bool.not_true, Bool.false_eq_true, if_false, Prod.mk.injEq, true_and] at h
      refine ⟨mode ||| S_IXUSR ||| S_IXGRP ||| S_IXOTH, ?_, mode_with_exec_bits mode⟩
      rw [← h]
      simp [Node.setMode]
  · rename_i hx
    simp only [Prod.mk.injEq, true_and] at h
    subst h
    exact ⟨mode, hf, hx⟩

theorem AutoInstaller.performInstallation_target (env : Env) (self : AutoInstaller) (w : World)
    (srcKey : Path) (habs : absKey env self.m_sourceFile = some srcKey)
    (hok : (self.performInstallation env w).1 = true) :
    (self.m_mode ≠ InstallMode.Link →
      ∃ k mode content,
        lstat env (self.performInstallation env w).2.fs
            (pathAppend self.m_targetDir (getFilename self.m_sourceFile))
          = some (k, Node.file mode content) ∧
        mode &&& S_IXUSR ≠ 0 ∧
        fs_exists env (self.performInstallation env w).2.fs
            (pathAppend self.m_targetDir (getFilename self.m_sourceFile)) = true) ∧
    (self.m_mode = InstallMode.Link →
      ∃ k,
        lstat env (self.performInstallation env w).2.fs
            (pathAppend self.m_targetDir (getFilename self.m_sourceFile))
          = some (k, Node.symlink srcKey)) := by
  have hpath : getAbsolutePath env self.m_sourceFile = srcKey := by
    simp [getAbsolutePath, habs]
  refine ⟨?_, ?_⟩
  · intro hmode
    unfold AutoInstaller.performInstallation at hok ⊢
    simp only at hok ⊢
    rcases hme : makeExecutable env (getAbsolutePath env self.m_sourceFile) w with ⟨b1, w1⟩
    rw [hme] at hok
    cases b1 with
    | false => simp at hok
    | true =>
      simp only at hok ⊢
      rcases hre : removeExisting env
        (pathAppend self.m_targetDir (getFilename self.m_sourceFile)) w1 with ⟨b2, w2⟩
      rw [hre] at hok
      cases b2 with
      | false => simp at hok
      | true =>
        simp only at hok ⊢
        cases hm : self.m_mode with
        | Link => exact absurd hm hmode
        | Copy =>
          rcases hcp : fs_copy_file env (getAbsolutePath env self.m_sourceFile)
            (pathAppend self.m_targetDir (getFilename self.m_sourceFile))
            (w2.print Level.info ("Copying '" ++ getAbsolutePath env self.m_sourceFile ++ "' to '"
              ++ pathAppend self.m_targetDir (getFilename self.m_sourceFile) ++ "'...")) with ⟨b3, w4⟩
          rw [hcp] at hok
          cases b3 with
          | true => simp at hok
          | false =>
            simp only at hok ⊢
            obtain ⟨k, mode, content, hk, hfs⟩ := fs_copy_file_ok _ _ _ _ _ hcp
            rcases hm2 : makeExecutable env
              (pathAppend self.m_targetDir (getFilename self.m_sourceFile)) w4 with ⟨b4, w5⟩
            rw [hm2] at hok
            cases b4 with
            | false => simp at hok
            | true =>
              simp only [World.print_fs]
              have hf : w4.fs k = some (Node.file mode content) := by rw [hfs]; simp
              obtain ⟨mode1, h5, hx⟩ := makeExecutable_fresh_file env _ k mode content w4 w5 hk hf hm2
              exact ⟨k, mode1, content, by simp [lstat, hk, h5], hx,
                by simp [fs_exists, stat, hk, follow_file w5.fs 39 k mode1 content h5]⟩
        | Auto =>
          rcases hcp : fs_copy_file env (getAbsolutePath env self.m_sourceFile)
            (pathAppend self.m_targetDir (getFilename self.m_sourceFile))
            (w2.print Level.info ("Copying '" ++ getAbsolutePath env self.m_sourceFile ++ "' to '"
              ++ pathAppend self.m_targetDir (getFilename self.m_sourceFile) ++ "'...")) with ⟨b3, w4⟩
          rw [hcp] at hok
          cases b3 with
          | true => simp at hok
          | false =>
            simp only at hok ⊢
            obtain ⟨k, mode, content, hk, hfs⟩ := fs_copy_file_ok _ _ _ _ _ hcp
            rcases hm2 : makeExecutable env
              (pathAppend self.m_targetDir (getFilename self.m_sourceFile)) w4 with ⟨b4, w5⟩
            rw [hm2] at hok
            cases b4 with
            | false => simp at hok
            | true =>
              simp only [World.print_fs]
              have hf : w4.fs k = some (Node.file mode content) := by rw [hfs]; simp
              obtain ⟨mode1, h5, hx⟩ := makeExecutable_fresh_file env _ k mode content w4 w5 hk hf hm2
              exact ⟨k, mode1, content, by simp [lstat, hk, h5], hx,
                by simp [fs_exists, stat, hk, follow_file w5.fs 39 k mode1 content h5]⟩
  · intro hmode
    unfold AutoInstaller.performInstallation at hok ⊢
    simp only at hok ⊢
    rcases hme : makeExecutable env (getAbsolutePath env self.m_sourceFile) w with ⟨b1, w1⟩
    rw [hme] at hok
    cases b1 with
    | false => simp at hok
    | true =>
      simp only at hok ⊢
      rcases hre : removeExisting env
        (pathAppend self.m_targetDir (getFilename self.m_sourceFile)) w1 with ⟨b2, w2⟩
      rw [hre] at hok
      cases b2 with
      | false => simp at hok
      | true =>
        rw [hmode] at hok ⊢
        simp only at hok ⊢
        rcases hsl : fs_create_symlink env (getAbsolutePath env self.m_sourceFile)
          (pathAppend self.m_targetDir (getFilename self.m_sourceFile))
          (w2.print Level.info ("Creating symbolic link '"
            ++ pathAppend self.m_targetDir (getFilename self.m_sourceFile) ++ "' -> '"
            ++ getAbsolutePath env self.m_sourceFile ++ "'...")) with ⟨b3, w4⟩
        rw [hsl] at hok
        cases b3 with
        | true => simp at hok
        | false =>
          simp only [World.print_fs]
          obtain ⟨k, hk, hfs⟩ := fs_create_symlink_ok _ _ _ _ _ hsl
          refine ⟨k, ?_⟩
          rw [hfs, hpath]
          simp [lstat, hk]


theorem filename_of_split (p dir name : String) (hsplit : p = dir ++ name)
    (hdir : dir.data = [] ∨ dir.data.getLast? = some '/') (hname : '/' ∉ name.data) :
    filename p = name := by
  have hall : ∀ a ∈ name.data.reverse, (a != '/') = true := by
    intro a ha
    have : a ≠ '/' := fun h => hname (by rw [← h]; exact List.mem_reverse.1 ha)
    simpa using this
  have hrest : dir.data.reverse.takeWhile (fun c => c != '/') = [] := by
    rcases hdir with h | h
    · rw [h]; rfl
    · rcases List.eq_nil_or_concat dir.data with h0 | ⟨l, b, h0⟩
      · rw [h0]; rfl
      · rw [h0] at h ⊢
        simp only [List.concat_eq_append, List.getLast?_append, List.getLast?_singleton,
          Option.or_some, Option.some.injEq] at h
        rw [List.concat_eq_append, List.reverse_append, h]
        rfl
  unfold filename
  apply String.ext
  rw [hsplit, String.data_append, List.reverse_append,
    List.takeWhile_append_of_pos hall, hrest, List.append_nil, List.reverse_reverse]

/-- C3: a successful `performInstallation` for a source that leads to a
regular file (whatever its permission bits, so also without the execute
bit, whether the source is the file itself or a symbolic link to it, and
whether or not the target directory was checked before).  The file name of
the source is what follows its last `/`: the source is `dir ++ name` with
`dir` empty or ending in `/` and no `/` in `name`.  In Copy and Auto mode
the name `<targetDir>/<name>` then exists and denotes a regular file whose
owner-execute bit is set; in Link mode it denotes a symbolic link whose
target is the absolute path of the source: the source itself when it
starts with `/`, and `<cwd>/<source>` otherwise. -/
theorem C3_successful_installation_places_target (env : Env) (self : AutoInstaller) (w : World)
    (dir name : String) (hsplit : self.m_sourceFile = dir ++ name)
    (hdir : dir.data = [] ∨ dir.data.getLast? = some '/') (hname : '/' ∉ name.data)
    (hsrc : is_regular_file env w.fs self.m_sourceFile = true)
    (hok : (self.performInstallation env w).1 = true) :
    ∃ srcKey,
      (is_absolute self.m_sourceFile = true → srcKey = self.m_sourceFile) ∧
      (is_absolute self.m_sourceFile = false →
        ∃ cwd, env.cwd = some cwd ∧ srcKey = pathAppend cwd self.m_sourceFile) ∧
      (self.m_mode ≠ InstallMode.Link →
        ∃ k mode content,
          lstat env (self.performInstallation env w).2.fs (pathAppend self.m_targetDir name)
            = some (k, Node.file mode content) ∧
          mode &&& S_IXUSR ≠ 0 ∧
          fs_exists env (self.performInstallation env w).2.fs
              (pathAppend self.m_targetDir name) = true) ∧
      (self.m_mode = InstallMode.Link →
        ∃ k,
          lstat env (self.performInstallation env w).2.fs (pathAppend self.m_targetDir name)
            = some (k, Node.symlink srcKey)) := by
  have hfn : getFilename self.m_sourceFile = name :=
    filename_of_split self.m_sourceFile dir name hsplit hdir hname
  cases habs : absKey env self.m_sourceFile with
  | none => simp [is_regular_file, stat, habs] at hsrc
  | some srcKey =>
    have h := self.performInstallation_target env w srcKey habs hok
    rw [hfn] at h
    refine ⟨srcKey, ?_, ?_, h.1, h.2⟩
    · intro ha
      unfold absKey at habs
      by_cases he : self.m_sourceFile.data.isEmpty = true
      · rw [if_pos he] at habs
        cases habs
      · rw [if_neg he, if_pos ha] at habs
        exact (Option.some.inj habs).symm
    · intro ha
      unfold absKey at habs
      by_cases he : self.m_sourceFile.data.isEmpty = true
      · rw [if_pos he] at habs
        cases habs
      · rw [if_neg he, ha] at habs
        simp only [Bool.false_eq_true, if_false, Option.map_eq_some'] at habs
        obtain ⟨c, hc, hk⟩ := habs
        exact ⟨c, hc, hk.symm⟩

set_option maxRecDepth 100000 in
theorem C3_installation_witness :
    (is_regular_file sampleEnv sampleWorld.fs "tool.sh" = true ∧
      0o644 &&& (S_IXUSR ||| S_IXGRP ||| S_IXOTH) = 0 ∧
      (AutoInstaller.checkTargetDirectory sampleEnv
        { m_sourceFile := "tool.sh", m_mode := InstallMode.Copy } sampleWorld).1 = true ∧
      (AutoInstaller.performInstallation sampleEnv
          { m_sourceFile := "tool.sh", m_mode := InstallMode.Copy } sampleWorld).2.fs
          "/usr/local/bin/tool.sh"
        = some (Node.file 0o755 "echo tool") ∧
      ∃ k mode content,
        lstat sampleEnv
            (AutoInstaller.performInstallation sampleEnv
              { m_sourceFile := "tool.sh", m_mode := InstallMode.Copy } sampleWorld).2.fs
            "/usr/local/bin/tool.sh"
          = some (k, Node.file mode content) ∧
        mode &&& S_IXUSR ≠ 0 ∧
        fs_exists sampleEnv
            (AutoInstaller.performInstallation sampleEnv
              { m_sourceFile := "tool.sh", m_mode := InstallMode.Copy } sampleWorld).2.fs
            "/usr/local/bin/tool.sh" = true) ∧
    ((AutoInstaller.performInstallation sampleEnv
        { m_sourceFile := "/home/dev/proj/tool.sh", m_mode := InstallMode.Link }
        sampleWorld).2.fs "/usr/local/bin/tool.sh"
      = some (Node.symlink "/home/dev/proj/tool.sh")) ∧
    (∃ k,
      lstat sampleEnv
          (AutoInstaller.performInstallation sampleEnv
            { m_sourceFile := "/home/dev/proj/tool.sh", m_mode := InstallMode.Link }
            sampleWorld).2.fs "/usr/local/bin/tool.sh"
        = some (k, Node.symlink "/home/dev/proj/tool.sh")) ∧
    ((AutoInstaller.performInstallation sampleEnv
        { m_sourceFile := "latest.sh", m_mode := InstallMode.Link } linkedWorld).2.fs
        "/usr/local/bin/latest.sh"
      = some (Node.symlink "/home/dev/proj/latest.sh")) ∧
    ((AutoInstaller.performInstallation sampleEnv
        { m_sourceFile := "latest.sh", m_mode := InstallMode.Copy } linkedWorld).2.fs
        "/usr/local/bin/latest.sh"
      = some (Node.file 0o755 "echo tool")) := by
  obtain ⟨_, _, _, hcopy, _⟩ := C3_successful_installation_places_target sampleEnv
    { m_sourceFile := "tool.sh", m_mode := InstallMode.Copy } sampleWorld "" "tool.sh"
    (by decide) (by decide) (by decide) (by decide) (by decide)
  obtain ⟨srcKey, habs, _, _, hlink⟩ := C3_successful_installation_places_target sampleEnv
    { m_sourceFile := "/home/dev/proj/tool.sh", m_mode := InstallMode.Link } sampleWorld
    "/home/dev/proj/" "tool.sh" (by decide) (by decide) (by decide) (by decide) (by decide)
  have hkey : srcKey = "/home/dev/proj/tool.sh" := habs (by decide)
  subst hkey
  exact ⟨⟨by decide, by decide, by decide, by decide, hcopy (by decide)⟩,
    by decide, hlink rfl, by decide, by decide⟩

theorem probeCommands_none (env : Env) (l : List String) (w : World)
    (h : (probeCommands env l w).1 = none) :
    (probeCommands env l w).2 = { w with trace := w.trace ++ probeEvents l } := by
  induction l generalizing w with
  | nil => simp [probeCommands, probeEvents]
  | cons c cs ih =>
    have h2 := probeCommand_world env c w
    rcases hp : probeCommand env c w with ⟨r, w1⟩
    rw [hp] at h2
    simp only at h2
    unfold probeCommands at h ⊢
    rw [hp] at h ⊢
    cases r with
    | some d => simp at h
    | none =>
      simp only at h ⊢
      rw [ih w1 h, h2]
      simp [World.record, probeEvents]

theorem probeCommands_onlyProbed (env : Env) (l : List String) (w : World)
    (hl : ∀ c ∈ l, c ∈ testCommands) :
    OnlyProbed w (probeCommands env l w).2 ∧ (probeCommands env l w).2.out = w.out := by
  induction l generalizing w with
  | nil => exact ⟨⟨rfl, [], by simp, by simp [probeCommands, probeEvents]⟩, rfl⟩
  | cons c cs ih =>
    have h2 := probeCommand_world env c w
    rcases hp : probeCommand env c w with ⟨r, w1⟩
    rw [hp] at h2
    simp only at h2
    unfold probeCommands
    rw [hp]
    have hc : c ∈ testCommands := hl c (List.mem_cons_self _ _)
    cases r with
    | some d =>
      subst h2
      exact ⟨⟨rfl, [c], by simpa using hc, by simp [probeEvents]⟩, rfl⟩
    | none =>
      simp only
      obtain ⟨⟨hfs, cmds, hcm, htr⟩, hout⟩ := ih w1 (fun x hx => hl x (List.mem_cons_of_mem _ hx))
      subst h2
      refine ⟨⟨by simpa using hfs, c :: cmds, ?_, ?_⟩, by simpa [World.record] using hout⟩
      · intro x hx
        rcases List.mem_cons.1 hx with rfl | hx
        · exact hc
        · exact hcm x hx
      · rw [htr]; simp [probeEvents]

theorem autoDetectPath_onlyProbed (env : Env) (w : World) :
    OnlyProbed w (autoDetectPath env w).2 := by
  have h := (probeCommands_onlyProbed env testCommands w (fun _ h => h)).1
  unfold autoDetectPath
  rcases hp : probeCommands env testCommands w with ⟨r, w1⟩
  rw [hp] at h
  cases r with
  | some d => exact h
  | none =>
    simp only
    cases probeFallbacks env w1.fs fallbackPaths with
    | some p => exact h
    | none => exact h

theorem OnlyProbed.refl (w : World) : OnlyProbed w w :=
  ⟨rfl, [], by simp, by simp [probeEvents]⟩

theorem OnlyProbed.print {w w1 : World} (h : OnlyProbed w w1) (l : Level) (m : String) :
    OnlyProbed w (w1.print l m) := h

theorem autoDetectPath_of_nothing_writable (env : Env) (w : World) (hroot : env.uid ≠ 0)
    (hcmd : ∀ cmd ∈ testCommands, env.access_w (parent_path
      ⟨(env.execute ("which " ++ cmd)).stdout_output.data.filter (fun c => c != '\n')⟩) = false)
    (hfb : ∀ d ∈ fallbackPaths, env.access_w d = false) :
    autoDetectPath env w = ("", autoDetectFailed w) := by
  have hq : ∀ cmd ∈ testCommands, commandQualifies env w.fs cmd = false := by
    intro cmd hc
    unfold commandQualifies resolvedPath
    simp only
    split
    · rename_i p hp
      split at hp
      · simp only [Option.some.injEq] at hp
        subst hp
        simp [hcmd cmd hc, hroot]
      · simp at hp
    · rfl
  have h1 := probeCommands_spec env testCommands w
  have hfind : testCommands.find? (commandQualifies env w.fs) = none := by
    rw [List.find?_eq_none]
    intro x hx; simp [hq x hx]
  rw [hfind] at h1
  have h3 := probeCommands_none env testCommands w h1.1
  unfold autoDetectPath
  rcases hp : probeCommands env testCommands w with ⟨r, w1⟩
  rw [hp] at h1 h3
  simp only [Option.map_none'] at h1 h3
  obtain ⟨hr, -⟩ := h1
  subst hr; subst h3
  simp only
  have hf : probeFallbacks env w.fs fallbackPaths = none := by
    rw [probeFallbacks_spec, List.find?_eq_none]
    intro x hx; simp [hfb x hx, hroot]
  rw [hf]
  rfl

/-- C4: auto-detect mode when the process is not root and neither the
containing directory of any probed command nor any of /usr/local/bin,
/usr/bin, /bin is writable.  `autoDetectPath` returns the empty string after
printing that no suitable directory was found; `install` then returns
`false`, and `run` ends in the exception "Could not auto-detect suitable bin
directory" thrown by `parseArguments` (for a source that does not exist it
has already thrown "Source not found"); in each case the file system is
the one before and the only calls made are the `which` probes. -/
theorem C4_auto_detect_without_writable_directory (env : Env) (self : AutoInstaller)
    (src : String) (w : World) (hroot : env.uid ≠ 0)
    (hcmd : ∀ cmd ∈ testCommands, env.access_w (parent_path
      ⟨(env.execute ("which " ++ cmd)).stdout_output.data.filter (fun c => c != '\n')⟩) = false)
    (hfb : ∀ d ∈ fallbackPaths, env.access_w d = false) :
    autoDetectPath env w = ("", autoDetectFailed w) ∧
    (autoDetectFailed w).fs = w.fs ∧
    (autoDetectFailed w).trace = w.trace ++ probeEvents testCommands ∧
    self.install env src InstallMode.Auto "" w = (false, autoDetectFailed w) ∧
    (fs_exists env w.fs src = true →
      self.run env (some src) (some "--auto") w
        = (RunResult.caught "Could not auto-detect suitable bin directory",
            (autoDetectFailed w).print .error
              "An error occurred: Could not auto-detect suitable bin directory")) ∧
    (fs_exists env w.fs src = false →
      self.run env (some src) (some "--auto") w
        = (RunResult.caught "Source not found",
            (w.print .error ("Source " ++ src ++ " not found")).print .error
              "An error occurred: Source not found")) := by
  have ha := autoDetectPath_of_nothing_writable env w hroot hcmd hfb
  refine ⟨ha, rfl, rfl, ?_, ?_, ?_⟩
  · unfold AutoInstaller.install
    simp [ha]
  · intro hs
    unfold AutoInstaller.run AutoInstaller.parseArguments
    simp [hs, ha]
  · intro hs
    unfold AutoInstaller.run AutoInstaller.parseArguments
    simp [hs]

theorem C4_auto_detect_witness :
    autoDetectPath lockedEnv sampleWorld = ("", autoDetectFailed sampleWorld) ∧
    (autoDetectFailed sampleWorld).fs = sampleWorld.fs ∧
    (autoDetectFailed sampleWorld).trace = sampleWorld.trace ++ probeEvents testCommands ∧
    AutoInstaller.install lockedEnv {} "tool.sh" InstallMode.Auto "" sampleWorld
      = (false, autoDetectFailed sampleWorld) ∧
    (fs_exists lockedEnv sampleWorld.fs "tool.sh" = true →
      AutoInstaller.run lockedEnv {} (some "tool.sh") (some "--auto") sampleWorld
        = (RunResult.caught "Could not auto-detect suitable bin directory",
            (autoDetectFailed sampleWorld).print .error
              "An error occurred: Could not auto-detect suitable bin directory")) ∧
    (fs_exists lockedEnv sampleWorld.fs "tool.sh" = false →
      AutoInstaller.run lockedEnv {} (some "tool.sh") (some "--auto") sampleWorld
        = (RunResult.caught "Source not found",
            (sampleWorld.print .error ("Source " ++ "tool.sh" ++ " not found")).print .error
              "An error occurred: Source not found")) :=
  C4_auto_detect_without_writable_directory lockedEnv {} "tool.sh" sampleWorld (by decide)
    (fun _ _ => rfl) (fun _ _ => rfl)

/-! ## The cloner behind the command line -/

set_option maxRecDepth 100000 in
/-- C5: `dvk clone` without a suffix.  `DVK::start` hands the whole `argv` to
`ProjectCloner`, whose `parseArguments` skips only `argv[0]`: the verb `clone`
is read as the suffix, so the backup is `<dir>_clone` (and
`<dir>_clone.tar.gz` with `-c`), not `<dir>_clean_<timestamp>`. -/
theorem C5_clone_without_suffix_takes_verb_as_suffix :
    (∀ (env : Env) (w : World),
      (ProjectCloner.parseArguments env (ProjectCloner.mk0 ["dvk", "clone"] "clone") w).2.1.m_suffix
        = "clone") ∧
    (ProjectCloner.run sampleEnv (ProjectCloner.mk0 ["dvk", "clone"] "clone")
        sampleWorld).2.1.m_backupPath = "/home/dev/proj_clone" ∧
    (start sampleEnv id ["dvk", "clone"] sampleWorld).2.trace.getLast?
      = some (Event.exec (rsyncCommand "/home/dev/proj" "/home/dev/proj_clone")) ∧
    (start sampleEnv id ["dvk", "clone", "-c"]
        sampleWorld).2.trace.getLast?
      = some (Event.exec (tarCommand "/home/dev/proj_clone.tar.gz" "/home/dev" "proj")) := by
  refine ⟨fun env w => rfl, by decide, by decide, by decide⟩

theorem ProjectCloner.run_executes_backup_command (env : Env) (self : ProjectCloner) (w : World)
    (h : (self.run env w).1 = .ok ()) : ∃ cmd, Event.exec cmd ∈ (self.run env w).2.2.trace := by
  unfold ProjectCloner.run at h ⊢
  rcases hp : self.parseArguments env w with ⟨b, self1, w1⟩
  rw [hp] at h
  simp only at h ⊢
  cases hc : env.cwd with
  | none => rw [hc] at h; simp at h
  | some c =>
    rw [hc] at h
    simp only at h ⊢
    rcases hv : ProjectCloner.validateEnvironment env
      { self1 with m_currentPath := c, m_parentPath := parent_path c, m_sourceDirName := filename c }
      w1 with ⟨r, w2⟩
    rw [hv] at h
    cases r with
    | error e => simp at h
    | ok u =>
      simp only [ProjectCloner.printFinalSummary, ProjectCloner.performBackup,
        ProjectCloner.performTarBackup, ProjectCloner.performRsyncBackup, execute, World.print,
        World.record]
      split <;> split <;> split <;> simp

set_option maxRecDepth 100000 in
/-- C6: declining the overwrite question does not stop the run.  With the
earlier backup `/home/dev/proj_clone` in place and the answer `n`, the run
prints "Backup cancelled." and then executes `rsync` into that backup all
the same; and in general every run of `ProjectCloner::run` that returns has
executed a backup command, whatever `prepareBackupDestination` returned. -/
theorem C6_declined_overwrite_still_runs_backup :
    readResponse sampleEnv = 'n' ∧
    fs_exists sampleEnv backedUpWorld.fs "/home/dev/proj_clone" = true ∧
    (ProjectCloner.prepareBackupDestination sampleEnv
      { ProjectCloner.mk0 ["dvk", "clone"] "clone" with
        m_suffix := "clone", m_currentPath := "/home/dev/proj", m_parentPath := "/home/dev",
        m_sourceDirName := "proj" } backedUpWorld).1 = false ∧
    (Level.info, "Backup cancelled.") ∈ (start sampleEnv id ["dvk", "clone"] backedUpWorld).2.out ∧
    (start sampleEnv id ["dvk", "clone"] backedUpWorld).2.trace
      = [Event.ofstream "/home/dev/.projclone_writetest",
         Event.remove "/home/dev/.projclone_writetest",
         Event.exec (rsyncCommand "/home/dev/proj" "/home/dev/proj_clone")] ∧
    (∀ (env : Env) (self : ProjectCloner) (w : World), (self.run env w).1 = .ok () →
      ∃ cmd, Event.exec cmd ∈ (self.run env w).2.2.trace) := by
  refine ⟨by decide, by decide, by decide, by decide, by decide, ?_⟩
  exact fun env self w h => ProjectCloner.run_executes_backup_command env self w h

theorem ProjectCloner.parseLoop_second_suffix (self : ProjectCloner) (first suffix : String)
    (w : World) (h1 : first.data.isEmpty = false) (h2 : suffix.data.head? ≠ some '-') :
    (ProjectCloner.parseLoop self first [suffix] w).1 = none ∧
    (ProjectCloner.parseLoop self first [suffix] w).2.1 = self := by
  have a1 : suffix ≠ "-h" := by rintro rfl; exact h2 (by decide)
  have a2 : suffix ≠ "--help" := by rintro rfl; exact h2 (by decide)
  have a3 : suffix ≠ "-c" := by rintro rfl; exact h2 (by decide)
  have a4 : suffix ≠ "--compress" := by rintro rfl; exact h2 (by decide)
  simp [ProjectCloner.parseLoop, a1, a2, a3, a4, h2, h1]

set_option maxRecDepth 100000 in
/-- C7: `dvk clone <suffix>`.  Because the verb `clone` already fills the
suffix slot, every suffix that follows (not starting with `-`) is refused
with "Too many arguments", `parseArguments` returns `false` and leaves
`m_suffix` empty; `run` goes on regardless, so `dvk clone v1` backs up into
`<dir>_` and `dvk clone -c v1` into `<dir>_.tar.gz`. -/
theorem C7_clone_with_suffix_is_refused :
    (∀ (env : Env) (w : World) (suffix : String), suffix.data.head? ≠ some '-' →
      (ProjectCloner.parseArguments env (ProjectCloner.mk0 ["dvk", "clone", suffix] "clone") w).1
        = false ∧
      (ProjectCloner.parseArguments env (ProjectCloner.mk0 ["dvk", "clone", suffix] "clone")
        w).2.1.m_suffix = "") ∧
    (Level.error, "Too many arguments. Only one suffix is allowed.")
      ∈ (start sampleEnv id ["dvk", "clone", "v1"] sampleWorld).2.out ∧
    (start sampleEnv id ["dvk", "clone", "v1"] sampleWorld).2.trace.getLast?
      = some (Event.exec (rsyncCommand "/home/dev/proj" "/home/dev/proj_")) ∧
    (start sampleEnv id ["dvk", "clone", "-c", "v1"] sampleWorld).2.trace.getLast?
      = some (Event.exec (tarCommand "/home/dev/proj_.tar.gz" "/home/dev" "proj")) := by
  refine ⟨?_, by decide, by decide, by decide⟩
  intro env w suffix h
  have h0 := ProjectCloner.parseLoop_second_suffix (ProjectCloner.mk0 ["dvk", "clone", suffix] "clone")
    "clone" suffix w (by decide) h
  have e : ProjectCloner.parseLoop (ProjectCloner.mk0 ["dvk", "clone", suffix] "clone") ""
      ["clone", suffix] w
      = ProjectCloner.parseLoop (ProjectCloner.mk0 ["dvk", "clone", suffix] "clone") "clone"
        [suffix] w := by
    rw [ProjectCloner.parseLoop]
    simp
  unfold ProjectCloner.parseArguments
  simp only [ProjectCloner.mk0, List.drop_succ_cons, List.drop_zero] at *
  rw [e]
  rcases hp : ProjectCloner.parseLoop _ "clone" [suffix] w with ⟨r, s1, w1⟩
  rw [hp] at h0
  simp only at h0
  obtain ⟨hr, hs⟩ := h0
  subst hr; subst hs
  simp

/-- C8: `autoDetectPath` returns what its description says: the containing
directory of the first command among ls, cat, echo, sh, which whose resolved
path exists as a regular file and whose containing directory is writable or
the process is root; otherwise the first of /usr/local/bin, /usr/bin, /bin
that is a directory and is writable or the process is root; otherwise the
empty string. -/
theorem C8_autoDetectPath_refines_description (env : Env) (w : World) :
    (autoDetectPath env w).1 = autoDetectPathSpec env w.fs := by
  have h := probeCommands_spec env testCommands w
  unfold autoDetectPath autoDetectPathSpec
  rcases hp : probeCommands env testCommands w with ⟨r, w1⟩
  rw [hp] at h
  obtain ⟨h1, h2⟩ := h
  simp only at h1 h2
  simp only [testCommands] at h1
  cases r with
  | some d =>
    cases hf : (["ls", "cat", "echo", "sh", "which"].find? (commandQualifies env w.fs)) with
    | none => rw [hf] at h1; simp at h1
    | some c => rw [hf] at h1; simp at h1; simp [h1]
  | none =>
    cases hf : (["ls", "cat", "echo", "sh", "which"].find? (commandQualifies env w.fs)) with
    | some c => rw [hf] at h1; simp at h1
    | none =>
      simp only
      rw [probeFallbacks_spec, h2, fallbackPaths]
      cases hfb : (["/usr/local/bin", "/usr/bin", "/bin"].find?
        (fun d => is_directory env w.fs d && (env.access_w d || env.uid == 0))) <;> rfl

theorem AutoInstaller.showUsage_onlyProbed {w w1 : World} (h : OnlyProbed w w1) (n : String) :
    OnlyProbed w (AutoInstaller.showUsage n w1) := h

theorem AutoInstaller.gate_closed (env : Env) (s : AutoInstaller) (w w1 : World)
    (hw : OnlyProbed w w1) (hnot : ¬ Ready env w.fs s.m_sourceFile s.m_targetDir) :
    ((s.validateSourceFile env w1).1 = false ∧ OnlyProbed w (s.validateSourceFile env w1).2) ∨
    (s.validateSourceFile env w1 = (true, w1) ∧
      (s.checkTargetDirectory env w1).1 = false ∧
      OnlyProbed w (s.checkTargetDirectory env w1).2) := by
  have hfs : w1.fs = w.fs := hw.1
  unfold Ready at hnot
  unfold AutoInstaller.validateSourceFile AutoInstaller.checkTargetDirectory fileExists
    hasWritePermission isRoot
  rw [hfs]
  by_cases hE : fs_exists env w.fs s.m_sourceFile = true
  · by_cases hR : is_regular_file env w.fs s.m_sourceFile = true
    · right
      by_cases hD : is_directory env w.fs s.m_targetDir = true
      · by_cases hW : env.access_w s.m_targetDir = true
        · exact absurd ⟨⟨hE, hR⟩, hD, Or.inl hW⟩ hnot
        · by_cases hU : env.uid = 0
          · exact absurd ⟨⟨hE, hR⟩, hD, Or.inr hU⟩ hnot
          · simp [hE, hR, hD, hW, hU, hw.print]
      · simp [hE, hR, hD, hw.print]
    · left
      simp [hE, hR, hw.print]
  · left
    simp [hE, hw.print]

theorem AutoInstaller.parseArguments_spec (env : Env) (self : AutoInstaller)
    (target flags : Option String) (w : World) :
    OnlyProbed w (AutoInstaller.parseArguments env self target flags w).2 ∧
    ∀ s, (AutoInstaller.parseArguments env self target flags w).1 = .ok s →
      s.m_sourceFile = target.getD self.m_sourceFile ∧
      s.m_targetDir = (if flags = some "--auto" then (autoDetectPath env w).1 else self.m_targetDir) := by
  have ha := autoDetectPath_onlyProbed env w
  have hsrc : (match target with
      | some t => ({ self with m_sourceFile := t } : AutoInstaller)
      | none => self).m_sourceFile = target.getD self.m_sourceFile := by
    cases target <;> rfl
  have hdir : (match target with
      | some t => ({ self with m_sourceFile := t } : AutoInstaller)
      | none => self).m_targetDir = self.m_targetDir := by
    cases target <;> rfl
  unfold AutoInstaller.parseArguments
  simp only
  split
  · exact ⟨(OnlyProbed.refl w).print _ _, by simp⟩
  · cases flags with
    | none => exact ⟨OnlyProbed.refl w, by intro s hs; simp at hs; subst hs; simp [hsrc, hdir]⟩
    | some f =>
      simp only
      by_cases h1 : f = "--link"
      · rw [if_pos h1]
        subst h1
        refine ⟨OnlyProbed.refl w, ?_⟩
        intro s hs
        simp only [Except.ok.injEq] at hs
        subst hs
        refine ⟨hsrc, ?_⟩
        rw [if_neg (by decide)]
        exact hdir
      · rw [if_neg h1]
        by_cases h2 : f = "--auto"
        · rw [if_pos h2]
          subst h2
          rcases hp : autoDetectPath env w with ⟨dir, w1⟩
          rw [hp] at ha
          simp only
          split
          · exact ⟨ha, by simp⟩
          · refine ⟨ha, ?_⟩
            intro s hs
            simp only [Except.ok.injEq] at hs
            subst hs
            exact ⟨hsrc, by simp⟩
        · rw [if_neg h2]
          exact ⟨AutoInstaller.showUsage_onlyProbed ((OnlyProbed.refl w).print _ _) _, by simp⟩

theorem AutoInstaller.run_gate (env : Env) (self : AutoInstaller)
    (target flags : Option String) (w : World)
    (hnot : ¬ Ready env w.fs (target.getD self.m_sourceFile)
        (if flags = some "--auto" then (autoDetectPath env w).1 else self.m_targetDir)) :
    OnlyProbed w (self.run env target flags w).2 ∧
      ((self.run env target flags w).1 = RunResult.sourceRejected ∨
       (self.run env target flags w).1 = RunResult.targetRejected ∨
       ∃ what, (self.run env target flags w).1 = RunResult.caught what) := by
  have hp := AutoInstaller.parseArguments_spec env self target flags w
  unfold AutoInstaller.run
  rcases hpa : AutoInstaller.parseArguments env self target flags w with ⟨r, w1⟩
  rw [hpa] at hp
  obtain ⟨hw1, hs⟩ := hp
  simp only at hw1 hs
  cases r with
  | error what => exact ⟨hw1.print _ _, Or.inr (Or.inr ⟨what, rfl⟩)⟩
  | ok s =>
    obtain ⟨e1, e2⟩ := hs s rfl
    rw [← e1, ← e2] at hnot
    simp only
    rcases AutoInstaller.gate_closed env s w w1 hw1 hnot with ⟨h1, h2⟩ | ⟨h1, h2, h3⟩
    · rcases hv : s.validateSourceFile env w1 with ⟨b, w2⟩
      rw [hv] at h1 h2
      simp only at h1 h2
      subst h1
      exact ⟨h2, Or.inl rfl⟩
    · rw [h1]
      simp only
      rcases hc : s.checkTargetDirectory env w1 with ⟨b, w3⟩
      rw [hc] at h2 h3
      simp only at h2 h3
      subst h2
      exact ⟨h3, Or.inr (Or.inl rfl)⟩

theorem AutoInstaller.install_gate (env : Env) (self : AutoInstaller)
    (sourceFile : String) (mode : InstallMode) (customTargetDir : String) (w : World)
    (hnot : ¬ Ready env w.fs sourceFile
        (if customTargetDir ≠ "" then customTargetDir
         else if mode = InstallMode.Auto then (autoDetectPath env w).1 else self.m_targetDir)) :
    OnlyProbed w (self.install env sourceFile mode customTargetDir w).2 ∧
      (self.install env sourceFile mode customTargetDir w).1 = false := by
  have key : ∀ (s : AutoInstaller) (w1 : World), OnlyProbed w w1 →
      ¬ Ready env w.fs s.m_sourceFile s.m_targetDir →
      OnlyProbed w (match s.validateSourceFile env w1 with
        | (false, w2) => (false, w2)
        | (true, w2) =>
          match s.checkTargetDirectory env w2 with
          | (false, w3) => (false, w3)
          | (true, w3) =>
            match s.performInstallation env w3 with
            | (false, w4) => (false, w4)
            | (true, w4) =>
              s.verifyInstallation env
                (pathAppend s.m_targetDir (getFilename s.m_sourceFile)) w4).2 ∧
      (match s.validateSourceFile env w1 with
        | (false, w2) => (false, w2)
        | (true, w2) =>
          match s.checkTargetDirectory env w2 with
          | (false, w3) => (false, w3)
          | (true, w3) =>
            match s.performInstallation env w3 with
            | (false, w4) => (false, w4)
            | (true, w4) =>
              s.verifyInstallation env
                (pathAppend s.m_targetDir (getFilename s.m_sourceFile)) w4).1 = false := by
    intro s w1 hw1 hn
    rcases AutoInstaller.gate_closed env s w w1 hw1 hn with ⟨h1, h2⟩ | ⟨h1, h2, h3⟩
    · rcases hv : s.validateSourceFile env w1 with ⟨b, w2⟩
      rw [hv] at h1 h2
      simp only at h1 h2
      subst h1
      exact ⟨h2, rfl⟩
    · rw [h1]
      simp only
      rcases hc : s.checkTargetDirectory env w1 with ⟨b, w3⟩
      rw [hc] at h2 h3
      simp only at h2 h3
      subst h2
      exact ⟨h3, rfl⟩
  have hne : (customTargetDir.data.isEmpty = true) ↔ customTargetDir = "" := by
    cases customTargetDir with
    | mk d => cases d <;> simp [String.ext_iff]
  unfold AutoInstaller.install
  simp only
  by_cases hc : customTargetDir = ""
  · have hc2 : customTargetDir.data.isEmpty = true := hne.2 hc
    rw [if_neg (by simpa using hc)] at hnot
    simp only [hc2, Bool.not_true, Bool.false_eq_true, if_false]
    by_cases hm : mode = InstallMode.Auto
    · rw [if_pos hm] at hnot ⊢
      have ha := autoDetectPath_onlyProbed env w
      rcases hp : autoDetectPath env w with ⟨dir, w1⟩
      rw [hp] at ha hnot
      simp only at ha hnot ⊢
      split
      · exact ⟨ha, rfl⟩
      · exact key _ w1 ha hnot
    · rw [if_neg hm] at hnot ⊢
      exact key _ w (OnlyProbed.refl w) hnot
  · have hc2 : ¬ customTargetDir.data.isEmpty = true := fun h => hc (hne.1 h)
    rw [if_pos (by simpa using hc)] at hnot
    simp only [Bool.not_eq_true] at hc2
    simp only [hc2, Bool.not_false, if_true]
    exact key _ w (OnlyProbed.refl w) hnot

/-- C9: neither `AutoInstaller::run` nor `AutoInstaller::install` touches the
file system unless the source exists and is a regular file and the target
directory (the default or given one, or the auto-detected one) is a
directory that is writable or the process is root.  When that precondition
fails, `run` ends at a caught exception or at one of its two checks and
`install` returns `false`; the file system is the one before and the only
calls made are `which` probes: no `chmod`, removal, copy or link. -/
theorem C9_no_mutation_before_checks_pass (env : Env) (self : AutoInstaller)
    (target flags : Option String) (sourceFile : String) (mode : InstallMode)
    (customTargetDir : String) (w : World) :
    (¬ Ready env w.fs (target.getD self.m_sourceFile)
        (if flags = some "--auto" then (autoDetectPath env w).1 else self.m_targetDir) →
      OnlyProbed w (self.run env target flags w).2 ∧
      ((self.run env target flags w).1 = RunResult.sourceRejected ∨
       (self.run env target flags w).1 = RunResult.targetRejected ∨
       ∃ what, (self.run env target flags w).1 = RunResult.caught what)) ∧
    (¬ Ready env w.fs sourceFile
        (if customTargetDir ≠ "" then customTargetDir
         else if mode = InstallMode.Auto then (autoDetectPath env w).1 else self.m_targetDir) →
      OnlyProbed w (self.install env sourceFile mode customTargetDir w).2 ∧
      (self.install env sourceFile mode customTargetDir w).1 = false) := by
  exact ⟨AutoInstaller.run_gate env self target flags w,
    AutoInstaller.install_gate env self sourceFile mode customTargetDir w⟩

theorem C9_no_mutation_witness :
    (OnlyProbed sampleWorld
        (AutoInstaller.run lockedEnv {} (some "tool.sh") none sampleWorld).2 ∧
      ((AutoInstaller.run lockedEnv {} (some "tool.sh") none sampleWorld).1
          = RunResult.sourceRejected ∨
       (AutoInstaller.run lockedEnv {} (some "tool.sh") none sampleWorld).1
          = RunResult.targetRejected ∨
       ∃ what, (AutoInstaller.run lockedEnv {} (some "tool.sh") none sampleWorld).1
          = RunResult.caught what)) ∧
    (OnlyProbed sampleWorld
        (AutoInstaller.install sampleEnv {} "/home/dev" InstallMode.Copy "/usr/local/bin"
          sampleWorld).2 ∧
      (AutoInstaller.install sampleEnv {} "/home/dev" InstallMode.Copy "/usr/local/bin"
        sampleWorld).1 = false) :=
  ⟨(C9_no_mutation_before_checks_pass lockedEnv {} (some "tool.sh") none
      "/home/dev" InstallMode.Copy "/usr/local/bin" sampleWorld).1 (by unfold Ready; decide),
   (C9_no_mutation_before_checks_pass sampleEnv {} (some "tool.sh") none
      "/home/dev" InstallMode.Copy "/usr/local/bin" sampleWorld).2 (by unfold Ready; decide)⟩

/-! ## Exit codes -/

theorem SameFiles.same_refl (w : World) : SameFiles w w := ⟨rfl, rfl⟩

theorem SameFiles.same_print {w w1 : World} (h : SameFiles w w1) (l : Level) (m : String) :
    SameFiles w (w1.print l m) := h

theorem SameFiles.same_out {w w1 : World} (h : SameFiles w w1) (o : List Message) :
    SameFiles w { w1 with out := o } := h

theorem selectChoice_sameFiles (count : Nat) (stdin : List String) (w0 w : World)
    (h : SameFiles w0 w) : SameFiles w0 (selectChoice count stdin w).2 := by
  induction stdin generalizing w with
  | nil => exact h
  | cons l ls ih =>
    unfold selectChoice
    simp only
    split
    · exact ih _ (h.same_print _ _)
    · split
      · split
        · exact h.same_print _ _
        · exact ih _ ((h.same_print _ _).same_print _ _)
      · exact ih _ ((h.same_print _ _).same_print _ _)
      · exact h.same_print _ _

theorem selectWorkspace_sameFiles (existing : List Path) (stdin : List String) (w0 w : World)
    (h : SameFiles w0 w) : SameFiles w0 (selectWorkspace existing stdin w).2 := by
  induction stdin generalizing w with
  | nil => exact h
  | cons l ls ih =>
    unfold selectWorkspace
    simp only
    split
    · exact ih _ (h.same_print _ _)
    · split
      · split
        · exact h.same_print _ _
        · split
          · exact h.same_print _ _
          · exact ih _ ((h.same_print _ _).same_print _ _)
      · exact ih _ ((h.same_print _ _).same_print _ _)
      · exact h.same_print _ _

theorem customWorkspace_sameFiles (env : Env) (stdin : List String) (w0 w : World)
    (h : SameFiles w0 w) : SameFiles w0 (customWorkspace env stdin w).2 := by
  induction stdin generalizing w with
  | nil => exact h
  | cons l ls ih =>
    unfold customWorkspace
    simp only
    split
    · exact ih _ (h.same_print _ _)
    · split
      · exact h.same_print _ _
      · exact ih _ ((h.same_print _ _).same_print _ _)

theorem selectChoice_sameFiles_of_eq {count : Nat} {stdin : List String} {w0 w w2 : World}
    {r : Except String (Nat × List String)} (heq : selectChoice count stdin w = (r, w2))
    (h : SameFiles w0 w) : SameFiles w0 w2 := by
  have := selectChoice_sameFiles count stdin w0 w h
  rw [heq] at this
  exact this

theorem selectWorkspace_sameFiles_of_eq {existing : List Path} {stdin : List String}
    {w0 w w2 : World} {r : Except String (Option Path × List String)}
    (heq : selectWorkspace existing stdin w = (r, w2)) (h : SameFiles w0 w) :
    SameFiles w0 w2 := by
  have := selectWorkspace_sameFiles existing stdin w0 w h
  rw [heq] at this
  exact this

theorem customWorkspace_sameFiles_of_eq {env : Env} {stdin : List String} {w0 w w2 : World}
    {r : Except String (Path × List String)} (heq : customWorkspace env stdin w = (r, w2))
    (h : SameFiles w0 w) : SameFiles w0 w2 := by
  have := customWorkspace_sameFiles env stdin w0 w h
  rw [heq] at this
  exact this

theorem ProjectCreator.getProjectInfo_sameFiles (self : ProjectCreator) (stdin : List String)
    (w0 w : World) (h : SameFiles w0 w) : SameFiles w0 (self.getProjectInfo stdin w).2 := by
  unfold ProjectCreator.getProjectInfo
  simp only
  split
  · exact h
  · split
    · rename_i heq
      exact selectChoice_sameFiles_of_eq heq h
    · rename_i heq
      exact selectChoice_sameFiles_of_eq heq h

theorem ProjectCreator.getBuildSystem_sameFiles (self : ProjectCreator) (stdin : List String)
    (w0 w : World) (h : SameFiles w0 w) : SameFiles w0 (self.getBuildSystem stdin w).2 := by
  unfold ProjectCreator.getBuildSystem
  simp only
  split
  · rename_i heq
    exact selectChoice_sameFiles_of_eq heq h
  · rename_i heq
    exact selectChoice_sameFiles_of_eq heq h

theorem ProjectCreator.getWorkspaceDir_sameFiles (env : Env) (self : ProjectCreator)
    (stdin : List String) (w0 w : World) (h : SameFiles w0 w) :
    SameFiles w0 (self.getWorkspaceDir env stdin w).2 := by
  unfold ProjectCreator.getWorkspaceDir
  simp only
  split
  · exact h
  · split
    · split
      · rename_i heq
        exact customWorkspace_sameFiles_of_eq heq h
      · rename_i heq
        exact customWorkspace_sameFiles_of_eq heq h
    · split
      · rename_i heq
        exact selectWorkspace_sameFiles_of_eq heq h
      · rename_i heq
        exact selectWorkspace_sameFiles_of_eq heq h
      · rename_i heq
        have h3 := selectWorkspace_sameFiles_of_eq heq (show SameFiles w0 _ from h)
        split
        · rename_i heq2
          exact customWorkspace_sameFiles_of_eq heq2 h3
        · rename_i heq2
          exact customWorkspace_sameFiles_of_eq heq2 h3

theorem ProjectCreator.collectSettings_sameFiles (env : Env) (self : ProjectCreator)
    (stdin : List String) (w : World) : SameFiles w (self.collectSettings env stdin w).2 := by
  unfold ProjectCreator.collectSettings
  have h1 := self.getProjectInfo_sameFiles stdin w w (SameFiles.same_refl w)
  rcases hp : self.getProjectInfo stdin w with ⟨r1, w1⟩
  rw [hp] at h1
  cases r1 with
  | error e => exact h1
  | ok v1 =>
    rcases v1 with ⟨s1, rest1⟩
    simp only
    have h2 := s1.getWorkspaceDir_sameFiles env rest1 w w1 h1
    rcases hw : s1.getWorkspaceDir env rest1 w1 with ⟨r2, w2⟩
    rw [hw] at h2
    cases r2 with
    | error e => exact h2
    | ok v2 =>
      rcases v2 with ⟨s2, rest2⟩
      exact s2.getBuildSystem_sameFiles rest2 w w2 h2

theorem TraceGrows.grows_refl (w : World) : TraceGrows w w := ⟨[], by simp⟩

theorem TraceGrows.grows_trans {a b c : World} (h1 : TraceGrows a b) (h2 : TraceGrows b c) :
    TraceGrows a c := by
  obtain ⟨m1, e1⟩ := h1
  obtain ⟨m2, e2⟩ := h2
  exact ⟨m1 ++ m2, by rw [e2, e1, List.append_assoc]⟩

theorem fs_ofstream_trace (env : Env) (p : Path) (w : World) :
    (fs_ofstream env p w).2.trace = w.trace ++ [Event.ofstream p] := by
  unfold fs_ofstream
  simp only
  split
  · rfl
  · split
    · rfl
    · split
      · split <;> rfl
      · split <;> rfl

theorem writeFile_trace (env : Env) (path : Path) (content : String) (w : World) :
    (writeFile env path content w).2.trace = w.trace ++ [Event.ofstream path] := by
  have h := fs_ofstream_trace env path w
  unfold writeFile
  rcases ho : fs_ofstream env path w with ⟨b, w1⟩
  rw [ho] at h
  simp only at h
  cases b with
  | false => exact h
  | true =>
    simp only
    split <;> exact h

theorem writeAndReport_grows (env : Env) (path : Path) (content created : String) (w : World) :
    TraceGrows w (writeAndReport env path content created w).2 := by
  have h := writeFile_trace env path content w
  unfold writeAndReport
  rcases hw : writeFile env path content w with ⟨r, w1⟩
  rw [hw] at h
  cases r with
  | error e => exact ⟨_, h⟩
  | ok u => exact ⟨_, h⟩

theorem createDirectory_trace (env : Env) (p : Path) (w : World) :
    (createDirectory env p w).2.trace = w.trace ++ [Event.create_directory p] := by
  unfold createDirectory fs_create_directory
  simp only
  split
  · rename_i heq
    split at heq
    · simp only [Prod.mk.injEq] at heq; rw [← heq.2]; rfl
    · simp only [Prod.mk.injEq] at heq; rw [← heq.2]; rfl
    · split at heq
      · simp only [Prod.mk.injEq] at heq; rw [← heq.2]; rfl
      · split at heq
        · simp only [Prod.mk.injEq] at heq; rw [← heq.2]; rfl
        · simp only [Prod.mk.injEq] at heq; rw [← heq.2]; rfl
  · rename_i heq
    split at heq
    · simp only [Prod.mk.injEq] at heq; rw [← heq.2]; rfl
    · simp only [Prod.mk.injEq] at heq; rw [← heq.2]; rfl
    · split at heq
      · simp only [Prod.mk.injEq] at heq; rw [← heq.2]; rfl
      · split at heq
        · simp only [Prod.mk.injEq] at heq; rw [← heq.2]; rfl
        · simp only [Prod.mk.injEq] at heq; rw [← heq.2]; rfl

theorem andThen_grows {w : World} (first : Except String Unit × World)
    (next : World → Except String Unit × World) (h1 : TraceGrows w first.2)
    (h2 : ∀ w1, TraceGrows w1 (next w1).2) : TraceGrows w (andThen first next).2 := by
  unfold andThen
  split
  · exact h1
  · exact h1.grows_trans (h2 _)

theorem andThen_trace (first : Except String Unit × World)
    (next : World → Except String Unit × World) (t : List Event) (h1 : first.2.trace = t)
    (h2 : ∀ w1, TraceGrows w1 (next w1).2) : ∃ more, (andThen first next).2.trace = t ++ more := by
  rcases first with ⟨r, w0⟩
  cases r with
  | error e => exact ⟨[], by simpa [andThen] using h1⟩
  | ok u =>
    obtain ⟨more, hm⟩ := h2 w0
    simp only at h1
    exact ⟨more, by simp only [andThen]; rw [hm, h1]⟩

theorem ProjectCreator.createProjectStructure_trace (env : Env) (self : ProjectCreator)
    (w : World) :
    ∃ more, (self.createProjectStructure env w).2.trace
      = w.trace ++ Event.create_directory self.m_projectPath :: more := by
  have hw : ∀ (path : Path) (content created : String) (w1 : World),
      TraceGrows w1 (writeAndReport env path content created w1).2 :=
    fun path content created w1 => writeAndReport_grows env path content created w1
  have hd : ∀ (p : Path) (w1 : World), TraceGrows w1 (createDirectory env p w1).2 :=
    fun p w1 => ⟨_, createDirectory_trace env p w1⟩
  unfold ProjectCreator.createProjectStructure
  simp only
  have hrest : ∀ w2 : World, TraceGrows w2 (andThen (createDirectory env
      (pathAppend self.m_projectPath "src") w2) fun w3 =>
      andThen
        (if self.m_projectType = .C ∨ self.m_projectType = .Mixed then
          writeAndReport env (pathAppend (pathAppend self.m_projectPath "src") "main.c")
            getCMainContent "main.c" w3
         else (.ok (), w3)) fun w4 =>
      andThen
        (if self.m_projectType = .CPP ∨ self.m_projectType = .Mixed then
          writeAndReport env (pathAppend (pathAppend self.m_projectPath "src") "main.cpp")
            getCPPMainContent "main.cpp" w4
         else (.ok (), w4)) fun w5 =>
      andThen
        (if self.m_projectType = .ASM then
          writeAndReport env (pathAppend (pathAppend self.m_projectPath "src") "main.s")
            getASMMainContent "main.s" w5
         else (.ok (), w5)) fun w6 =>
      andThen
        (match self.m_buildSystem with
         | .Make =>
           writeAndReport env (pathAppend self.m_projectPath "Makefile")
             (getMakefileContent self.m_projectType self.m_projectName) "Makefile" w6
         | .CMake =>
           writeAndReport env (pathAppend self.m_projectPath "CMakeLists.txt")
             (getCMakeContent self.m_projectType self.m_projectName) "CMakeLists.txt" w6
         | .Autocc =>
           writeAndReport env (pathAppend self.m_projectPath "autocc.toml")
             (getAutoccContent self.m_projectType self.m_projectName) "autocc.toml" w6
         | _ => (.ok (), w6)) fun w7 =>
      andThen
        (writeAndReport env (pathAppend self.m_projectPath ".gitignore") getGitignoreContent
          ".gitignore" w7) fun w8 =>
      writeAndReport env (pathAppend self.m_projectPath "README.md")
        (getReadmeContent self.m_buildSystem self.m_projectType self.m_projectName)
        "README.md" w8).2 := by
    intro w2
    refine andThen_grows _ _ (hd _ _) (fun w3 => ?_)
    refine andThen_grows _ _ (by split <;> [exact hw _ _ _ _; exact TraceGrows.grows_refl _])
      (fun w4 => ?_)
    refine andThen_grows _ _ (by split <;> [exact hw _ _ _ _; exact TraceGrows.grows_refl _])
      (fun w5 => ?_)
    refine andThen_grows _ _ (by split <;> [exact hw _ _ _ _; exact TraceGrows.grows_refl _])
      (fun w6 => ?_)
    refine andThen_grows _ _
      (by split <;> first | exact hw _ _ _ _ | exact TraceGrows.grows_refl _) (fun w7 => ?_)
    exact andThen_grows _ _ (hw _ _ _ _) (fun w8 => hw _ _ _ _)
  generalize hw1 : (World.print _ Level.info ("Creating project at: " ++ self.m_projectPath)) = w1
  have ht : w1.trace = w.trace := by
    rw [← hw1]
    split <;> rfl
  have h1 := createDirectory_trace env self.m_projectPath w1
  rw [ht] at h1
  obtain ⟨more, hm⟩ := andThen_trace _ _ _ h1 hrest
  refine ⟨more, Eq.trans hm ?_⟩
  simp

/-- C11: what the answer to the confirmation prompt decides, once the three
interactive steps have produced the settings and left `answer` as the next
line of input.  If the trimmed answer is empty, `y`, `Y` or `yes`, the run
is what `createProjectStructure` does (its first act is the
`create_directory` call for the project path) followed by the closing
messages; for every other answer the run ends with "Cancelled.", the file
system is the one from before the run and no call was made on it. -/
theorem C11_confirmation_decides_creation (env : Env) (self settings : ProjectCreator)
    (stdin : List String) (answer : String) (rest : List String) (w w3 : World)
    (hsteps : self.collectSettings env stdin (w.print .info "DVK Project Creation Wizard")
      = (.ok (settings, answer :: rest), w3)) :
    (trim answer = "" ∨ trim answer = "y" ∨ trim answer = "Y" ∨ trim answer = "yes" →
      self.run env stdin w
        = settings.afterCreate (settings.createProjectStructure env
            ((w3.print .info "Confirm (Yn)? ").print .info "Creating Project")) ∧
      ∃ more, (settings.createProjectStructure env
            ((w3.print .info "Confirm (Yn)? ").print .info "Creating Project")).2.trace
        = w.trace ++ Event.create_directory settings.m_projectPath :: more) ∧
    (¬ (trim answer = "" ∨ trim answer = "y" ∨ trim answer = "Y" ∨ trim answer = "yes") →
      self.run env stdin w = (w3.print .info "Confirm (Yn)? ").print .warn "Cancelled." ∧
      (self.run env stdin w).fs = w.fs ∧
      (self.run env stdin w).trace = w.trace) := by
  have hsame := self.collectSettings_sameFiles env stdin (w.print .info "DVK Project Creation Wizard")
  rw [hsteps] at hsame
  obtain ⟨hfs, htr⟩ := hsame
  simp only [World.print_fs, World.print_trace] at hfs htr
  have hempty : (trim answer).data.isEmpty = true ↔ trim answer = "" := by
    cases trim answer with
    | mk d => cases d <;> simp [String.ext_iff]
  constructor
  · intro hyes
    have hconf : ((trim answer).data.isEmpty || trim answer == "y" || trim answer == "Y"
        || trim answer == "yes") = true := by
      simp only [Bool.or_eq_true, beq_iff_eq, hempty]
      tauto
    constructor
    · unfold ProjectCreator.run
      simp only [hsteps, confirmSettings, getInput, hconf]
    · obtain ⟨more, hm⟩ := settings.createProjectStructure_trace env
        ((w3.print .info "Confirm (Yn)? ").print .info "Creating Project")
      exact ⟨more, by rw [hm]; simp [htr]⟩
  · intro hno
    have hconf : ((trim answer).data.isEmpty || trim answer == "y" || trim answer == "Y"
        || trim answer == "yes") = false := by
      rw [Bool.eq_false_iff]
      intro hc
      apply hno
      simp only [Bool.or_eq_true, beq_iff_eq, hempty] at hc
      tauto
    have hrun : self.run env stdin w
        = (w3.print .info "Confirm (Yn)? ").print .warn "Cancelled." := by
      unfold ProjectCreator.run
      simp only [hsteps, confirmSettings, getInput, hconf]
    rw [hrun]
    exact ⟨rfl, hfs, htr⟩

theorem C11_confirmation_witness :
    (ProjectCreator.run sampleEnv {} ["demo", "1", "1", "3", " no "] sampleWorld).fs
      = sampleWorld.fs ∧
    (ProjectCreator.run sampleEnv {} ["demo", "1", "1", "3", " no "] sampleWorld).trace
      = sampleWorld.trace ∧
    ∃ more, (ProjectCreator.createProjectStructure sampleEnv
        { m_projectName := "demo", m_projectType := ProjectType.C,
          m_buildSystem := BuildSystem.Autocc, m_workspacePath := "/home/dev/proj",
          m_projectPath := "/home/dev/proj/demo" }
        (((ProjectCreator.collectSettings sampleEnv {} ["demo", "1", "1", "3", "yes"]
          (sampleWorld.print .info "DVK Project Creation Wizard")).2.print .info
            "Confirm (Yn)? ").print .info "Creating Project")).2.trace
      = sampleWorld.trace ++ Event.create_directory "/home/dev/proj/demo" :: more :=
  have hno := C11_confirmation_decides_creation sampleEnv {}
    { m_projectName := "demo", m_projectType := ProjectType.C,
      m_buildSystem := BuildSystem.Autocc, m_workspacePath := "/home/dev/proj",
      m_projectPath := "/home/dev/proj/demo" }
    ["demo", "1", "1", "3", " no "] " no " [] sampleWorld
    (ProjectCreator.collectSettings sampleEnv {} ["demo", "1", "1", "3", " no "]
      (sampleWorld.print .info "DVK Project Creation Wizard")).2
    (Prod.ext (by rfl) rfl)
  have hyes := C11_confirmation_decides_creation sampleEnv {}
    { m_projectName := "demo", m_projectType := ProjectType.C,
      m_buildSystem := BuildSystem.Autocc, m_workspacePath := "/home/dev/proj",
      m_projectPath := "/home/dev/proj/demo" }
    ["demo", "1", "1", "3", "yes"] "yes" [] sampleWorld
    (ProjectCreator.collectSettings sampleEnv {} ["demo", "1", "1", "3", "yes"]
      (sampleWorld.print .info "DVK Project Creation Wizard")).2
    (Prod.ext (by rfl) rfl)
  ⟨(hno.2 (by decide)).2.1, (hno.2 (by decide)).2.2, (hyes.1 (by decide)).2⟩

/-! ## The scaffolder: selection steps -/

theorem selectChoice_rejected (count : Nat) (rejected : List String) (tail : List String)
    (w : World) (h : ∀ l ∈ rejected, RejectedChoice count l) :
    selectChoice count (rejected ++ tail) w
      = selectChoice count tail { w with out := w.out ++ selectionMessages count rejected } := by
  have hempty : ∀ s : String, s.data.isEmpty = true ↔ s = "" := by
    intro s; cases s with
    | mk d => cases d <;> simp [String.ext_iff]
  induction rejected generalizing w with
  | nil => simp [selectionMessages]
  | cons l ls ih =>
    have hls : ∀ x ∈ ls, RejectedChoice count x := fun x hx => h x (List.mem_cons_of_mem _ hx)
    have hl := h l (List.mem_cons_self _ _)
    simp only [List.cons_append, selectChoice]
    by_cases he : trim l = ""
    · rw [if_pos ((hempty _).2 he)]
      change selectChoice count (ls ++ tail) _ = _
      rw [ih _ hls]
      simp [selectionMessages, he, World.print]
    · rw [if_neg (fun hc => he ((hempty _).1 hc))]
      rcases hl with h0 | h1 | ⟨v, hv, hr⟩
      · exact absurd h0 he
      · rw [h1]
        change selectChoice count (ls ++ tail) _ = _
        rw [ih _ hls]
        simp [selectionMessages, he, World.print]
      · rw [hv]
        simp only
        rw [if_neg hr]
        change selectChoice count (ls ++ tail) _ = _
        rw [ih _ hls]
        simp [selectionMessages, he, World.print]

theorem selectChoice_accepts (count : Nat) (line : String) (rest : List String) (w : World)
    (k : Int) (hk : stoi (trim line) = StoiResult.ok k) (h1 : 1 ≤ k) (h2 : k ≤ (count : Int)) :
    selectChoice count (line :: rest) w
      = (.ok (k.toNat, rest), w.print .info ("Select type (1-" ++ toString count ++ "): ")) := by
  have hne : ¬ (trim line).data.isEmpty = true := by
    intro hc
    have : trim line = "" := by
      cases ht : trim line with
      | mk d => rw [ht] at hc; cases d <;> simp_all
    rw [this] at hk
    have h0 : stoi "" = StoiResult.invalid_argument := by decide
    rw [h0] at hk
    cases hk
  simp only [selectChoice]
  rw [if_neg hne, hk]
  simp only
  rw [if_pos ⟨h1, h2⟩]

theorem stoi_nonnumeric (t : String)
    (h : ∀ c, t.data.head? = some c → isspace c = false ∧ c ≠ '-' ∧ c ≠ '+' ∧ c.isDigit = false) :
    stoi t = StoiResult.invalid_argument := by
  unfold stoi
  cases hd : t.data with
  | nil => simp
  | cons c cs =>
    obtain ⟨h1, h2, h3, h4⟩ := h c (by rw [hd]; rfl)
    have hdw : List.dropWhile isspace (c :: cs) = c :: cs := by
      simp [List.dropWhile, h1]
    simp only [hdw]
    split
    · rfl
    · rename_i hne
      exfalso
      apply hne
      split
      · rename_i heq
        simp only [List.cons.injEq] at heq
        exact absurd heq.1 h2
      · rename_i heq
        simp only [List.cons.injEq] at heq
        exact absurd heq.1 h3
      · simp [List.takeWhile, h4]

theorem selection_line_cases (l : String) :
    RejectedChoice 4 l ∨ (∃ v : Int, stoi (trim l) = StoiResult.ok v ∧ 1 ≤ v ∧ v ≤ 4) ∨
      stoi (trim l) = StoiResult.out_of_range := by
  cases h : stoi (trim l) with
  | invalid_argument => exact Or.inl (Or.inr (Or.inl h))
  | out_of_range => exact Or.inr (Or.inr rfl)
  | ok v =>
    by_cases hv : 1 ≤ v ∧ v ≤ 4
    · exact Or.inr (Or.inl ⟨v, rfl, hv.1, hv.2⟩)
    · exact Or.inl (Or.inr (Or.inr ⟨v, h, by simpa using hv⟩))

set_option maxRecDepth 100000 in
/-- C12, the claim refuted: in the type selection the line `2abc`, a number
followed by other characters, selects the second option (C++), because
`std::stoi` reads the leading `2` and ignores the rest; and the line
`99999999999` ends the wizard, because `std::stoi` throws
`std::out_of_range`, which the selection loop does not catch. -/
theorem C12_number_with_trailing_text_selects :
    stoi "2abc" = StoiResult.ok 2 ∧
    (ProjectCreator.getProjectInfo {} ["demo", "2abc", "1"] sampleWorld).1
      = .ok ({ m_projectName := "demo", m_projectType := ProjectType.CPP }, ["1"]) ∧
    (ProjectCreator.getBuildSystem {} ["3 or so", "1"] sampleWorld).1
      = .ok ({ m_buildSystem := BuildSystem.Autocc }, ["1"]) ∧
    stoi "99999999999" = StoiResult.out_of_range ∧
    (ProjectCreator.getProjectInfo {} ["demo", "99999999999", "1"] sampleWorld).1
      = .error "stoi" ∧
    (ProjectCreator.run sampleEnv {} ["demo", "99999999999", "1", "1", "1", "y"]
      sampleWorld).out.getLast?
      = some (Level.error, "An unexpected error occurred: stoi") := by
  refine ⟨by decide, by rfl, by rfl, by decide, by rfl, by decide⟩

/-- C12 as amended: the selection steps decide by the integer `std::stoi`
reads at the start of the trimmed line.  Lines that are empty, or start with
no integer (any text whose first character is no digit, sign or white
space), or start with an integer that fits an `int` and lies outside 1..4,
are each answered with a new prompt (and the error message unless the line
is empty) and select nothing; after such lines the step ends with the first
line that starts with an integer `k` in 1..4, whatever follows the number,
and selects the `k`-th option; if no further line comes the step ends with
the end of input.  Every line is of one of these kinds or starts with a
number that does not fit an `int`; about lines of that last kind nothing is
said here. -/
theorem C12_selection_follows_leading_integer (self : ProjectCreator) (nameLine : String)
    (rejected : List String) (line : String) (rest : List String) (w : World) (k : Int)
    (hname : isValidProjectName (trim nameLine) = true)
    (hrej : ∀ l ∈ rejected, RejectedChoice 4 l)
    (hk : stoi (trim line) = StoiResult.ok k) (h1 : 1 ≤ k) (h2 : k ≤ 4) :
    (selectChoice 4 (rejected ++ line :: rest) w).1 = .ok (k.toNat, rest) ∧
    (selectChoice 4 (rejected ++ line :: rest) w).2.out
      = w.out ++ selectionMessages 4 rejected ++ [(Level.info, "Select type (1-4): ")] ∧
    (selectChoice 4 rejected w).1 = .error "Input stream closed." ∧
    (self.getProjectInfo (nameLine :: (rejected ++ line :: rest)) w).1
      = .ok ({ self with
          m_projectName := trim nameLine,
          m_projectType :=
            ([ProjectType.C, ProjectType.CPP, ProjectType.Mixed, ProjectType.ASM].get?
              (k.toNat - 1)).getD ProjectType.Unknown }, rest) ∧
    (self.getBuildSystem (rejected ++ line :: rest) w).1
      = .ok ({ self with
          m_buildSystem :=
            ([BuildSystem.Make, BuildSystem.CMake, BuildSystem.Autocc, BuildSystem.Manual].get?
              (k.toNat - 1)).getD BuildSystem.Unknown }, rest) ∧
    (∀ t : String,
      (∀ c, t.data.head? = some c →
        isspace c = false ∧ c ≠ '-' ∧ c ≠ '+' ∧ c.isDigit = false) →
      stoi t = StoiResult.invalid_argument) ∧
    (∀ l : String,
      RejectedChoice 4 l ∨ (∃ v : Int, stoi (trim l) = StoiResult.ok v ∧ 1 ≤ v ∧ v ≤ 4) ∨
        stoi (trim l) = StoiResult.out_of_range) := by
  have hsel : ∀ w0 : World, selectChoice 4 (rejected ++ line :: rest) w0
      = (.ok (k.toNat, rest),
          ({ w0 with out := w0.out ++ selectionMessages 4 rejected } : World).print .info
            ("Select type (1-" ++ toString 4 ++ "): ")) := by
    intro w0
    rw [selectChoice_rejected 4 rejected _ w0 hrej]
    exact selectChoice_accepts 4 line rest _ k hk h1 (by exact_mod_cast h2)
  have hkcases : k = 1 ∨ k = 2 ∨ k = 3 ∨ k = 4 := by omega
  refine ⟨?_, ?_, ?_, ?_, ?_, stoi_nonnumeric, selection_line_cases⟩
  · rw [hsel]
  · rw [hsel]
    simp [World.print]
    rfl
  · have := selectChoice_rejected 4 rejected [] w hrej
    rw [List.append_nil] at this
    rw [this]
    rfl
  · unfold ProjectCreator.getProjectInfo
    simp only [promptProjectName, hname, if_true]
    rw [show projectTypes.length = 4 from rfl, hsel]
    simp only
    rcases hkcases with rfl | rfl | rfl | rfl <;> rfl
  · unfold ProjectCreator.getBuildSystem
    simp only
    rw [show buildSystems.length = 4 from rfl, hsel]
    simp only
    rcases hkcases with rfl | rfl | rfl | rfl <;> rfl

theorem C12_selection_witness :
    (selectChoice 4 (["", "abc", "0", "5", "-1", "four"] ++ "3" :: ["y"]) sampleWorld).1
      = .ok ((3 : Int).toNat, ["y"]) ∧
    (selectChoice 4 ["", "abc", "0", "5", "-1", "four"] sampleWorld).1
      = .error "Input stream closed." ∧
    (ProjectCreator.getBuildSystem {} (["", "abc", "0", "5", "-1", "four"] ++ "3" :: ["y"])
      sampleWorld).1
      = .ok ({ ({} : ProjectCreator) with
          m_buildSystem :=
            ([BuildSystem.Make, BuildSystem.CMake, BuildSystem.Autocc, BuildSystem.Manual].get?
              ((3 : Int).toNat - 1)).getD BuildSystem.Unknown }, ["y"]) :=
  have h := C12_selection_follows_leading_integer {} "demo"
    ["", "abc", "0", "5", "-1", "four"] "3" ["y"] sampleWorld 3 (by decide)
    (by
      intro l hl
      simp only [List.mem_cons, List.mem_singleton, List.not_mem_nil, or_false] at hl
      rcases hl with rfl | rfl | rfl | rfl | rfl | rfl
      · exact Or.inl (by decide)
      · exact Or.inr (Or.inl (by decide))
      · exact Or.inr (Or.inr ⟨0, by decide, by decide⟩)
      · exact Or.inr (Or.inr ⟨5, by decide, by decide⟩)
      · exact Or.inr (Or.inr ⟨-1, by decide, by decide⟩)
      · exact Or.inr (Or.inl (by decide)))
    (by decide) (by decide) (by decide)
  ⟨h.1, h.2.2.1, h.2.2.2.2.1⟩

/-! ## The scaffolder: home directory in a custom path -/

/-- C13: `expandUserPath` on `~/code` with `HOME=/home/dev`.  The remainder
`/code` is an absolute path, and `operator/` replaces the left operand by an
absolute right operand: the result is `/code` and the home directory is
lost; the same happens for every remainder that starts with `/`.  A lone `~`
gives the home directory with a separator appended, `~code` gives
`<HOME>/code`, and a path that is empty or does not begin with `~` is
returned unchanged. -/
theorem C13_tilde_slash_loses_home_directory :
    expandUserPath (some "/home/dev") "~/code" = "/code" ∧
    expandUserPath (some "/home/dev") "~" = "/home/dev/" ∧
    expandUserPath (some "/home/dev") "~code" = "/home/dev/code" ∧
    (∀ home rest : String, rest.data.head? = some '/' →
      expandUserPath (some home) ("~" ++ rest) = rest) ∧
    (∀ (home : Option String) (p : String), p.data.isEmpty = true ∨ p.data.head? ≠ some '~' →
      expandUserPath home p = p) := by
  refine ⟨by decide, by decide, by decide, ?_, ?_⟩
  · intro home rest h
    have h1 : ("~" ++ rest).data = '~' :: rest.data := rfl
    unfold expandUserPath
    rw [h1]
    simp only [List.isEmpty_cons, Bool.false_eq_true, List.head?_cons, ne_eq, not_true_eq_false,
      or_self, if_false, List.drop_succ_cons, List.drop_zero]
    unfold pathAppend is_absolute
    simp [h]
  · intro home p h
    unfold expandUserPath
    rw [if_pos h]

/-! ## The cloner: checks that do not stop the run -/

set_option maxRecDepth 100000 in
/-- C14: the checks of `validateEnvironment` only print.  Run in the root
directory, `dvk clone` prints "Cannot backup root directory." and then
executes `rsync` from `/`; run where the probe file cannot be opened, it
prints "Cannot write to parent directory" and then executes `rsync` as
well; and in general every run of `ProjectCloner::run` that returns has
executed a backup command. -/
theorem C14_environment_errors_do_not_stop_clone :
    (Level.error, "Cannot backup root directory.")
      ∈ (start rootEnv id ["dvk", "clone"] sampleWorld).2.out ∧
    (start rootEnv id ["dvk", "clone"] sampleWorld).2.trace.getLast?
      = some (Event.exec (rsyncCommand "/" "/_clone")) ∧
    (Level.error, "Cannot write to parent directory '/home/dev'")
      ∈ (start readOnlyParentEnv id ["dvk", "clone"] sampleWorld).2.out ∧
    (start readOnlyParentEnv id ["dvk", "clone"] sampleWorld).2.trace
      = [Event.ofstream "/home/dev/.projclone_writetest",
         Event.remove "/home/dev/.projclone_writetest",
         Event.exec (rsyncCommand "/home/dev/proj" "/home/dev/proj_clone")] ∧
    (∀ (env : Env) (self : ProjectCloner) (w : World), (self.run env w).1 = .ok () →
      ∃ cmd, Event.exec cmd ∈ (self.run env w).2.2.trace) := by
  refine ⟨by decide, by decide, by decide, by decide, ?_⟩
  exact fun env self w h => ProjectCloner.run_executes_backup_command env self w h

set_option maxRecDepth 100000 in
/-- C15: a `false` from `parseArguments` does not abort the clone command.
For an unknown option, for `-h` and for two suffixes `parseArguments`
returns `false`, and `dvk clone --bogus` and `dvk clone -h` go on to prepare
the path `<dir>_` and to execute `rsync` into it. -/
theorem C15_rejected_arguments_do_not_stop_clone :
    (ProjectCloner.parseArguments sampleEnv (ProjectCloner.mk0 ["dvk", "clone", "--bogus"] "clone")
      sampleWorld).1 = false ∧
    (ProjectCloner.parseArguments sampleEnv (ProjectCloner.mk0 ["dvk", "clone", "-h"] "clone")
      sampleWorld).1 = false ∧
    (ProjectCloner.parseArguments sampleEnv (ProjectCloner.mk0 ["projclone", "v1", "v2"] "clone")
      sampleWorld).1 = false ∧
    (Level.error, "Unknown option: --bogus")
      ∈ (start sampleEnv id ["dvk", "clone", "--bogus"] sampleWorld).2.out ∧
    (start sampleEnv id ["dvk", "clone", "--bogus"] sampleWorld).2.trace.getLast?
      = some (Event.exec (rsyncCommand "/home/dev/proj" "/home/dev/proj_")) ∧
    (start sampleEnv id ["dvk", "clone", "-h"] sampleWorld).2.trace.getLast?
      = some (Event.exec (rsyncCommand "/home/dev/proj" "/home/dev/proj_")) ∧
    (ProjectCloner.run sampleEnv (ProjectCloner.mk0 ["projclone", "v1", "v2"] "clone")
      sampleWorld).2.2.trace.getLast?
      = some (Event.exec (rsyncCommand "/home/dev/proj" "/home/dev/proj_")) := by
  refine ⟨by decide, by decide, by decide, by decide, by decide, by decide, by decide⟩

set_option maxRecDepth 100000 in
/-- C16: a failing backup tool does not make the clone command fail.  With
`rsync` (or `tar`) ending in exit code 23 and the destination present
afterwards, the run prints "Failed to execute command" and then "Clean
backup created successfully", and the exit code of the process is 0. -/
theorem C16_failed_tool_still_reports_success :
    (failingToolEnv.execute (rsyncCommand "/home/dev/proj" "/home/dev/proj_clone")).exit_code = 23 ∧
    (Level.error, "Failed to execute command")
      ∈ (main failingToolEnv id ["dvk", "clone"] sampleWorld).2.out ∧
    (Level.success, "Clean backup created successfully ")
      ∈ (main failingToolEnv id ["dvk", "clone"] sampleWorld).2.out ∧
    (main failingToolEnv id ["dvk", "clone"] sampleWorld).1 = 0 ∧
    (Level.success, "Clean backup created successfully  (4 KB)")
      ∈ (main failingToolEnv id ["dvk", "clone", "-c"] sampleWorld).2.out ∧
    (main failingToolEnv id ["dvk", "clone", "-c"] sampleWorld).1 = 0 := by
  refine ⟨by decide, by decide, by decide, by decide, by decide, by decide⟩

/-! ## The scaffolder: build-config templates -/

theorem piecesAux_ne_nil (marker : List Char) (k : Nat) (t : List Char) :
    piecesAux marker k t ≠ [] := by
  induction t generalizing k with
  | nil => cases k <;> simp [piecesAux]
  | cons c cs ih =>
    cases k with
    | succ k => simp only [piecesAux]; exact ih k
    | zero =>
      simp only [piecesAux]
      split
      · simp
      · split <;> simp

theorem intercalate_cons_cons {α : Type} (sep : List α) (p p1 : List α) (ps : List (List α)) :
    List.intercalate sep (p :: p1 :: ps) = p ++ sep ++ List.intercalate sep (p1 :: ps) := by
  simp [List.intercalate, List.intersperse]

theorem intercalate_singleton {α : Type} (sep : List α) (p : List α) :
    List.intercalate sep [p] = p := by
  simp [List.intercalate, List.intersperse]

theorem intercalate_cons_char {α : Type} (sep : List α) (c : α) (p : List α)
    (ps : List (List α)) :
    List.intercalate sep ((c :: p) :: ps) = c :: List.intercalate sep (p :: ps) := by
  cases ps with
  | nil => simp [intercalate_singleton]
  | cons p1 ps => simp [intercalate_cons_cons]

theorem findAndReplaceAllAux_eq_intercalate (marker rep : List Char) (k : Nat) (t : List Char) :
    findAndReplaceAllAux marker rep k t = List.intercalate rep (piecesAux marker k t) := by
  induction t generalizing k with
  | nil => cases k <;> simp [findAndReplaceAllAux, piecesAux, intercalate_singleton]
  | cons c cs ih =>
    cases k with
    | succ k => simp only [findAndReplaceAllAux, piecesAux]; exact ih k
    | zero =>
      simp only [findAndReplaceAllAux, piecesAux]
      split
      · rw [ih]
        cases hp : piecesAux marker (marker.length - 1) cs with
        | nil => exact absurd hp (piecesAux_ne_nil _ _ _)
        | cons p ps => simp [intercalate_cons_cons]
      · rw [ih]
        cases hp : piecesAux marker 0 cs with
        | nil => exact absurd hp (piecesAux_ne_nil _ _ _)
        | cons p ps => simp [intercalate_cons_char]

theorem isPrefixOf_append_sep (pat xs zs : List Char) (q : Char) (hq : q ∉ pat) :
    pat.isPrefixOf (xs ++ q :: zs) = pat.isPrefixOf xs := by
  induction pat generalizing xs with
  | nil => simp [List.isPrefixOf]
  | cons a as ih =>
    have haq : a ≠ q := fun h => hq (by rw [h]; exact List.mem_cons_self _ _)
    have has : q ∉ as := fun h => hq (List.mem_cons_of_mem _ h)
    cases xs with
    | nil => simp [List.isPrefixOf, haq]
    | cons x xs => simp [List.isPrefixOf, ih xs has]

theorem isPrefixOf_length_le (pat xs : List Char) (h : pat.isPrefixOf xs = true) :
    pat.length ≤ xs.length := by
  rw [List.isPrefixOf_iff_prefix] at h
  exact h.length_le

theorem findAndReplaceAllAux_split (pat rep : List Char) (q : Char) (hq : q ∉ pat)
    (hne : pat ≠ []) (k : Nat) (xs zs : List Char) (hk : k ≤ xs.length) :
    findAndReplaceAllAux pat rep k (xs ++ q :: zs)
      = findAndReplaceAllAux pat rep k xs ++ q :: findAndReplaceAllAux pat rep 0 zs := by
  induction xs generalizing k with
  | nil =>
    have hk0 : k = 0 := by simpa using hk
    subst hk0
    have hp : pat.isPrefixOf (q :: zs) = false := by
      cases pat with
      | nil => exact absurd rfl hne
      | cons a as =>
        have haq : a ≠ q := fun h => hq (by rw [h]; exact List.mem_cons_self _ _)
        simp [List.isPrefixOf, haq]
    simp [findAndReplaceAllAux, hp]
  | cons c cs ih =>
    cases k with
    | succ k =>
      simp only [List.cons_append, findAndReplaceAllAux]
      exact ih k (by simpa using hk)
    | zero =>
      have hp := isPrefixOf_append_sep pat (c :: cs) zs q hq
      simp only [List.cons_append] at hp
      simp only [List.cons_append, findAndReplaceAllAux]
      change (if pat.isPrefixOf (c :: (cs ++ q :: zs)) = true then
          rep ++ findAndReplaceAllAux pat rep (pat.length - 1) (cs ++ q :: zs)
        else c :: findAndReplaceAllAux pat rep 0 (cs ++ q :: zs)) = _
      rw [hp]
      by_cases hm : pat.isPrefixOf (c :: cs) = true
      · have hl := isPrefixOf_length_le pat (c :: cs) hm
        simp only [List.length_cons] at hl
        rw [if_pos hm, if_pos hm, ih (pat.length - 1) (by omega)]
        simp
      · rw [if_neg hm, if_neg hm, ih 0 (Nat.zero_le _)]
        simp

theorem findAndReplaceAllAux_id (pat rep n : List Char) (h : ¬ pat <:+: n) :
    findAndReplaceAllAux pat rep 0 n = n := by
  induction n with
  | nil => simp [findAndReplaceAllAux]
  | cons c cs ih =>
    have hp : ¬ pat.isPrefixOf (c :: cs) = true := by
      intro hc
      rw [List.isPrefixOf_iff_prefix] at hc
      exact h hc.isInfix
    have hcs : ¬ pat <:+: cs := fun hc => h (hc.trans (List.suffix_cons c cs).isInfix)
    simp only [findAndReplaceAllAux]
    rw [if_neg hp, ih hcs]

theorem findAndReplaceAllAux_distribute (pat rep n : List Char) (q : Char) (hq : q ∉ pat)
    (hn : ¬ pat <:+: n) (pieces : List (List Char)) (hquoted : quotedPieces q pieces = true) :
    findAndReplaceAllAux pat rep 0 (List.intercalate n pieces)
      = List.intercalate n (pieces.map (findAndReplaceAllAux pat rep 0)) := by
  have hne : pat ≠ [] := by
    rintro rfl
    exact hn List.nil_infix
  induction pieces with
  | nil => simp [List.intercalate, findAndReplaceAllAux]
  | cons p ps ih =>
    cases ps with
    | nil => simp [intercalate_singleton]
    | cons p1 ps =>
      simp only [quotedPieces, Bool.and_eq_true, beq_iff_eq] at hquoted
      obtain ⟨⟨hlast, hhead⟩, hrest⟩ := hquoted
      have ih1 := ih hrest
      obtain ⟨p0, rfl⟩ : ∃ p0, p = p0 ++ [q] := by
        rcases List.eq_nil_or_concat p with rfl | ⟨l, b, rfl⟩
        · simp at hlast
        · simp only [List.concat_eq_append, List.getLast?_append, List.getLast?_singleton,
            Option.or_some, Option.some.injEq] at hlast
          exact ⟨l, by rw [← hlast]; simp⟩
      obtain ⟨x, hx⟩ : ∃ x, List.intercalate n (p1 :: ps) = q :: x := by
        cases p1 with
        | nil => simp at hhead
        | cons c p1 =>
          simp only [List.head?_cons, Option.some.injEq] at hhead
          subst hhead
          exact ⟨_, intercalate_cons_char n c p1 ps⟩
      have hx2 : findAndReplaceAllAux pat rep 0 (q :: x)
          = q :: findAndReplaceAllAux pat rep 0 x := by
        have := findAndReplaceAllAux_split pat rep q hq hne 0 [] x (Nat.le_refl _)
        simpa [findAndReplaceAllAux] using this
      rw [intercalate_cons_cons, hx, List.map_cons, List.map_cons, intercalate_cons_cons,
        ← List.map_cons, ← ih1, hx, hx2]
      have e1 : p0 ++ [q] ++ n ++ q :: x = p0 ++ q :: (n ++ q :: x) := by simp
      rw [e1, findAndReplaceAllAux_split pat rep q hq hne 0 p0 _ (Nat.zero_le _),
        findAndReplaceAllAux_split pat rep q hq hne 0 n x (Nat.zero_le _),
        findAndReplaceAllAux_id pat rep n hn]
      have e2 := findAndReplaceAllAux_split pat rep q hq hne 0 p0 [] (Nat.zero_le _)
      simp only [findAndReplaceAllAux] at e2
      rw [e2]
      simp

theorem findAndReplaceAll_data (data toSearch replaceStr : String)
    (h : toSearch.data.isEmpty = false) :
    (findAndReplaceAll data toSearch replaceStr).data
      = findAndReplaceAllAux toSearch.data replaceStr.data 0 data.data := by
  unfold findAndReplaceAll
  rw [h]
  rfl

theorem TemplateFilled.of_pieces (template name : String) :
    2 ≤ (piecesAux "_PROJECT_NAME_".data 0 template.data).length →
    (∀ p ∈ piecesAux "_PROJECT_NAME_".data 0 template.data, ¬ "_PROJECT_NAME_".data <:+: p) →
    template.data
      = List.intercalate "_PROJECT_NAME_".data (piecesAux "_PROJECT_NAME_".data 0 template.data) →
    TemplateFilled template (findAndReplaceAll template "_PROJECT_NAME_" name) name := by
  intro h1 h2 h3
  refine ⟨piecesAux "_PROJECT_NAME_".data 0 template.data, h1, h2, h3, ?_⟩
  rw [findAndReplaceAll_data _ _ _ (by decide)]
  exact findAndReplaceAllAux_eq_intercalate _ _ _ _

theorem TemplateFilled.contains_name {template content name : String}
    (h : TemplateFilled template content name) :
    template ≠ "" ∧ name.data <:+: content.data := by
  obtain ⟨pieces, hlen, -, ht, hc⟩ := h
  cases pieces with
  | nil => simp at hlen
  | cons p ps =>
    cases ps with
    | nil => simp at hlen
    | cons p1 ps =>
      rw [intercalate_cons_cons] at ht hc
      constructor
      · intro he
        rw [he] at ht
        have := congrArg List.length ht
        simp at this
        omega
      · exact ⟨p, List.intercalate name.data (p1 :: ps), by rw [hc]⟩

set_option maxRecDepth 100000 in
theorem makefile_filled (pt : ProjectType) (n : String) (hpt : pt ≠ ProjectType.Unknown) :
    TemplateFilled (makefileTemplate pt) (getMakefileContent pt n) n := by
  cases pt with
  | Unknown => exact absurd rfl hpt
  | C => exact TemplateFilled.of_pieces makefileTemplateC n (by decide) (by decide) (by decide)
  | CPP => exact TemplateFilled.of_pieces makefileTemplateCPP n (by decide) (by decide) (by decide)
  | Mixed =>
    exact TemplateFilled.of_pieces makefileTemplateMixed n (by decide) (by decide) (by decide)
  | ASM => exact TemplateFilled.of_pieces makefileTemplateASM n (by decide) (by decide) (by decide)

set_option maxRecDepth 100000 in
theorem cmake_filled (pt : ProjectType) (n : String) (hpt : pt ≠ ProjectType.Unknown)
    (hasm : pt ≠ ProjectType.ASM) :
    TemplateFilled (cmakeTemplate pt) (getCMakeContent pt n) n := by
  cases pt with
  | Unknown => exact absurd rfl hpt
  | ASM => exact absurd rfl hasm
  | C => exact TemplateFilled.of_pieces cmakeTemplateC n (by decide) (by decide) (by decide)
  | CPP => exact TemplateFilled.of_pieces cmakeTemplateCPP n (by decide) (by decide) (by decide)
  | Mixed => exact TemplateFilled.of_pieces cmakeTemplateMixed n (by decide) (by decide) (by decide)

set_option maxRecDepth 100000 in
theorem autocc_filled (pt : ProjectType) (n : String) (hpt : pt ≠ ProjectType.Unknown)
    (hmain : ¬ "_MAIN_FILE_".data <:+: n.data) (hsrc : ¬ "_SOURCES_".data <:+: n.data) :
    TemplateFilled (autoccTemplateFor pt) (getAutoccContent pt n) n := by
  have key : ∀ mf src : String,
      quotedPieces '"' ((piecesAux "_PROJECT_NAME_".data 0 autoccTemplate.data).map
        (findAndReplaceAllAux "_MAIN_FILE_".data mf.data 0)) = true →
      (findAndReplaceAll (findAndReplaceAll (findAndReplaceAll autoccTemplate "_PROJECT_NAME_" n)
        "_MAIN_FILE_" mf) "_SOURCES_" src).data
        = List.intercalate n.data
            (((piecesAux "_PROJECT_NAME_".data 0 autoccTemplate.data).map
              (findAndReplaceAllAux "_MAIN_FILE_".data mf.data 0)).map
              (findAndReplaceAllAux "_SOURCES_".data src.data 0)) := by
    intro mf src hq2
    rw [findAndReplaceAll_data _ _ _ (by decide), findAndReplaceAll_data _ _ _ (by decide),
      findAndReplaceAll_data _ _ _ (by decide),
      findAndReplaceAllAux_eq_intercalate "_PROJECT_NAME_".data n.data 0 autoccTemplate.data,
      findAndReplaceAllAux_distribute "_MAIN_FILE_".data mf.data n.data '"' (by decide) hmain
        (piecesAux "_PROJECT_NAME_".data 0 autoccTemplate.data) (by decide),
      findAndReplaceAllAux_distribute "_SOURCES_".data src.data n.data '"' (by decide) hsrc _ hq2]
  cases pt with
  | Unknown => exact absurd rfl hpt
  | C => exact ⟨_, by decide, by decide, by decide, key _ _ (by decide)⟩
  | CPP => exact ⟨_, by decide, by decide, by decide, key _ _ (by decide)⟩
  | Mixed => exact ⟨_, by decide, by decide, by decide, key _ _ (by decide)⟩
  | ASM => exact ⟨_, by decide, by decide, by decide, key _ _ (by decide)⟩

set_option maxRecDepth 100000 in
/-- C17, the claim refuted: for an assembly project with CMake the content is
empty (there is no template for that pair), so it does not contain the
name `demo`; and for autocc the valid name `_MAIN_FILE_` does not occur in
the content, because the second replacement takes it for the main-file
placeholder. -/
theorem C17_no_cmake_template_for_assembly :
    isValidProjectName "demo" = true ∧
    getCMakeContent ProjectType.ASM "demo" = "" ∧
    ¬ "demo".data <:+: (getCMakeContent ProjectType.ASM "demo").data ∧
    isValidProjectName "_MAIN_FILE_" = true ∧
    ¬ "_MAIN_FILE_".data <:+: (getAutoccContent ProjectType.C "_MAIN_FILE_").data := by
  refine ⟨by decide, by decide, by decide, by decide, by decide⟩

/-- C17 as amended: for each project type C, C++, Mixed and Assembly and every
project name `n`, the Makefile content is the Makefile template of the type
with every `_PROJECT_NAME_` replaced by `n`; so is the CMake content, except
for Assembly, where `getCMakeContent` returns the empty string; and so is
the autocc content, provided `n` contains neither `_MAIN_FILE_` nor
`_SOURCES_`.  Whenever a content is a template filled in this way, the
template is not empty and the content contains `n`. -/
theorem C17_build_config_is_filled_template (pt : ProjectType) (n : String)
    (hpt : pt ≠ ProjectType.Unknown) :
    TemplateFilled (makefileTemplate pt) (getMakefileContent pt n) n ∧
    (pt ≠ ProjectType.ASM → TemplateFilled (cmakeTemplate pt) (getCMakeContent pt n) n) ∧
    (¬ "_MAIN_FILE_".data <:+: n.data → ¬ "_SOURCES_".data <:+: n.data →
      TemplateFilled (autoccTemplateFor pt) (getAutoccContent pt n) n) ∧
    getCMakeContent ProjectType.ASM n = "" ∧
    (∀ template content : String, TemplateFilled template content n →
      template ≠ "" ∧ n.data <:+: content.data) :=
  ⟨makefile_filled pt n hpt, cmake_filled pt n hpt, autocc_filled pt n hpt, rfl,
    fun _ _ h => h.contains_name⟩

theorem C17_build_config_witness :
    TemplateFilled (cmakeTemplate ProjectType.Mixed) (getCMakeContent ProjectType.Mixed "demo")
      "demo" ∧
    TemplateFilled (autoccTemplateFor ProjectType.ASM) (getAutoccContent ProjectType.ASM "demo")
      "demo" ∧
    "demo".data <:+: (getAutoccContent ProjectType.ASM "demo").data :=
  ⟨(C17_build_config_is_filled_template ProjectType.Mixed "demo" (by decide)).2.1 (by decide),
   (C17_build_config_is_filled_template ProjectType.ASM "demo" (by decide)).2.2.1
      (by decide) (by decide),
   ((C17_build_config_is_filled_template ProjectType.ASM "demo" (by decide)).2.2.2.2 _ _
      ((C17_build_config_is_filled_template ProjectType.ASM "demo" (by decide)).2.2.1
        (by decide) (by decide))).2⟩

/-! ## The cloner: commands and overwriting -/

theorem excludeArgs_eq_join (patterns : List String) :
    excludeArgs patterns = String.join (excludeWords patterns) := by
  induction patterns with
  | nil => rfl
  | cons p ps ih =>
    have hj : ∀ (l : List String) (acc : String),
        List.foldl (fun r s => r ++ s) acc l = acc ++ List.foldl (fun r s => r ++ s) "" l := by
      intro l
      induction l with
      | nil => intro acc; simp [String.ext_iff]
      | cons x xs ihx =>
        intro acc
        simp only [List.foldl_cons]
        rw [ihx (acc ++ x), ihx ("" ++ x)]
        simp [String.ext_iff]
    unfold excludeArgs
    rw [ih]
    simp only [excludeWords, List.map_cons, String.join, List.foldl_cons]
    rw [hj _ ("" ++ ("--exclude='" ++ p ++ "' "))]
    simp [String.ext_iff]

/-- C18: the command of either backend.  `performBackup` executes exactly one
command: with the compress flag
`tar -czvf '<backupPath>' <excludes> -C '<parent>' '<currentDirName>'`, without
it `rsync -av <excludes> '<cwd>/' '<backupPath>/'`, where `<excludes>` is
`--exclude='p' ` for every pattern `p` of the exclude list in list order; the
list has 35 entries, among them build, .git, node_modules, *.o and *.obj. -/
theorem C18_backup_command_form (env : Env) (self : ProjectCloner) (w : World) :
    (self.performBackup env w).trace
      = w.trace ++ [Event.exec
          (if self.m_compress = true then
            "tar -czvf " ++ "'" ++ self.m_backupPath ++ "' "
              ++ String.join (excludeWords m_excludePatterns)
              ++ "-C '" ++ self.m_parentPath ++ "' '" ++ self.m_sourceDirName ++ "'"
           else
            "rsync -av " ++ String.join (excludeWords m_excludePatterns)
              ++ "'" ++ self.m_currentPath ++ "/' '" ++ self.m_backupPath ++ "/'")] ∧
    (self.performBackup env w).fs = w.fs ∧
    excludeWords m_excludePatterns
      = ["--exclude='build' ", "--exclude='Build' ", "--exclude='cmake-build-*' ",
         "--exclude='out' ", "--exclude='bin' ", "--exclude='obj' ",
         "--exclude='node_modules' ", "--exclude='__pycache__' ", "--exclude='.pytest_cache' ",
         "--exclude='target' ", "--exclude='dist' ", "--exclude='.git' ", "--exclude='.svn' ",
         "--exclude='.hg' ", "--exclude='.vscode' ", "--exclude='.idea' ", "--exclude='*.swp' ",
         "--exclude='*.swo' ", "--exclude='*~' ", "--exclude='*.o' ", "--exclude='*.obj' ",
         "--exclude='*.exe' ", "--exclude='*.dll' ", "--exclude='*.so' ", "--exclude='*.dylib' ",
         "--exclude='*.class' ", "--exclude='*.pyc' ", "--exclude='*.pyo' ", "--exclude='.tmp' ",
         "--exclude='*.tmp' ", "--exclude='*.temp' ", "--exclude='.DS_Store' ",
         "--exclude='Thumbs.db' ", "--exclude='*.log' ", "--exclude='logs' "] ∧
    m_excludePatterns.length = 35 := by
  refine ⟨?_, ?_, by decide, by decide⟩
  · unfold ProjectCloner.performBackup ProjectCloner.performTarBackup
      ProjectCloner.performRsyncBackup execute
    rw [excludeArgs_eq_join]
    by_cases hc : self.m_compress = true
    · simp only [hc, if_true]
      split <;> simp [World.print, World.record]
    · simp only [hc, if_false, Bool.false_eq_true]
      split <;> simp [World.print, World.record]
  · unfold ProjectCloner.performBackup ProjectCloner.performTarBackup
      ProjectCloner.performRsyncBackup execute
    by_cases hc : self.m_compress = true
    · simp only [hc, if_true]
      split <;> simp [World.print, World.record]
    · simp only [hc, if_false, Bool.false_eq_true]
      split <;> simp [World.print, World.record]

set_option maxRecDepth 100000 in
/-- C19: overwriting an earlier backup.  With the backup `/home/dev/proj_clone`
in place and the answer `y`, the old backup is removed with everything
below it before `rsync` is executed; but when that removal fails, the run
prints "Failed to remove existing backup" and executes `rsync` into the old
backup all the same, because `run` does not look at what
`prepareBackupDestination` returned. -/
theorem C19_failed_removal_still_runs_backup :
    readResponse stuckBackupEnv = 'y' ∧
    (start confirmingEnv id ["dvk", "clone"] backedUpWorld).2.trace
      = [Event.ofstream "/home/dev/.projclone_writetest",
         Event.remove "/home/dev/.projclone_writetest",
         Event.remove_all "/home/dev/proj_clone",
         Event.exec (rsyncCommand "/home/dev/proj" "/home/dev/proj_clone")] ∧
    (start confirmingEnv id ["dvk", "clone"] backedUpWorld).2.fs "/home/dev/proj_clone" = none ∧
    (start confirmingEnv id ["dvk", "clone"] backedUpWorld).2.fs "/home/dev/proj_clone/notes.txt"
      = none ∧
    (ProjectCloner.prepareBackupDestination stuckBackupEnv
      { ProjectCloner.mk0 ["dvk", "clone"] "clone" with
        m_suffix := "clone", m_currentPath := "/home/dev/proj", m_parentPath := "/home/dev",
        m_sourceDirName := "proj" } backedUpWorld).1 = false ∧
    (Level.error, "Failed to remove existing backup: <ec.message()>")
      ∈ (start stuckBackupEnv id ["dvk", "clone"] backedUpWorld).2.out ∧
    (start stuckBackupEnv id ["dvk", "clone"] backedUpWorld).2.trace
      = [Event.ofstream "/home/dev/.projclone_writetest",
         Event.remove "/home/dev/.projclone_writetest",
         Event.remove_all "/home/dev/proj_clone",
         Event.exec (rsyncCommand "/home/dev/proj" "/home/dev/proj_clone")] ∧
    (start stuckBackupEnv id ["dvk", "clone"] backedUpWorld).2.fs "/home/dev/proj_clone/notes.txt"
      = some (Node.file 0o644 "kept") := by
  refine ⟨by decide, by decide, by decide, by decide, by decide, by decide, by decide, by decide⟩

/-! ## The installer: permission bits -/

theorem follow_some (fs : FileSystem) (fuel : Nat) (k0 k : Path) (n : Node)
    (h : follow fs fuel k0 = some (k, n)) : fs k = some n ∧ ∀ t, n ≠ Node.symlink t := by
  induction fuel generalizing k0 with
  | zero => simp [follow] at h
  | succ f ih =>
    unfold follow at h
    split at h
    · simp at h
    · split at h
      · simp at h
      · exact ih _ h
    · rename_i n1 hns hn1
      simp only [Option.some.injEq, Prod.mk.injEq] at h
      obtain ⟨rfl, rfl⟩ := h
      exact ⟨hn1, fun t ht => hns t ht⟩

theorem follow_update_mode (fs : FileSystem) (fuel : Nat) (k0 k : Path) (n : Node) (m : Nat)
    (h : follow fs fuel k0 = some (k, n)) :
    follow (Function.update fs k (some (n.setMode m))) fuel k0 = some (k, n.setMode m) := by
  have hk := follow_some fs fuel k0 k n h
  have hns : ∀ t, n.setMode m ≠ Node.symlink t := by
    intro t
    cases n with
    | file a c => simp [Node.setMode]
    | dir a => simp [Node.setMode]
    | symlink s => exact absurd rfl (hk.2 s)
  induction fuel generalizing k0 with
  | zero => simp [follow] at h
  | succ f ih =>
    unfold follow at h ⊢
    by_cases e : k0 = k
    · subst e
      rw [hk.1] at h
      simp only [Function.update_same]
    · rw [Function.update_noteq e]
      split at h
      · simp at h
      · rename_i t ht
        split at h
        · simp at h
        · rename_i hte
          rw [if_neg hte]
          exact ih _ h
      · rename_i n1 hn1 hsym
        simp only [Option.some.injEq, Prod.mk.injEq] at h
        exact absurd h.1 e

theorem exec_bits_value (m : Nat) : m ||| S_IXUSR ||| S_IXGRP ||| S_IXOTH = m ||| 0o111 := by
  rw [Nat.lor_assoc, Nat.lor_assoc]
  rfl

theorem exec_bits_preserve (m i : Nat) (h0 : i ≠ 0) (h3 : i ≠ 3) (h6 : i ≠ 6) :
    (m ||| 0o111).testBit i = m.testBit i := by
  rw [Nat.testBit_or]
  have : Nat.testBit 0o111 i = false := by
    by_cases hi : i < 7
    · interval_cases i <;> first | contradiction | decide
    · apply Nat.testBit_lt_two_pow
      calc 0o111 < 2 ^ 7 := by decide
        _ ≤ 2 ^ i := Nat.pow_le_pow_right (by decide) (by omega)
  rw [this, Bool.or_false]

theorem exec_bits_set (m : Nat) : (m ||| 0o111) &&& S_IXUSR ≠ 0 := by
  rw [← exec_bits_value]
  exact mode_with_exec_bits m

/-- C20: `makeExecutable` on a path that leads to a node with permission bits
`mode`.  If the owner-execute bit is set nothing changes at all.  Otherwise,
when `chmod` succeeds, the node gets the bits `mode ||| 0o111` and nothing
else in the file system changes; every bit other than the three execute
bits is as before; and a second `makeExecutable` changes nothing.  When
`chmod` fails the function returns `false` and the file system is as
before. -/
theorem C20_makeExecutable_sets_only_execute_bits (env : Env) (p k : Path) (node : Node)
    (w : World) (hstat : stat env w.fs p = some (k, node)) :
    (node.mode &&& S_IXUSR ≠ 0 → makeExecutable env p w = (true, w)) ∧
    (node.mode &&& S_IXUSR = 0 → env.fault (Event.chmod p (node.mode ||| 0o111)) = false →
      (makeExecutable env p w).1 = true ∧
      (makeExecutable env p w).2.fs
        = Function.update w.fs k (some (node.setMode (node.mode ||| 0o111))) ∧
      stat env (makeExecutable env p w).2.fs p
        = some (k, node.setMode (node.mode ||| 0o111)) ∧
      (node.setMode (node.mode ||| 0o111)).mode = node.mode ||| 0o111 ∧
      (∀ i, i ≠ 0 → i ≠ 3 → i ≠ 6 →
        (node.mode ||| 0o111).testBit i = node.mode.testBit i) ∧
      makeExecutable env p (makeExecutable env p w).2 = (true, (makeExecutable env p w).2)) ∧
    (node.mode &&& S_IXUSR = 0 → env.fault (Event.chmod p (node.mode ||| 0o111)) = true →
      (makeExecutable env p w).1 = false ∧ (makeExecutable env p w).2.fs = w.fs) := by
  have hns : ∀ t, node ≠ Node.symlink t := by
    unfold stat at hstat
    cases ha : absKey env p with
    | none => rw [ha] at hstat; simp at hstat
    | some a =>
      rw [ha] at hstat
      exact (follow_some w.fs 40 a k node hstat).2
  have hmode : ∀ m, (node.setMode m).mode = m := by
    intro m
    cases hn : node with
    | file a c => rfl
    | dir a => rfl
    | symlink s => exact absurd hn (hns s)
  have hstat2 : ∀ m, stat env (Function.update w.fs k (some (node.setMode m))) p
      = some (k, node.setMode m) := by
    intro m
    unfold stat at hstat ⊢
    cases ha : absKey env p with
    | none => rw [ha] at hstat; simp at hstat
    | some a =>
      rw [ha] at hstat
      simp only [Option.some_bind] at hstat ⊢
      exact follow_update_mode w.fs 40 a k node m hstat
  refine ⟨?_, ?_, ?_⟩
  · intro hx
    unfold makeExecutable
    rw [hstat]
    simp only
    rw [if_neg hx]
  · intro hx hf
    have hres : makeExecutable env p w
        = (true, { (w.print Level.info ("Making '" ++ p ++ "' executable...")).record
            (Event.chmod p (node.mode ||| 0o111)) with
            fs := Function.update w.fs k (some (node.setMode (node.mode ||| 0o111))) }) := by
      unfold makeExecutable
      rw [hstat]
      simp only
      rw [if_pos hx, exec_bits_value]
      unfold chmod
      simp only [World.print_fs, hstat, hf, Bool.false_eq_true, if_false, Bool.not_true]
    rw [hres]
    refine ⟨rfl, rfl, hstat2 _, hmode _, fun i h0 h3 h6 => exec_bits_preserve _ i h0 h3 h6, ?_⟩
    unfold makeExecutable
    simp only
    rw [hstat2]
    simp only
    rw [if_neg (by rw [hmode]; exact exec_bits_set _)]
  · intro hx hf
    unfold makeExecutable
    rw [hstat]
    simp only
    rw [if_pos hx, exec_bits_value]
    unfold chmod
    simp only [World.print_fs, hstat, hf, if_true, Bool.not_false]
    simp

theorem C20_makeExecutable_witness :
    (makeExecutable sampleEnv "tool.sh" sampleWorld).1 = true ∧
    (makeExecutable sampleEnv "tool.sh" sampleWorld).2.fs
      = Function.update sampleWorld.fs "/home/dev/proj/tool.sh"
          (some ((Node.file 0o644 "echo tool").setMode (0o644 ||| 0o111))) ∧
    (0o644 ||| 0o111 : Nat) = 0o755 ∧
    makeExecutable sampleEnv "tool.sh" (makeExecutable sampleEnv "tool.sh" sampleWorld).2
      = (true, (makeExecutable sampleEnv "tool.sh" sampleWorld).2) ∧
    makeExecutable sampleEnv "/bin/ls" sampleWorld = (true, sampleWorld) :=
  have h := C20_makeExecutable_sets_only_execute_bits sampleEnv "tool.sh"
    "/home/dev/proj/tool.sh" (Node.file 0o644 "echo tool") sampleWorld (by decide)
  have h2 := h.2.1 (by decide) rfl
  ⟨h2.1, h2.2.1, by decide, h2.2.2.2.2.2,
    (C20_makeExecutable_sets_only_execute_bits sampleEnv "/bin/ls" "/bin/ls"
      (Node.file 0o755 "ELF") sampleWorld (by decide)).1 (by decide)⟩


/-! ## The files of a scaffolded project -/

theorem Grows.fs_refl (fs : FileSystem) : Grows fs fs := fun _ => Or.inl rfl

theorem Grows.fs_trans {fs fs1 fs2 : FileSystem} (h1 : Grows fs fs1) (h2 : Grows fs1 fs2) :
    Grows fs fs2 := by
  intro k
  rcases h1 k with e1 | e1 | ⟨e1, m1, c1, e1'⟩
  · rcases h2 k with e2 | e2 | ⟨e2, e2'⟩
    · exact Or.inl (e2.trans e1)
    · exact Or.inr (Or.inl (e1 ▸ e2))
    · exact Or.inr (Or.inr ⟨e1 ▸ e2, e2'⟩)
  · exact Or.inr (Or.inl e1)
  · rcases h2 k with e2 | e2 | ⟨_, e2'⟩
    · exact Or.inr (Or.inr ⟨e1, m1, c1, e2.trans e1'⟩)
    · rw [e1'] at e2; cases e2
    · exact Or.inr (Or.inr ⟨e1, e2'⟩)

theorem Grows.of_update_free (fs : FileSystem) (k : Path) (n : Option Node) (h : fs k = none) :
    Grows fs (Function.update fs k n) := by
  intro k1
  by_cases hk : k1 = k
  · subst hk; exact Or.inr (Or.inl h)
  · exact Or.inl (Function.update_noteq hk _ _)

theorem Grows.of_update_file (fs : FileSystem) (k : Path) (m m1 : Nat) (c c1 : String)
    (h : fs k = some (Node.file m c)) :
    Grows fs (Function.update fs k (some (Node.file m1 c1))) := by
  intro k1
  by_cases hk : k1 = k
  · subst hk
    exact Or.inr (Or.inr ⟨⟨m, c, h⟩, m1, c1, Function.update_same _ _ _⟩)
  · exact Or.inl (Function.update_noteq hk _ _)

theorem follow_file_of_grows {fs fs1 : FileSystem} (h : Grows fs fs1) (fuel : Nat) :
    ∀ (k0 k : Path) (m : Nat) (c : String), follow fs fuel k0 = some (k, Node.file m c) →
      ∃ m1 c1, follow fs1 fuel k0 = some (k, Node.file m1 c1) := by
  induction fuel with
  | zero => intro k0 k m c hf; simp [follow] at hf
  | succ f ih =>
    intro k0 k m c hf
    unfold follow at hf ⊢
    rcases h k0 with e | e | ⟨⟨m0, c0, e⟩, m1, c1, e1⟩
    · rw [e]
      split at hf
      · cases hf
      · split at hf
        · cases hf
        · rename_i hne
          rw [if_neg hne]
          exact ih _ _ _ _ hf
      · rename_i n hn hne
        simp only [Option.some.injEq, Prod.mk.injEq] at hf
        exact ⟨m, c, by rw [hf.1, hf.2]⟩
    · rw [e] at hf; cases hf
    · rw [e] at hf
      simp only [Option.some.injEq, Prod.mk.injEq] at hf
      rw [e1]
      exact ⟨m1, c1, by rw [hf.1]⟩

theorem is_regular_file_of_grows (env : Env) {fs fs1 : FileSystem} (h : Grows fs fs1) (p : Path)
    (hp : is_regular_file env fs p = true) : is_regular_file env fs1 p = true := by
  unfold is_regular_file stat at hp ⊢
  cases hk : absKey env p with
  | none => rw [hk] at hp; simp at hp
  | some k =>
    rw [hk] at hp
    simp only [Option.some_bind] at hp ⊢
    split at hp
    · rename_i k1 m c hf
      obtain ⟨m1, c1, hf1⟩ := follow_file_of_grows h 40 k k1 m c hf
      rw [hf1]
    · cases hp

theorem fs_ofstream_grows (env : Env) (p : Path) (w : World) :
    Grows w.fs (fs_ofstream env p w).2.fs ∧
      ((fs_ofstream env p w).1 = true →
        ∃ k m c, stat env (fs_ofstream env p w).2.fs p = some (k, Node.file m c)) := by
  unfold fs_ofstream
  simp only
  cases hk : absKey env p with
  | none => exact ⟨Grows.fs_refl _, fun h => by cases h⟩
  | some k =>
    simp only
    split
    · exact ⟨Grows.fs_refl _, fun h => by cases h⟩
    · cases hfk : w.fs k with
      | none =>
        simp only
        split
        · refine ⟨Grows.of_update_free _ _ _ hfk, fun _ => ⟨k, env.createMode, "", ?_⟩⟩
          simp [stat, hk, follow, World.record]
        · exact ⟨Grows.fs_refl _, fun h => by cases h⟩
      | some n =>
        simp only
        split
        · rename_i k1 mode c hf
          have hk1 := (follow_some _ _ _ _ _ hf).1
          have hg := Grows.of_update_file w.fs k1 mode mode c "" hk1
          refine ⟨hg, fun _ => ⟨k1, mode, "", ?_⟩⟩
          obtain ⟨m1, c1, hf1⟩ := follow_file_of_grows hg 40 k k1 mode c hf
          have hk2 := (follow_some _ _ _ _ _ hf1).1
          rw [Function.update_same] at hk2
          simp only [stat, hk, Option.some_bind, World.record]
          rw [hf1, ← Option.some.inj hk2]
        · exact ⟨Grows.fs_refl _, fun h => by cases h⟩

theorem writeFile_grows (env : Env) (path : Path) (content : String) (w : World) :
    Grows w.fs (writeFile env path content w).2.fs ∧
      ((writeFile env path content w).1 = .ok () →
        is_regular_file env (writeFile env path content w).2.fs path = true) := by
  have h := fs_ofstream_grows env path w
  unfold writeFile
  rcases ho : fs_ofstream env path w with ⟨b, w1⟩
  rw [ho] at h
  simp only at h
  cases b with
  | false => exact ⟨h.1, fun hok => by cases hok⟩
  | true =>
    obtain ⟨k, m, c, hs⟩ := h.2 rfl
    simp only [hs]
    have hk : w1.fs k = some (Node.file m c) := by
      unfold stat at hs
      cases ha : absKey env path with
      | none => rw [ha] at hs; cases hs
      | some k0 =>
        rw [ha] at hs
        exact (follow_some _ _ _ _ _ hs).1
    have hg := Grows.of_update_file w1.fs k m m c content hk
    refine ⟨h.1.fs_trans hg, fun _ => ?_⟩
    apply is_regular_file_of_grows env hg
    simp [is_regular_file, hs]

theorem fs_create_directory_grows (env : Env) (p : Path) (w : World) :
    Grows w.fs (fs_create_directory env p w).2.fs := by
  unfold fs_create_directory
  simp only
  split
  · exact Grows.fs_refl _
  · exact Grows.fs_refl _
  · split
    · exact Grows.fs_refl _
    · split
      · exact Grows.fs_refl _
      · rename_i k hk hc
        simp only [Bool.or_eq_true, not_or, Option.isSome_iff_exists, not_exists] at hc
        apply Grows.of_update_free
        cases hfk : w.fs k with
        | none => rfl
        | some n => exact absurd hfk (hc.1.1 n)

theorem pathAppend_src (root b : Path) (hb : is_absolute b = false) :
    pathAppend (pathAppend root "src") b = pathAppend root ("src/" ++ b) := by
  have h1 : is_absolute "src" = false := by decide
  have h2 : is_absolute ("src/" ++ b) = false := by
    simp [is_absolute, String.data_append]
  have h3 : ∀ a : String, (a ++ "src").data.isEmpty = false ∧
      ((a ++ "src").data.getLast? == some '/') = false := by
    intro a
    have e : (a ++ "src").data = (a.data ++ ['s', 'r']) ++ ['c'] := by
      simp [String.data_append]
    rw [e]
    constructor
    · simp
    · rw [List.getLast?_append]
      simp
  unfold pathAppend
  rw [h1, h2, hb]
  simp only [Bool.false_eq_true, if_false]
  split
  · rw [(h3 root).1, (h3 root).2]
    simp only [Bool.or_self, Bool.false_eq_true, if_false]
    apply String.ext
    simp [String.data_append]
  · have h4 := h3 (root ++ "/")
    rw [(h3 (root ++ "/")).1, (h3 (root ++ "/")).2]
    simp only [Bool.or_self, Bool.false_eq_true, if_false]
    apply String.ext
    simp [String.data_append]

theorem StepCalls.skip (env : Env) : StepCalls env (fun w => (.ok (), w)) [] := by
  intro w
  exact ⟨[], by simp, List.prefix_refl _, Grows.fs_refl _, fun _ => ⟨rfl, by simp⟩⟩

theorem StepCalls.of_createDirectory (env : Env) (p : Path) :
    StepCalls env (createDirectory env p) [Event.create_directory p] := by
  intro w
  refine ⟨_, createDirectory_trace env p w, List.prefix_refl _, ?_, fun _ => ⟨rfl, by simp⟩⟩
  have h := fs_create_directory_grows env p w
  unfold createDirectory
  rcases hc : fs_create_directory env p w with ⟨b, w1⟩
  rw [hc] at h
  cases b <;> exact h

theorem StepCalls.of_writeAndReport (env : Env) (path : Path) (content created : String) :
    StepCalls env (writeAndReport env path content created) [Event.ofstream path] := by
  intro w
  have ht := writeFile_trace env path content w
  have hg := writeFile_grows env path content w
  unfold writeAndReport
  rcases hw : writeFile env path content w with ⟨r, w1⟩
  rw [hw] at ht hg
  cases r with
  | error e => exact ⟨_, ht, List.prefix_refl _, hg.1, fun hok => by cases hok⟩
  | ok u =>
    refine ⟨_, ht, List.prefix_refl _, hg.1, fun _ => ⟨rfl, fun p hp => ?_⟩⟩
    simp only [List.mem_singleton, Event.ofstream.injEq] at hp
    rw [hp]
    exact hg.2 rfl

theorem StepCalls.seq {env : Env} {f g : World → Except String Unit × World}
    {xs ys : List Event} (hf : StepCalls env f xs) (hg : StepCalls env g ys) :
    StepCalls env (fun w => andThen (f w) g) (xs ++ ys) := by
  intro w
  obtain ⟨more, ht, hpre, hgr, hok⟩ := hf w
  beta_reduce
  rcases hfw : f w with ⟨r, w1⟩
  rw [hfw] at ht hgr hok
  simp only at ht hgr hok
  cases r with
  | error e =>
    simp only [andThen]
    exact ⟨more, ht, hpre.trans (List.prefix_append _ _), hgr, fun h => by cases h⟩
  | ok u =>
    simp only [andThen]
    obtain ⟨hm, hreg⟩ := hok rfl
    obtain ⟨more1, ht1, hpre1, hgr1, hok1⟩ := hg w1
    refine ⟨more ++ more1, ?_, ?_, hgr.fs_trans hgr1, fun h => ?_⟩
    · rw [ht1, ht, List.append_assoc]
    · rw [hm]
      exact (List.prefix_append_right_inj xs).2 hpre1
    · obtain ⟨hm1, hreg1⟩ := hok1 h
      refine ⟨by rw [hm, hm1], fun p hp => ?_⟩
      rcases List.mem_append.1 hp with hx | hy
      · exact is_regular_file_of_grows env hgr1 p (hreg p hx)
      · exact hreg1 p hy

theorem StepCalls.cond {env : Env} (c : Prop) [Decidable c]
    {f : World → Except String Unit × World} {xs : List Event} (hf : StepCalls env f xs) :
    StepCalls env (fun w => if c then f w else (.ok (), w)) (if c then xs else []) := by
  by_cases hc : c
  · simp only [if_pos hc]; exact hf
  · simp only [if_neg hc]; exact StepCalls.skip env

theorem scaffoldCalls_eq (root : Path) (pt : ProjectType) (bs : BuildSystem) :
    [Event.create_directory root] ++ ([Event.create_directory (pathAppend root "src")] ++
      ((if pt = .C ∨ pt = .Mixed then
          [Event.ofstream (pathAppend (pathAppend root "src") "main.c")] else []) ++
       ((if pt = .CPP ∨ pt = .Mixed then
          [Event.ofstream (pathAppend (pathAppend root "src") "main.cpp")] else []) ++
        ((if pt = .ASM then
          [Event.ofstream (pathAppend (pathAppend root "src") "main.s")] else []) ++
         ((match bs with
            | .Make => [Event.ofstream (pathAppend root "Makefile")]
            | .CMake => [Event.ofstream (pathAppend root "CMakeLists.txt")]
            | .Autocc => [Event.ofstream (pathAppend root "autocc.toml")]
            | _ => []) ++
          ([Event.ofstream (pathAppend root ".gitignore")] ++
            [Event.ofstream (pathAppend root "README.md")]))))))
      = scaffoldCalls root pt bs := by
  have e1 : pathAppend (pathAppend root "src") "main.c" = pathAppend root "src/main.c" :=
    pathAppend_src root "main.c" (by decide)
  have e2 : pathAppend (pathAppend root "src") "main.cpp" = pathAppend root "src/main.cpp" :=
    pathAppend_src root "main.cpp" (by decide)
  have e3 : pathAppend (pathAppend root "src") "main.s" = pathAppend root "src/main.s" :=
    pathAppend_src root "main.s" (by decide)
  rw [e1, e2, e3]
  cases pt <;> cases bs <;> simp [scaffoldCalls, scaffoldFiles]

theorem ProjectCreator.createProjectStructure_calls (env : Env) (self : ProjectCreator) :
    StepCalls env (self.createProjectStructure env)
      (scaffoldCalls self.m_projectPath self.m_projectType self.m_buildSystem) := by
  rcases self with ⟨name, pt, bs, wsp, root⟩
  have hbs : StepCalls env
      (fun w6 => match bs with
        | .Make =>
          writeAndReport env (pathAppend root "Makefile") (getMakefileContent pt name)
            "Makefile" w6
        | .CMake =>
          writeAndReport env (pathAppend root "CMakeLists.txt") (getCMakeContent pt name)
            "CMakeLists.txt" w6
        | .Autocc =>
          writeAndReport env (pathAppend root "autocc.toml") (getAutoccContent pt name)
            "autocc.toml" w6
        | _ => (.ok (), w6))
      (match bs with
        | .Make => [Event.ofstream (pathAppend root "Makefile")]
        | .CMake => [Event.ofstream (pathAppend root "CMakeLists.txt")]
        | .Autocc => [Event.ofstream (pathAppend root "autocc.toml")]
        | _ => []) := by
    cases bs
    · exact StepCalls.of_writeAndReport env _ _ _
    · exact StepCalls.of_writeAndReport env _ _ _
    · exact StepCalls.of_writeAndReport env _ _ _
    · exact StepCalls.skip env
    · exact StepCalls.skip env
  have hrest :=
    StepCalls.seq (StepCalls.of_createDirectory env root)
      (StepCalls.seq (StepCalls.of_createDirectory env (pathAppend root "src"))
        (StepCalls.seq
          (StepCalls.cond (pt = .C ∨ pt = .Mixed)
            (StepCalls.of_writeAndReport env (pathAppend (pathAppend root "src") "main.c")
              getCMainContent "main.c"))
          (StepCalls.seq
            (StepCalls.cond (pt = .CPP ∨ pt = .Mixed)
              (StepCalls.of_writeAndReport env (pathAppend (pathAppend root "src") "main.cpp")
                getCPPMainContent "main.cpp"))
            (StepCalls.seq
              (StepCalls.cond (pt = .ASM)
                (StepCalls.of_writeAndReport env (pathAppend (pathAppend root "src") "main.s")
                  getASMMainContent "main.s"))
              (StepCalls.seq hbs
                (StepCalls.seq
                  (StepCalls.of_writeAndReport env (pathAppend root ".gitignore")
                    getGitignoreContent ".gitignore")
                  (StepCalls.of_writeAndReport env (pathAppend root "README.md")
                    (getReadmeContent bs pt name) "README.md")))))))
  rw [scaffoldCalls_eq] at hrest
  intro w
  have ht : ((if fs_exists env w.fs root = true then
      w.print .warn ("Directory " ++ root ++ " exists.") else w).print .info
        ("Creating project at: " ++ root)).trace = w.trace := by
    split <;> rfl
  have hf : ((if fs_exists env w.fs root = true then
      w.print .warn ("Directory " ++ root ++ " exists.") else w).print .info
        ("Creating project at: " ++ root)).fs = w.fs := by
    split <;> rfl
  have h := hrest ((if fs_exists env w.fs root = true then
      w.print .warn ("Directory " ++ root ++ " exists.") else w).print .info
        ("Creating project at: " ++ root))
  rw [ht, hf] at h
  exact h
theorem ProjectCreator.getWorkspaceDir_projectPath (env : Env) (self settings : ProjectCreator)
    (stdin rest : List String) (w w1 : World)
    (h : self.getWorkspaceDir env stdin w = (.ok (settings, rest), w1)) :
    settings.m_projectPath = pathAppend settings.m_workspacePath settings.m_projectName := by
  unfold ProjectCreator.getWorkspaceDir at h
  simp only at h
  repeat' split at h
  all_goals
    simp only [Prod.mk.injEq, Except.ok.injEq, reduceCtorEq, false_and, and_false] at h
  all_goals
    obtain ⟨⟨hs, _⟩, _⟩ := h
    rw [← hs]

theorem ProjectCreator.collectSettings_projectPath (env : Env) (self settings : ProjectCreator)
    (stdin rest : List String) (w w1 : World)
    (h : self.collectSettings env stdin w = (.ok (settings, rest), w1)) :
    settings.m_projectPath = pathAppend settings.m_workspacePath settings.m_projectName := by
  unfold ProjectCreator.collectSettings at h
  split at h
  · cases h
  · split at h
    · cases h
    · rename_i self2 rest2 w2 hws
      have hp := ProjectCreator.getWorkspaceDir_projectPath env _ _ _ _ _ _ hws
      unfold ProjectCreator.getBuildSystem at h
      simp only at h
      split at h
      · cases h
      · simp only [Prod.mk.injEq, Except.ok.injEq] at h
        obtain ⟨⟨hs, _⟩, _⟩ := h
        rw [← hs]
        exact hp

/-- C21: the files `createProjectStructure` writes for the settings the
wizard has collected.  The project path is `<workspace>/<name>`, and the
calls made on the file system are, in this order, the creation of that
directory and of its `src`, then one opening for writing per file of
`scaffoldFiles`: `src/main.c` for C and Mixed, `src/main.cpp` for C++ and
Mixed, `src/main.s` for Assembly, the one build file of the build system
(none for `Manual`), `.gitignore` and `README.md`.  When it returns without
an exception it has made exactly these calls and every one of the files is
a regular file afterwards; when a step throws, the calls made are an
initial part of the list, so no other file is ever opened. -/
theorem C21_scaffold_files_by_type_and_build_system (env : Env)
    (self settings : ProjectCreator) (stdin rest : List String) (w0 w3 w : World)
    (hsteps : self.collectSettings env stdin w0 = (.ok (settings, rest), w3)) :
    ∃ more, (settings.createProjectStructure env w).2.trace = w.trace ++ more ∧
      more <+: scaffoldCalls (pathAppend settings.m_workspacePath settings.m_projectName)
        settings.m_projectType settings.m_buildSystem ∧
      ((settings.createProjectStructure env w).1 = .ok () →
        more = scaffoldCalls (pathAppend settings.m_workspacePath settings.m_projectName)
          settings.m_projectType settings.m_buildSystem ∧
        ∀ p ∈ scaffoldFiles (pathAppend settings.m_workspacePath settings.m_projectName)
            settings.m_projectType settings.m_buildSystem,
          is_regular_file env (settings.createProjectStructure env w).2.fs p = true) := by
  rw [← ProjectCreator.collectSettings_projectPath env self settings stdin rest w0 w3 hsteps]
  obtain ⟨more, ht, hpre, _, hok⟩ := settings.createProjectStructure_calls env w
  refine ⟨more, ht, hpre, fun h => ?_⟩
  obtain ⟨hm, hreg⟩ := hok h
  refine ⟨hm, fun p hp => hreg p ?_⟩
  simp only [scaffoldCalls, List.mem_cons, List.mem_map, Event.ofstream.injEq, exists_eq_right]
  exact Or.inr (Or.inr (by simpa using hp))

set_option maxRecDepth 100000 in
theorem C21_scaffold_files_witness :
    scaffoldFiles "/home/dev/proj/demo" ProjectType.Mixed BuildSystem.CMake
      = ["/home/dev/proj/demo/src/main.c", "/home/dev/proj/demo/src/main.cpp",
         "/home/dev/proj/demo/CMakeLists.txt", "/home/dev/proj/demo/.gitignore",
         "/home/dev/proj/demo/README.md"] ∧
    (demoSettings.createProjectStructure sampleEnv sampleWorld).1 = .ok () ∧
    (demoSettings.createProjectStructure sampleEnv sampleWorld).2.trace
      = scaffoldCalls "/home/dev/proj/demo" ProjectType.Mixed BuildSystem.CMake ∧
    ∀ p ∈ scaffoldFiles "/home/dev/proj/demo" ProjectType.Mixed BuildSystem.CMake,
      is_regular_file sampleEnv (demoSettings.createProjectStructure sampleEnv sampleWorld).2.fs p
        = true := by
  obtain ⟨more, ht, _, hok⟩ := C21_scaffold_files_by_type_and_build_system sampleEnv {}
    demoSettings ["demo", "3", "1", "2", "y"] ["y"]
    (sampleWorld.print .info "DVK Project Creation Wizard")
    (ProjectCreator.collectSettings sampleEnv {} ["demo", "3", "1", "2", "y"]
      (sampleWorld.print .info "DVK Project Creation Wizard")).2 sampleWorld
    (Prod.ext (by rfl) rfl)
  obtain ⟨hm, hreg⟩ := hok (by rfl)
  have htr : sampleWorld.trace = [] := rfl
  rw [htr, List.nil_append] at ht
  exact ⟨by decide, by rfl, ht.trans hm, hreg⟩

/-! ## The placeholder in the generated files -/

theorem infix_of_infix_sep (pat a b : List Char) (s : Char) (hs : s ∉ pat)
    (h : pat <:+: a ++ s :: b) : pat <:+: a ∨ pat <:+: b := by
  obtain ⟨u, v, huv⟩ := h
  rcases List.append_eq_append_iff.1 huv with ⟨a1, ha, hv⟩ | ⟨c1, hc, hb⟩
  · exact Or.inl ⟨u, a1, ha.symm⟩
  · cases c1 with
    | nil =>
      left
      rw [List.append_nil] at hc
      exact ⟨u, [], by rw [List.append_nil]; exact hc⟩
    | cons x c2 =>
      simp only [List.cons_append, List.cons.injEq] at hb
      obtain ⟨rfl, hb⟩ := hb
      rcases List.append_eq_append_iff.1 hc with ⟨a2, ha2, hp⟩ | ⟨c3, hu, hc3⟩
      · exact absurd (by rw [hp]; simp) hs
      · cases c3 with
        | nil =>
          rw [List.nil_append] at hc3
          exact absurd (by rw [← hc3]; simp) hs
        | cons y c4 =>
          simp only [List.cons_append, List.cons.injEq] at hc3
          right
          exact ⟨c4, v, by rw [hb, hc3.2]⟩

theorem mem_of_isNameChar_false (pat : List Char) (hpat : ∀ c ∈ pat, isNameChar c = true)
    (s : Char) (hs : (!isNameChar s) = true) : s ∉ pat := by
  intro hm
  have := hpat s hm
  rw [this] at hs
  cases hs

theorem intercalate_name_free (pat n : List Char) (hpat : ∀ c ∈ pat, isNameChar c = true)
    (hn : ¬ pat <:+: n) (pieces : List (List Char)) (hfree : ∀ p ∈ pieces, ¬ pat <:+: p)
    (hd : delimitedPieces pieces = true) (hne : pieces ≠ []) :
    ¬ pat <:+: List.intercalate n pieces := by
  induction pieces with
  | nil => exact absurd rfl hne
  | cons p ps ih =>
    cases ps with
    | nil =>
      rw [intercalate_singleton]
      exact hfree p (List.mem_cons_self _ _)
    | cons p1 ps =>
      simp only [delimitedPieces, Bool.and_eq_true] at hd
      obtain ⟨⟨hlast, hhead⟩, hrest⟩ := hd
      have ih1 := ih (fun q hq => hfree q (List.mem_cons_of_mem _ hq)) hrest (by simp)
      obtain ⟨p0, s, rfl, hs⟩ : ∃ p0 s, p = p0 ++ [s] ∧ (!isNameChar s) = true := by
        rcases List.eq_nil_or_concat p with rfl | ⟨l, b, rfl⟩
        · simp at hlast
        · refine ⟨l, b, by simp, ?_⟩
          simpa using hlast
      obtain ⟨s1, x, hx, hs1⟩ : ∃ s1 x, List.intercalate n (p1 :: ps) = s1 :: x
          ∧ (!isNameChar s1) = true := by
        cases p1 with
        | nil => simp at hhead
        | cons c p1 =>
          exact ⟨c, _, intercalate_cons_char n c p1 ps, by simpa using hhead⟩
      rw [intercalate_cons_cons, hx]
      have e1 : p0 ++ [s] ++ n ++ s1 :: x = p0 ++ s :: (n ++ s1 :: x) := by simp
      rw [e1]
      intro hin
      rcases infix_of_infix_sep pat _ _ s (mem_of_isNameChar_false pat hpat s hs) hin with h1 | h1
      · exact hfree (p0 ++ [s]) (List.mem_cons_self _ _)
          (h1.trans (List.prefix_append p0 [s]).isInfix)
      · rcases infix_of_infix_sep pat _ _ s1 (mem_of_isNameChar_false pat hpat s1 hs1) h1
          with h2 | h2
        · exact hn h2
        · apply ih1
          rw [hx]
          exact h2.trans (List.suffix_cons s1 x).isInfix

theorem intercalate_rep_free (pat rep : List Char) (hpat : ∀ c ∈ pat, isNameChar c = true)
    (hrep : ¬ pat <:+: rep) (hhead : rep.head?.any (fun c => !isNameChar c) = true)
    (hlast : rep.getLast?.any (fun c => !isNameChar c) = true) (pieces : List (List Char))
    (hfree : ∀ p ∈ pieces, ¬ pat <:+: p) (hne : pieces ≠ []) :
    ¬ pat <:+: List.intercalate rep pieces := by
  induction pieces with
  | nil => exact absurd rfl hne
  | cons p ps ih =>
    cases ps with
    | nil =>
      rw [intercalate_singleton]
      exact hfree p (List.mem_cons_self _ _)
    | cons p1 ps =>
      have ih1 := ih (fun q hq => hfree q (List.mem_cons_of_mem _ hq)) (by simp)
      rw [intercalate_cons_cons]
      cases rep with
      | nil => simp at hhead
      | cons a r =>
        have ha : (!isNameChar a) = true := by simpa using hhead
        have e1 : p ++ a :: r ++ List.intercalate (a :: r) (p1 :: ps)
            = p ++ a :: (r ++ List.intercalate (a :: r) (p1 :: ps)) := by simp
        rw [e1]
        intro hin
        rcases infix_of_infix_sep pat _ _ a (mem_of_isNameChar_false pat hpat a ha) hin
          with h1 | h1
        · exact hfree p (List.mem_cons_self _ _) h1
        · generalize List.intercalate (a :: r) (p1 :: ps) = rest at h1 ih1
          rcases List.eq_nil_or_concat r with hr | ⟨r0, b, hr⟩
          · rw [hr, List.nil_append] at h1
            exact ih1 h1
          · have hl : (a :: r).getLast? = some b := by
              rw [hr, List.concat_eq_append, ← List.cons_append, List.getLast?_append]
              simp
            have hb : (!isNameChar b) = true := by
              rw [hl] at hlast
              simpa using hlast
            have e2 : r ++ rest = r0 ++ b :: rest := by rw [hr]; simp
            rw [e2] at h1
            rcases infix_of_infix_sep pat _ _ b (mem_of_isNameChar_false pat hpat b hb) h1
              with h2 | h2
            · apply hrep
              rw [hr]
              exact h2.trans ⟨[a], [b], by simp⟩
            · exact ih1 h2

theorem piecesAux_head_prefix (marker : List Char) (t : List Char) :
    ∀ k, ∃ p ps, piecesAux marker k t = p :: ps ∧ p <+: t.drop k ∧ ∀ q ∈ ps, q <:+: t.drop k := by
  induction t with
  | nil =>
    intro k
    exact ⟨[], [], by cases k <;> simp [piecesAux], by simp, by simp⟩
  | cons c cs ih =>
    intro k
    cases k with
    | succ k =>
      obtain ⟨p, ps, hp, h1, h2⟩ := ih k
      exact ⟨p, ps, by simp only [piecesAux]; exact hp, by simpa using h1, by simpa using h2⟩
    | zero =>
      simp only [piecesAux, List.drop_zero]
      split
      · obtain ⟨p, ps, hp, h1, h2⟩ := ih (marker.length - 1)
        refine ⟨[], _, rfl, List.nil_prefix, fun q hq => ?_⟩
        have hsuf : cs.drop (marker.length - 1) <:+: c :: cs :=
          ((List.drop_suffix _ cs).trans (List.suffix_cons c cs)).isInfix
        rw [hp] at hq
        rcases List.mem_cons.1 hq with rfl | hq
        · exact h1.isInfix.trans hsuf
        · exact (h2 q hq).trans hsuf
      · obtain ⟨p, ps, hp, h1, h2⟩ := ih 0
        rw [hp]
        simp only [List.drop_zero] at h1 h2
        refine ⟨c :: p, ps, rfl, ?_, fun q hq => (h2 q hq).trans (List.suffix_cons c cs).isInfix⟩
        obtain ⟨r, hr⟩ := h1
        exact ⟨r, by rw [← hr]; simp⟩

theorem piecesAux_within (marker t p : List Char) (hp : p ∈ piecesAux marker 0 t) : p <:+: t := by
  obtain ⟨p0, ps, h0, h1, h2⟩ := piecesAux_head_prefix marker t 0
  rw [h0] at hp
  simp only [List.drop_zero] at h1 h2
  rcases List.mem_cons.1 hp with rfl | hq
  · exact h1.isInfix
  · exact h2 p hq

theorem findAndReplaceAllAux_rep_free (pat pat2 rep xs : List Char)
    (hpat : ∀ c ∈ pat, isNameChar c = true) (hrep : ¬ pat <:+: rep)
    (hhead : rep.head?.any (fun c => !isNameChar c) = true)
    (hlast : rep.getLast?.any (fun c => !isNameChar c) = true) (hxs : ¬ pat <:+: xs) :
    ¬ pat <:+: findAndReplaceAllAux pat2 rep 0 xs := by
  rw [findAndReplaceAllAux_eq_intercalate]
  exact intercalate_rep_free pat rep hpat hrep hhead hlast _
    (fun p hp hin => hxs (hin.trans (piecesAux_within pat2 xs p hp))) (piecesAux_ne_nil _ _ _)

theorem filled_free (template n : String) (hn : ¬ "_PROJECT_NAME_".data <:+: n.data)
    (hfree : ∀ p ∈ piecesAux "_PROJECT_NAME_".data 0 template.data,
      ¬ "_PROJECT_NAME_".data <:+: p)
    (hd : delimitedPieces (piecesAux "_PROJECT_NAME_".data 0 template.data) = true) :
    ¬ "_PROJECT_NAME_".data <:+: (findAndReplaceAll template "_PROJECT_NAME_" n).data := by
  rw [findAndReplaceAll_data _ _ _ (by decide), findAndReplaceAllAux_eq_intercalate]
  exact intercalate_name_free _ _ (by decide) hn _ hfree hd (piecesAux_ne_nil _ _ _)

set_option maxRecDepth 100000 in
theorem makefile_free (pt : ProjectType) (n : String)
    (hn : ¬ "_PROJECT_NAME_".data <:+: n.data) :
    ¬ "_PROJECT_NAME_".data <:+: (getMakefileContent pt n).data := by
  cases pt with
  | C => exact filled_free makefileTemplateC n hn (by decide) (by decide)
  | CPP => exact filled_free makefileTemplateCPP n hn (by decide) (by decide)
  | Mixed => exact filled_free makefileTemplateMixed n hn (by decide) (by decide)
  | ASM => exact filled_free makefileTemplateASM n hn (by decide) (by decide)
  | Unknown => exact filled_free "" n hn (by decide) (by decide)

set_option maxRecDepth 100000 in
theorem cmake_free (pt : ProjectType) (n : String)
    (hn : ¬ "_PROJECT_NAME_".data <:+: n.data) :
    ¬ "_PROJECT_NAME_".data <:+: (getCMakeContent pt n).data := by
  cases pt with
  | C => exact filled_free cmakeTemplateC n hn (by decide) (by decide)
  | CPP => exact filled_free cmakeTemplateCPP n hn (by decide) (by decide)
  | Mixed => exact filled_free cmakeTemplateMixed n hn (by decide) (by decide)
  | ASM => exact filled_free "" n hn (by decide) (by decide)
  | Unknown => exact filled_free "" n hn (by decide) (by decide)

set_option maxRecDepth 100000 in
theorem autocc_free (pt : ProjectType) (n : String) (hpt : pt ≠ ProjectType.Unknown)
    (hn : ¬ "_PROJECT_NAME_".data <:+: n.data) :
    ¬ "_PROJECT_NAME_".data <:+: (getAutoccContent pt n).data := by
  have h1 := filled_free autoccTemplate n hn (by decide) (by decide)
  have key : ∀ mf src : String, ¬ "_PROJECT_NAME_".data <:+: mf.data →
      mf.data.head?.any (fun c => !isNameChar c) = true →
      mf.data.getLast?.any (fun c => !isNameChar c) = true →
      ¬ "_PROJECT_NAME_".data <:+: src.data →
      src.data.head?.any (fun c => !isNameChar c) = true →
      src.data.getLast?.any (fun c => !isNameChar c) = true →
      ¬ "_PROJECT_NAME_".data <:+:
        (findAndReplaceAll (findAndReplaceAll
          (findAndReplaceAll autoccTemplate "_PROJECT_NAME_" n) "_MAIN_FILE_" mf)
            "_SOURCES_" src).data := by
    intro mf src a1 a2 a3 b1 b2 b3
    rw [findAndReplaceAll_data _ _ _ (by decide)]
    apply findAndReplaceAllAux_rep_free _ _ _ _ (by decide) b1 b2 b3
    rw [findAndReplaceAll_data _ _ _ (by decide)]
    exact findAndReplaceAllAux_rep_free _ _ _ _ (by decide) a1 a2 a3 h1
  cases pt with
  | Unknown => exact absurd rfl hpt
  | C => exact key _ _ (by decide) (by decide) (by decide) (by decide) (by decide) (by decide)
  | CPP => exact key _ _ (by decide) (by decide) (by decide) (by decide) (by decide) (by decide)
  | Mixed => exact key _ _ (by decide) (by decide) (by decide) (by decide) (by decide) (by decide)
  | ASM => exact key _ _ (by decide) (by decide) (by decide) (by decide) (by decide) (by decide)

theorem getReadmeContent_eq (bs : BuildSystem) (pt : ProjectType) (n : String) :
    getReadmeContent bs pt n
      = findAndReplaceAll ("# " ++ n ++ readmeBody bs pt) "_PROJECT_NAME_" n := by
  cases bs <;> cases pt <;> simp [getReadmeContent, readmeBody, String.append_assoc]

set_option maxRecDepth 100000 in
theorem readme_free (bs : BuildSystem) (pt : ProjectType) (n : String)
    (hn : ¬ "_PROJECT_NAME_".data <:+: n.data) :
    ¬ "_PROJECT_NAME_".data <:+: (getReadmeContent bs pt n).data := by
  have hne : "_PROJECT_NAME_".data ≠ [] := by decide
  have hbody : (readmeBody bs pt).data = '\n' :: (readmeBody bs pt).data.drop 1 := by
    cases bs <;> cases pt <;> rfl
  have hfree : ∀ p ∈ piecesAux "_PROJECT_NAME_".data 0 ((readmeBody bs pt).data.drop 1),
      ¬ "_PROJECT_NAME_".data <:+: p := by
    cases bs <;> cases pt <;> decide
  have hd : delimitedPieces
      (piecesAux "_PROJECT_NAME_".data 0 ((readmeBody bs pt).data.drop 1)) = true := by
    cases bs <;> cases pt <;> decide
  have hdata : ("# " ++ n ++ readmeBody bs pt).data
      = ['#'] ++ ' ' :: (n.data ++ '\n' :: (readmeBody bs pt).data.drop 1) := by
    rw [String.data_append, String.data_append, hbody]
    simp
  rw [getReadmeContent_eq, findAndReplaceAll_data _ _ _ (by decide), hdata,
    findAndReplaceAllAux_split _ _ ' ' (by decide) hne 0 _ _ (Nat.zero_le _),
    findAndReplaceAllAux_split _ _ '\n' (by decide) hne 0 _ _ (Nat.zero_le _),
    findAndReplaceAllAux_id _ _ n.data hn, findAndReplaceAllAux_id _ _ ['#'] (by decide)]
  intro hin
  rcases infix_of_infix_sep _ _ _ ' ' (by decide) hin with h1 | h1
  · revert h1
    decide
  · rcases infix_of_infix_sep _ _ _ '\n' (by decide) h1 with h2 | h2
    · exact hn h2
    · rw [findAndReplaceAllAux_eq_intercalate] at h2
      exact intercalate_name_free _ _ (by decide) hn _ hfree hd (piecesAux_ne_nil _ _ _) h2

set_option maxRecDepth 100000 in
/-- Where the placeholder survives: for every name that does not contain
`_PROJECT_NAME_`, every project type and every build system, the three main
files, the Makefile, the CMake file, the autocc file and the README are free
of the placeholder, and the `.gitignore` text has it. -/
theorem placeholder_only_in_gitignore (n : String) (pt : ProjectType) (bs : BuildSystem)
    (hpt : pt ≠ ProjectType.Unknown) (hn : ¬ "_PROJECT_NAME_".data <:+: n.data) :
    ¬ "_PROJECT_NAME_".data <:+: getCMainContent.data ∧
    ¬ "_PROJECT_NAME_".data <:+: getCPPMainContent.data ∧
    ¬ "_PROJECT_NAME_".data <:+: getASMMainContent.data ∧
    ¬ "_PROJECT_NAME_".data <:+: (getMakefileContent pt n).data ∧
    ¬ "_PROJECT_NAME_".data <:+: (getCMakeContent pt n).data ∧
    ¬ "_PROJECT_NAME_".data <:+: (getAutoccContent pt n).data ∧
    ¬ "_PROJECT_NAME_".data <:+: (getReadmeContent bs pt n).data ∧
    "_PROJECT_NAME_".data <:+: getGitignoreContent.data :=
  ⟨by decide, by decide, by decide, makefile_free pt n hn, cmake_free pt n hn,
    autocc_free pt n hpt hn, readme_free bs pt n hn,
    ⟨"# Build artifacts\nbuild/\n*.o\n*.obj\n*.exe\n*.out\na.out\n".data,
      ("\n\n# IDE files\n.vscode/\n.idea/\n*.swp\n*.swo\ncompile_commands.json\n\n"
        ++ "# System files\n.DS_Store\nThumbs.db\n").data, by decide⟩⟩

set_option maxRecDepth 100000 in
/-- C22, evaluated on the wizard run that is given the name `demo`, the Mixed
type, the current directory as workspace, CMake and the answer `y`: the name
is valid and does not contain `_PROJECT_NAME_`, and the run writes
`.gitignore` with the text of `getGitignoreContent`, which still has the
placeholder in it (the line after `a.out`).  The other files of the same
run are free of it: the README and the CMake file have the name in its
place. -/
theorem C22_gitignore_keeps_placeholder :
    isValidProjectName "demo" = true ∧ ¬ "_PROJECT_NAME_".data <:+: "demo".data ∧
    (ProjectCreator.run sampleEnv {} ["demo", "3", "1", "2", "y"] sampleWorld).fs
        "/home/dev/proj/demo/.gitignore"
      = some (Node.file sampleEnv.createMode getGitignoreContent) ∧
    getGitignoreContent.data
      = "# Build artifacts\nbuild/\n*.o\n*.obj\n*.exe\n*.out\na.out\n".data
          ++ "_PROJECT_NAME_".data
          ++ ("\n\n# IDE files\n.vscode/\n.idea/\n*.swp\n*.swo\ncompile_commands.json\n\n"
              ++ "# System files\n.DS_Store\nThumbs.db\n").data ∧
    "_PROJECT_NAME_".data <:+: getGitignoreContent.data ∧
    (ProjectCreator.run sampleEnv {} ["demo", "3", "1", "2", "y"] sampleWorld).fs
        "/home/dev/proj/demo/README.md"
      = some (Node.file sampleEnv.createMode
          (getReadmeContent BuildSystem.CMake ProjectType.Mixed "demo")) ∧
    ¬ "_PROJECT_NAME_".data <:+:
      (getReadmeContent BuildSystem.CMake ProjectType.Mixed "demo").data ∧
    ¬ "_PROJECT_NAME_".data <:+: (getCMakeContent ProjectType.Mixed "demo").data := by
  refine ⟨by decide, by decide, by decide, by decide, ?_, by decide, by decide, by decide⟩
  exact ⟨"# Build artifacts\nbuild/\n*.o\n*.obj\n*.exe\n*.out\na.out\n".data,
    ("\n\n# IDE files\n.vscode/\n.idea/\n*.swp\n*.swo\ncompile_commands.json\n\n"
      ++ "# System files\n.DS_Store\nThumbs.db\n").data, by decide⟩

end DVK
